import Mathlib

/-!
# CR tracking console: requests, validation, totals and view logic of the client

A shallow embedding of the parts of the React client that decide which requests are sent to the
remote endpoint and what they carry (`src/api/apiService.js`, `PaymentManagement.jsx`,
`InvoiceManagement.jsx`, `TDSConfig.jsx`, `ChangePassword.jsx`), of its display computations
(`helpers.js`, the dashboards, the PDF paging of `InvoicePDFGenerator.jsx`, the routes of
`App.js`), and of the JavaScript number and string primitives they rely on (`parseFloat`,
`Number`, `isNaN`, `toFixed`, `trim`, `includes`, the relational operators and double-precision
arithmetic).  The billing rules that only the remote system implements are modelled from the
specification in the section `BillingRules`.
-/

set_option autoImplicit false

namespace CRTracking

/-! ## JavaScript numbers

A Number is NaN, an infinity, or a finite IEEE-754 double.  A finite double is carried by its
exact rational value; every arithmetic result is rounded to the nearest double (ties to even) by
`roundDouble`.  Negative zero is identified with zero: the only operations of the embedded code
that could tell them apart (division by zero, `Object.is`) are not used by it. -/

/-- JavaScript Number values. -/
inductive JSNum where
  | nan
  | posInf
  | negInf
  | fin (q : ℚ)
  deriving DecidableEq

namespace JSNum

/-- The scaled numerator and denominator of `n / d / 2 ^ e`. -/
def scaled (n d : Nat) (e : Int) : Nat × Nat :=
  if 0 ≤ e then (n, d * 2 ^ e.toNat) else (n * 2 ^ (-e).toNat, d)

/-- The number of halvings that bring `n` below `2`, at most `fuel` of them. -/
def log2Fuel : Nat → Nat → Nat
  | 0, _ => 0
  | fuel + 1, n => if 2 ≤ n then log2Fuel fuel (n / 2) + 1 else 0

/-- The position of the leading bit of `n`: the floor of the binary logarithm (`0` for `0`). -/
def log2 (n : Nat) : Nat := log2Fuel n n

/-- The binary exponent `e` of the double nearest to `n / d` (for `0 < n`, `0 < d`): the
significand `n / d / 2 ^ e` lies in `[2 ^ 52, 2 ^ 53)`, or `e = -1074` for subnormal values. -/
def binExponent (n d : Nat) : Int :=
  let e0 : Int := (log2 n : Int) - (log2 d : Int) - 52
  let e1 : Int := if 2 ^ 52 ≤ (scaled n d e0).1 / (scaled n d e0).2 then e0 else e0 - 1
  max e1 (-1074)

/-- The integer significand of the double nearest to `n / d` at exponent `e`: the quotient
rounded to nearest, ties to even. -/
def significand (n d : Nat) (e : Int) : Nat :=
  let a := (scaled n d e).1
  let b := (scaled n d e).2
  let m := a / b
  let r := a % b
  if b < 2 * r ∨ (2 * r = b ∧ m % 2 = 1) then m + 1 else m

/-- The rational `m * 2 ^ e`. -/
def dyadic (m : Nat) (e : Int) : ℚ :=
  if 0 ≤ e then ((m * 2 ^ e.toNat : Nat) : ℚ) else (m : ℚ) / ((2 ^ (-e).toNat : Nat) : ℚ)

/-- Round the positive rational `n / d` to the nearest double, ties to even; values that round
to `2 ^ 1024` or more overflow to infinity. -/
def roundPos (n d : Nat) : Option ℚ :=
  let e := binExponent n d
  let m := significand n d e
  if 971 < e ∨ (e = 971 ∧ 2 ^ 53 ≤ m) then none else some (dyadic m e)

/-- Round a rational to the nearest double (IEEE-754 binary64, round to nearest, ties to even). -/
def roundDouble (q : ℚ) : JSNum :=
  if q = 0 then fin 0
  else if 0 < q then
    match roundPos q.num.toNat q.den with
    | some r => fin r
    | none => posInf
  else
    match roundPos (-q).num.toNat q.den with
    | some r => fin (-r)
    | none => negInf

/-- JavaScript `x < y`: false whenever an operand is NaN. -/
def lt : JSNum → JSNum → Bool
  | nan, _ => false
  | _, nan => false
  | posInf, _ => false
  | _, negInf => false
  | negInf, _ => true
  | fin _, posInf => true
  | fin a, fin b => decide (a < b)

/-- JavaScript `x > y`. -/
def gt (x y : JSNum) : Bool := lt y x

/-- JavaScript `x <= y`: false whenever an operand is NaN, otherwise the negation of `y < x`. -/
def le : JSNum → JSNum → Bool
  | nan, _ => false
  | _, nan => false
  | x, y => !(lt y x)

/-- JavaScript `x >= y`. -/
def ge (x y : JSNum) : Bool := le y x

/-- ToBoolean on a Number: NaN and zero are falsy. -/
def truthy : JSNum → Bool
  | nan => false
  | fin q => decide (q ≠ 0)
  | _ => true

/-- The global `isNaN` on a Number. -/
def isNaN : JSNum → Bool
  | nan => true
  | _ => false

/-- Unary minus. -/
def neg : JSNum → JSNum
  | nan => nan
  | posInf => negInf
  | negInf => posInf
  | fin q => fin (-q)

/-- JavaScript `x + y` on Numbers. -/
def add : JSNum → JSNum → JSNum
  | nan, _ => nan
  | _, nan => nan
  | posInf, negInf => nan
  | negInf, posInf => nan
  | posInf, _ => posInf
  | negInf, _ => negInf
  | _, posInf => posInf
  | _, negInf => negInf
  | fin a, fin b => roundDouble (a + b)

/-- JavaScript `x - y` on Numbers. -/
def sub (x y : JSNum) : JSNum := add x (neg y)

/-- The sign of a non-NaN Number: `-1`, `0` or `1`. -/
def sign : JSNum → Int
  | nan => 0
  | posInf => 1
  | negInf => -1
  | fin q => if 0 < q then 1 else if q < 0 then -1 else 0

/-- JavaScript `x * y` on Numbers. -/
def mul : JSNum → JSNum → JSNum
  | nan, _ => nan
  | _, nan => nan
  | fin a, fin b => roundDouble (a * b)
  | x, y =>
    if sign x * sign y = 0 then nan else if 0 < sign x * sign y then posInf else negInf

/-- JavaScript `x / y` on Numbers.  A zero divisor is taken as positive zero. -/
def div : JSNum → JSNum → JSNum
  | nan, _ => nan
  | _, nan => nan
  | fin a, fin b =>
    if b = 0 then (if a = 0 then nan else if 0 < a then posInf else negInf)
    else roundDouble (a / b)
  | fin _, _ => fin 0
  | x, fin b => if 0 ≤ b then x else neg x
  | _, _ => nan

end JSNum

/-! ## Strings to numbers: `parseFloat` and `Number` -/

/-- ECMAScript WhiteSpace and LineTerminator code points (what `trim` and the numeric string
grammar skip). -/
def isWhiteSpace (c : Char) : Bool :=
  [0x09, 0x0A, 0x0B, 0x0C, 0x0D, 0x20, 0xA0, 0x1680, 0x2028, 0x2029, 0x202F, 0x205F, 0x3000,
    0xFEFF].contains c.toNat || (0x2000 ≤ c.toNat && c.toNat ≤ 0x200A)

/-- A decimal digit `0`..`9`. -/
def isDecDigit (c : Char) : Bool := 48 ≤ c.toNat && c.toNat ≤ 57

/-- The value of a digit in bases up to 16; `none` when the character is not a digit. -/
def digitValue (c : Char) : Option Nat :=
  if 48 ≤ c.toNat && c.toNat ≤ 57 then some (c.toNat - 48)
  else if 97 ≤ c.toNat && c.toNat ≤ 102 then some (c.toNat - 87)
  else if 65 ≤ c.toNat && c.toNat ≤ 70 then some (c.toNat - 55)
  else none

/-- The value of a run of decimal digits. -/
def decValue (ds : List Char) : Nat :=
  ds.foldl (fun acc c => 10 * acc + (c.toNat - 48)) 0

/-- Does the text start with the given characters? -/
def startsWith : List Char → List Char → Bool
  | _, [] => true
  | [], _ :: _ => false
  | c :: cs, p :: ps => c == p && startsWith cs ps

/-- The mathematical value `mant * 10 ^ exp10` of a decimal literal. -/
def decimalValue (mant : Nat) (exp10 : Int) : ℚ :=
  if 0 ≤ exp10 then ((mant * 10 ^ exp10.toNat : Nat) : ℚ)
  else (mant : ℚ) / ((10 ^ (-exp10).toNat : Nat) : ℚ)

/-- The optional `.digits` part after the integer digits `ip` of a decimal literal: the fraction
digits and the text after them.  A lone `.` with no digit on either side is not consumed. -/
def fractionPart (ip : List Char) (r : List Char) : List Char × List Char :=
  match r with
  | '.' :: t =>
    if ip.isEmpty && (t.span isDecDigit).1.isEmpty then ([], r) else t.span isDecDigit
  | _ => ([], r)

/-- The optional ExponentPart (`e` or `E`, an optional sign, at least one digit) at the head of
`r`: its value and the text after it.  An incomplete exponent is not consumed. -/
def exponentPart (r : List Char) : Int × List Char :=
  match r with
  | c :: t =>
    if c == 'e' || c == 'E' then
      match t with
      | '+' :: u =>
        if (u.span isDecDigit).1.isEmpty then (0, r)
        else ((decValue (u.span isDecDigit).1 : Int), (u.span isDecDigit).2)
      | '-' :: u =>
        if (u.span isDecDigit).1.isEmpty then (0, r)
        else (-(decValue (u.span isDecDigit).1 : Int), (u.span isDecDigit).2)
      | _ =>
        if (t.span isDecDigit).1.isEmpty then (0, r)
        else ((decValue (t.span isDecDigit).1 : Int), (t.span isDecDigit).2)
    else (0, r)
  | [] => (0, r)

/-- The longest head of the text that is a StrUnsignedDecimalLiteral (`Infinity`, `digits`,
`digits.`, `digits.digits`, `.digits`, each but the first with an optional exponent): its value,
`none` standing for infinity, and the text after it.  `none` when no head is a literal. -/
def strUnsignedDecimalLiteral (cs : List Char) : Option (Option ℚ × List Char) :=
  if startsWith cs "Infinity".data then some (none, cs.drop 8)
  else
    let ip := (cs.span isDecDigit).1
    let fr := fractionPart ip (cs.span isDecDigit).2
    if ip.isEmpty && fr.1.isEmpty then none
    else
      let ex := exponentPart fr.2
      some (some (decimalValue (decValue (ip ++ fr.1)) (ex.1 - fr.1.length)), ex.2)

/-- The longest head of the text that is a StrDecimalLiteral (an optional sign and an unsigned
literal): its Number value and the text after it. -/
def strDecimalLiteral (cs : List Char) : Option (JSNum × List Char) :=
  match cs with
  | '-' :: t =>
    match strUnsignedDecimalLiteral t with
    | some (some q, r) => some (JSNum.roundDouble (-q), r)
    | some (none, r) => some (JSNum.negInf, r)
    | none => none
  | '+' :: t =>
    match strUnsignedDecimalLiteral t with
    | some (some q, r) => some (JSNum.roundDouble q, r)
    | some (none, r) => some (JSNum.posInf, r)
    | none => none
  | _ =>
    match strUnsignedDecimalLiteral cs with
    | some (some q, r) => some (JSNum.roundDouble q, r)
    | some (none, r) => some (JSNum.posInf, r)
    | none => none

/-- The global `parseFloat` on a string: leading white space is skipped, the longest head that
is a decimal literal is converted, whatever follows is ignored; NaN when there is no literal. -/
def parseFloat (s : String) : JSNum :=
  match strDecimalLiteral (s.data.dropWhile isWhiteSpace) with
  | some (x, _) => x
  | none => JSNum.nan

/-- The value of a run of digits in the given base, `none` when a character is not a digit of
that base. -/
def radixValue (base : Nat) (ds : List Char) : Option Nat :=
  ds.foldl
    (fun acc c =>
      match acc, digitValue c with
      | some a, some v => if v < base then some (base * a + v) else none
      | _, _ => none)
    (some 0)

/-- A NonDecimalIntegerLiteral body (the digits after `0x`, `0o` or `0b`). -/
def nonDecimalLiteral (base : Nat) (ds : List Char) : JSNum :=
  if ds.isEmpty then JSNum.nan
  else
    match radixValue base ds with
    | some v => JSNum.roundDouble (v : ℚ)
    | none => JSNum.nan

/-- A StrDecimalLiteral that must span the whole text. -/
def wholeDecimalLiteral (cs : List Char) : JSNum :=
  match strDecimalLiteral cs with
  | some (x, []) => x
  | _ => JSNum.nan

/-- ToNumber on a string (`Number(s)`, and the coercion the global `isNaN` applies): white space
is trimmed on both sides, the empty text is `0`, `0x`/`0o`/`0b` literals are read in their base,
and anything else must be a decimal literal as a whole, or the result is NaN. -/
def stringToNumber (s : String) : JSNum :=
  match ((s.data.dropWhile isWhiteSpace).reverse.dropWhile isWhiteSpace).reverse with
  | [] => JSNum.fin 0
  | '0' :: x :: ds =>
    if x == 'x' || x == 'X' then nonDecimalLiteral 16 ds
    else if x == 'o' || x == 'O' then nonDecimalLiteral 8 ds
    else if x == 'b' || x == 'B' then nonDecimalLiteral 2 ds
    else wholeDecimalLiteral ('0' :: x :: ds)
  | cs => wholeDecimalLiteral cs

/-! ## The value of `<input type="number">` -/

/-- The optional exponent that ends a valid floating-point number of HTML: nothing, or `e` or
`E`, an optional sign, and one or more digits up to the end of the text. -/
def validExponent (r : List Char) : Bool :=
  match r with
  | c :: t =>
    (c == 'e' || c == 'E') &&
      (match t with
        | '+' :: u => !u.isEmpty && u.all isDecDigit
        | '-' :: u => !u.isEmpty && u.all isDecDigit
        | _ => !t.isEmpty && t.all isDecDigit)
  | [] => true

/-- A valid floating-point number of HTML after its optional minus sign: digits, or digits
`.` digits, or `.` digits, each followed by an optional exponent. -/
def validUnsignedFloat (cs : List Char) : Bool :=
  match (cs.span isDecDigit).2 with
  | '.' :: t => !(t.span isDecDigit).1.isEmpty && validExponent (t.span isDecDigit).2
  | r => !(cs.span isDecDigit).1.isEmpty && validExponent r

/-- Is the text a valid floating-point number of HTML: an optional `-`, then digits and/or `.`
with digits, then an optional exponent? -/
def isValidFloatingPointNumber (s : String) : Bool :=
  match s.data with
  | '-' :: t => validUnsignedFloat t
  | cs => validUnsignedFloat cs

/-- Can the text be the `value` of an `<input type="number">`, as the amount field of the
Record Payment form and the percentage field of the TDS form are?  The value sanitization
algorithm of such an input sets its value to the empty string unless it is a valid
floating-point number. -/
def isNumberInputValue (s : String) : Bool := s.isEmpty || isValidFloatingPointNumber s

/-! ## Numbers to strings: `toFixed` -/

/-- Drop the zeros at the end of a digit string. -/
def stripTrailingZeros (ds : List Char) : List Char :=
  (ds.reverse.dropWhile (fun c => c == '0')).reverse

/-- The shortest decimal `s * 10 ^ (n - k)` that reads back as the integer double `x` of `n`
digits, trying the digit counts of the list in turn (Number::toString picks the least `k`, and
among two candidates the closer one, the even one on a tie). -/
def shortestDecimal (x n : Nat) : List Nat → Nat
  | [] => x
  | k :: ks =>
    let scale := 10 ^ (n - k)
    let lo := x / scale * scale
    let hi := lo + scale
    if JSNum.roundDouble (lo : ℚ) = JSNum.fin x ∧ JSNum.roundDouble (hi : ℚ) = JSNum.fin x then
      (if x - lo < hi - x ∨ (x - lo = hi - x ∧ x / scale % 2 = 0) then lo else hi)
    else if JSNum.roundDouble (lo : ℚ) = JSNum.fin x then lo
    else if JSNum.roundDouble (hi : ℚ) = JSNum.fin x then hi
    else shortestDecimal x n ks

/-- Number::toString for an integer double of at least `10 ^ 21`: the shortest digits that read
back as the double, in exponent form (`1e+21`, `1.5e+300`). -/
def toStringLarge (x : Nat) : String :=
  let n := (Nat.repr x).length
  let v := Nat.repr (shortestDecimal x n ((List.range n).map (fun i => i + 1)))
  let ds := stripTrailingZeros v.data
  String.mk
    (ds.take 1 ++ (if (ds.drop 1).isEmpty then [] else '.' :: ds.drop 1) ++ "e+".data
      ++ (Nat.repr (v.length - 1)).data)

/-- The integer `n` for which `n / 10 ^ f` is closest to `x ≥ 0`, the larger one of two. -/
def nearestScaled (f : Nat) (x : ℚ) : Nat :=
  (⌊x * 10 ^ f + 1 / 2⌋).toNat

/-- The digits of `n` with a decimal point before the last `f` of them, padded with zeros on
the left so that at least one digit stands before the point. -/
def fixedDigits (f n : Nat) : String :=
  let m := (Nat.repr n).data
  let p := List.replicate (f + 1 - m.length) '0' ++ m
  if f = 0 then String.mk m
  else String.mk (p.take (p.length - f) ++ '.' :: p.drop (p.length - f))

/-- Number.prototype.toFixed for `0 ≤ f ≤ 100` (`x.toFixed(f)`). -/
def toFixed (f : Nat) : JSNum → String
  | JSNum.nan => "NaN"
  | JSNum.posInf => "Infinity"
  | JSNum.negInf => "-Infinity"
  | JSNum.fin q =>
    (if q < 0 then "-" else "") ++
      (if 10 ^ 21 ≤ |q| then toStringLarge |q|.num.toNat
       else fixedDigits f (nearestScaled f |q|))

/-! ## JavaScript values and objects -/

/-- The JavaScript values that travel through the client: what JSON decodes to, plus
`undefined` (an absent property) and the non-finite Numbers. -/
inductive JSValue where
  | undefined
  | null
  | bool (b : Bool)
  | num (x : JSNum)
  | str (s : String)
  | arr (items : List JSValue)
  | obj (fields : List (String × JSValue))

/-- An object as the list of its property definitions in source order.  A later definition of
a key overwrites an earlier one, so a property read takes the last definition (`get`), and the
literal `{a, b, ...data}` is the list `[a, b] ++ data`. -/
abbrev JSObject := List (String × JSValue)

/-- The last definition of key `k`, if any. -/
def JSObject.lookup : JSObject → String → Option JSValue
  | [], _ => none
  | (k', v) :: rest, k =>
    match JSObject.lookup rest k with
    | some w => some w
    | none => if k' = k then some v else none

/-- The property read `o[k]` (`o.k`): `undefined` for an absent key. -/
def JSObject.get (o : JSObject) (k : String) : JSValue :=
  (o.lookup k).getD JSValue.undefined

/-- Does the object define the key? -/
def JSObject.hasKey (o : JSObject) (k : String) : Bool :=
  o.any (fun p => p.1 == k)

namespace JSValue

/-- ToBoolean. -/
def truthy : JSValue → Bool
  | undefined => false
  | null => false
  | bool b => b
  | num x => x.truthy
  | str s => !s.isEmpty
  | arr _ => true
  | obj _ => true

/-- Is the value `null` or `undefined`?  Reading a property of such a value throws a TypeError. -/
def isNullish : JSValue → Bool
  | undefined => true
  | null => true
  | _ => false

/-- The property read `v.k` on a value that is not nullish, for a key that is not a built-in
property of strings and arrays (`success`, `error`, `message`, `data`): an object answers with
its property, every other value with `undefined`. -/
def getProp : JSValue → String → JSValue
  | obj fields => fun k => JSObject.get fields k
  | _ => fun _ => undefined

/-- The global `parseFloat` on any value: `parseFloat(ToString(v))`.  A Number reads back as
itself, an array reads as its first element (the text before the first comma of its join), and
`undefined`, `null`, booleans and plain objects give NaN. -/
def parseFloat : JSValue → JSNum
  | num x => x
  | str s => CRTracking.parseFloat s
  | arr (v :: _) => parseFloat v
  | _ => JSNum.nan

end JSValue

/-! ## `src/api/apiService.js` -/

/-- What `fetch` and `response.json()` produce for one request: a rejected fetch, or a response
with its `ok` flag, its status and the decoded body (`none` when the body is not JSON). -/
inductive FetchOutcome where
  | networkError (message : String)
  | response (ok : Bool) (status : Nat) (json : Option JSValue)

/-- The errors `callAPI` rethrows. -/
inductive CallError where
  /-- The rejected `fetch`. -/
  | network (message : String)
  /-- The `Error` thrown for a response that is not `ok`. -/
  | http (status : Nat)
  /-- The rejection of `response.json()`. -/
  | decode
  /-- The TypeError of reading `result.success` on `null`. -/
  | nullResult
  deriving DecidableEq

/-- The toasts the client raises. -/
inductive Toast where
  /-- The call `toast.error(text)` with a fixed text. -/
  | error (text : String)
  /-- The call `toast.error(result.error)` with the server's error value. -/
  | apiError (content : JSValue)
  /-- The call `toast.error('Network error: ' + error.message)`. -/
  | networkError (cause : CallError)
  /-- The payment form's "amount exceeds total balance" message with its two amounts. -/
  | exceedsBalance (amount total : JSNum)
  /-- The call `toast.success(text)` with a fixed text. -/
  | success (text : String)
  /-- The call `toast.success(response.message)` with the server's message. -/
  | successValue (content : JSValue)

/-- What one `callAPI` call did: the request bodies handed to `fetch` (the objects given to
`JSON.stringify`), the toasts raised, and the value returned or the error thrown. -/
structure CallResult where
  requests : List JSObject
  toasts : List Toast
  result : Except CallError JSValue

/-- The value of `localStorage.getItem('token')`: the stored string, `null` when none is
stored. -/
def tokenValue : Option String → JSValue
  | some t => JSValue.str t
  | none => JSValue.null

/-- The `requestData` object of `callAPI`: `{ action, token, ...data }`. -/
def requestData (token : Option String) (action : String) (data : JSObject) : JSObject :=
  [("action", JSValue.str action), ("token", tokenValue token)] ++ data

/-- The helper `callAPI(action, data)`, run against the stored token (`localStorage.getItem`
gives `null` when there is none) and the outcome of its one `fetch`. -/
def callAPI (token : Option String) (action : String) (data : JSObject) (net : FetchOutcome) :
    CallResult :=
  match net with
  | FetchOutcome.networkError m =>
    { requests := [requestData token action data],
      toasts := [Toast.networkError (CallError.network m)],
      result := Except.error (CallError.network m) }
  | FetchOutcome.response ok status json =>
    if !ok then
      { requests := [requestData token action data],
        toasts := [Toast.networkError (CallError.http status)],
        result := Except.error (CallError.http status) }
    else
      match json with
      | none =>
        { requests := [requestData token action data],
          toasts := [Toast.networkError CallError.decode],
          result := Except.error CallError.decode }
      | some result =>
        if result.isNullish then
          { requests := [requestData token action data],
            toasts := [Toast.networkError CallError.nullResult],
            result := Except.error CallError.nullResult }
        else
          { requests := [requestData token action data],
            toasts :=
              if !(result.getProp "success").truthy && (result.getProp "error").truthy then
                [Toast.apiError (result.getProp "error")]
              else [],
            result := Except.ok result }

/-- The call `invoiceAPI.generate(crNumber, advanceAmount)`. -/
def invoiceAPI_generate (token : Option String) (crNumber : String) (advanceAmount : JSNum)
    (net : FetchOutcome) : CallResult :=
  callAPI token "generateInvoice"
    [("crNumber", JSValue.str crNumber), ("advanceAmount", JSValue.num advanceAmount)] net

/-- The call `paymentAPI.record(paymentData)`. -/
def paymentAPI_record (token : Option String) (paymentData : JSObject) (net : FetchOutcome) :
    CallResult :=
  callAPI token "recordPayment" [("paymentData", JSValue.obj paymentData)] net

/-- The call `tdsAPI.update(effectiveDate, tdsPercentage)`. -/
def tdsAPI_update (token : Option String) (effectiveDate : String) (tdsPercentage : JSNum)
    (net : FetchOutcome) : CallResult :=
  callAPI token "updateTDSConfig"
    [("effectiveDate", JSValue.str effectiveDate), ("tdsPercentage", JSValue.num tdsPercentage)]
    net

/-- What one run of a submit handler did: the component state after it, the request bodies it
sent, the toasts it raised, and whether it started a reload of the lists (`fetchInitialData`,
`fetchTDSData`). -/
structure HandlerResult (σ : Type) where
  state : σ
  requests : List JSObject
  toasts : List Toast
  reload : Bool

/-- The expression `x || 0` on a Number: `x` when it is truthy, else `0`. -/
def JSNum.orZero (x : JSNum) : JSNum := if x.truthy then x else JSNum.fin 0

/-! ## `src/components/admin/PaymentManagement.jsx` -/

namespace PaymentManagement

/-- An invoice of `unpaidInvoices`, by the two fields the payment form computes with.
`Balance_Amount` is whatever the server sent (`undefined` when the field is absent). -/
structure Invoice where
  Invoice_Number : String
  Balance_Amount : JSValue

/-- The state `paymentFormData`. -/
structure PaymentFormData where
  paymentDate : String
  amount : String
  paymentMode : String
  transactionReference : String
  remarks : String

/-- The state `advanceFormData`. -/
structure AdvanceFormData where
  developerId : String
  date : String
  amount : String
  purpose : String

/-- The state variables of the `PaymentManagement` component. -/
structure State where
  payments : List JSValue
  advances : List JSValue
  developers : List JSValue
  unpaidInvoices : List Invoice
  loading : Bool
  activeTab : String
  showPaymentModal : Bool
  showAdvanceModal : Bool
  selectedDeveloper : String
  selectedInvoices : List String
  paymentFormData : PaymentFormData
  advanceFormData : AdvanceFormData
  submitting : Bool

/-- The function `getTotalBalance`: the sum over the selected invoice numbers of the parsed
balance of the unpaid invoice with that number, `0` for a missing invoice or an unparsable
balance. -/
def getTotalBalance (s : State) : JSNum :=
  s.selectedInvoices.foldl
    (fun total invNumber =>
      total.add
        (JSValue.parseFloat
          (match s.unpaidInvoices.find? (fun inv => inv.Invoice_Number == invNumber) with
            | some invoice => invoice.Balance_Amount
            | none => JSValue.undefined)).orZero)
    (JSNum.fin 0)

/-- The object `paymentData` that `handlePaymentSubmit` builds. -/
def paymentData (s : State) (paymentAmount : JSNum) : JSObject :=
  [("developerId", JSValue.str s.selectedDeveloper),
    ("invoiceNumbers", JSValue.arr (s.selectedInvoices.map JSValue.str)),
    ("paymentDate", JSValue.str s.paymentFormData.paymentDate),
    ("amount", JSValue.num paymentAmount),
    ("paymentMode", JSValue.str s.paymentFormData.paymentMode),
    ("transactionReference", JSValue.str s.paymentFormData.transactionReference),
    ("remarks", JSValue.str s.paymentFormData.remarks)]

/-- The `disabled` attribute of the submit button of the Record Payment form,
`submitting || selectedInvoices.length === 0`: a form whose submit button is disabled is not
submitted, by a click or by the Enter key. -/
def submitDisabled (s : State) : Bool := s.submitting || s.selectedInvoices.length == 0

/-- The handler `handlePaymentSubmit`, run to completion against the outcome `net` of the one
request it may send. -/
def handlePaymentSubmit (s : State) (token : Option String) (net : FetchOutcome) :
    HandlerResult State :=
  if s.selectedDeveloper = "" then
    { state := s, requests := [], toasts := [Toast.error "Please select a developer"],
      reload := false }
  else if s.selectedInvoices.length = 0 then
    { state := s, requests := [], toasts := [Toast.error "Please select at least one invoice"],
      reload := false }
  else if s.paymentFormData.amount = "" ∨
      (parseFloat s.paymentFormData.amount).le (JSNum.fin 0) = true then
    { state := s, requests := [], toasts := [Toast.error "Please enter a valid amount"],
      reload := false }
  else if (parseFloat s.paymentFormData.amount).gt (getTotalBalance s) = true then
    { state := s, requests := [],
      toasts := [Toast.exceedsBalance (parseFloat s.paymentFormData.amount) (getTotalBalance s)],
      reload := false }
  else
    match (paymentAPI_record token (paymentData s (parseFloat s.paymentFormData.amount)) net) with
    | { requests := reqs, toasts := ts, result := Except.ok response } =>
      if (response.getProp "success").truthy then
        { state := { s with showPaymentModal := false, submitting := false },
          requests := reqs,
          toasts := ts ++
            [if (response.getProp "message").truthy then
                Toast.successValue (response.getProp "message")
              else Toast.success "Payment recorded successfully"],
          reload := true }
      else
        { state := { s with submitting := false }, requests := reqs, toasts := ts,
          reload := false }
    | { requests := reqs, toasts := ts, result := Except.error _ } =>
      { state := { s with submitting := false }, requests := reqs,
        toasts := ts ++ [Toast.error "Failed to record payment"], reload := false }

end PaymentManagement

/-! ## `src/components/admin/InvoiceManagement.jsx` -/

namespace InvoiceManagement

/-- A change request of the loaded list `crs`, by the fields the invoice page reads. -/
structure CR where
  CR_Number : String
  Title : String
  Developer_ID : String
  Status : String

/-- The state variables of the `InvoiceManagement` component. -/
structure State where
  invoices : List JSValue
  filteredInvoices : List JSValue
  crs : List CR
  developers : List JSValue
  clients : List JSValue
  loading : Bool
  searchTerm : String
  statusFilter : String
  showGenerateModal : Bool
  showDetailModal : Bool
  selectedInvoice : JSValue
  selectedCR : String
  advanceAmount : String
  availableAdvance : JSNum
  generating : Bool
  downloadingPDF : Bool

/-- The function `getReadyForBillingCRs`. -/
def getReadyForBillingCRs (s : State) : List CR :=
  s.crs.filter (fun cr => cr.Status == "Ready for Billing")

/-- The `value`s of the options of the "Select CR" control: the empty placeholder and the
number of every CR that `getReadyForBillingCRs` returns. -/
def selectCROptions (s : State) : List String :=
  "" :: (getReadyForBillingCRs s).map (fun cr => cr.CR_Number)

/-- The handler `handleGenerate`, run to completion against the outcome `net` of the one
request it may send. -/
def handleGenerate (s : State) (token : Option String) (net : FetchOutcome) :
    HandlerResult State :=
  if s.selectedCR = "" then
    { state := s, requests := [], toasts := [Toast.error "Please select a CR"],
      reload := false }
  else if (parseFloat s.advanceAmount).orZero.lt (JSNum.fin 0) = true then
    { state := s, requests := [], toasts := [Toast.error "Advance amount cannot be negative"],
      reload := false }
  else
    match invoiceAPI_generate token s.selectedCR (parseFloat s.advanceAmount).orZero net with
    | { requests := reqs, toasts := ts, result := Except.ok response } =>
      if (response.getProp "success").truthy then
        { state := { s with showGenerateModal := false, generating := false },
          requests := reqs, toasts := ts ++ [Toast.success "Invoice generated successfully"],
          reload := true }
      else
        { state := { s with generating := false }, requests := reqs, toasts := ts,
          reload := false }
    | { requests := reqs, toasts := ts, result := Except.error _ } =>
      { state := { s with generating := false }, requests := reqs,
        toasts := ts ++ [Toast.error "Failed to generate invoice"], reload := false }

end InvoiceManagement

/-! ## `src/components/admin/TDSConfig.jsx` -/

namespace TDSConfig

/-- The state `formData`. -/
structure FormData where
  effectiveDate : String
  tdsPercentage : String

/-- The state `formErrors`: the message under each key, `none` for an absent key. -/
structure FormErrors where
  effectiveDate : Option String
  tdsPercentage : Option String

/-- The state variables of the `TDSConfig` component. -/
structure State where
  currentTDS : JSValue
  tdsHistory : List JSValue
  loading : Bool
  showModal : Bool
  formData : FormData
  formErrors : FormErrors
  submitting : Bool

/-- The `errors` object that `validateForm` builds. -/
def validationErrors (f : FormData) : FormErrors :=
  { effectiveDate := if f.effectiveDate = "" then some "Effective date is required" else none,
    tdsPercentage :=
      if f.tdsPercentage = "" then some "TDS percentage is required"
      else if (stringToNumber f.tdsPercentage).isNaN = true ∨
          (parseFloat f.tdsPercentage).lt (JSNum.fin 0) = true ∨
          (parseFloat f.tdsPercentage).gt (JSNum.fin 100) = true then
        some "TDS percentage must be between 0 and 100"
      else none }

/-- The function `validateForm`: it stores the errors and answers whether there are none. -/
def validateForm (s : State) : State × Bool :=
  ({ s with formErrors := validationErrors s.formData },
    (validationErrors s.formData).effectiveDate.isNone &&
      (validationErrors s.formData).tdsPercentage.isNone)

/-- The handler `handleSubmit`, run to completion against the outcome `net` of the one request
it may send; `today` is `getInputDateFormat(new Date())`. -/
def handleSubmit (s : State) (token : Option String) (today : String) (net : FetchOutcome) :
    HandlerResult State :=
  if (validateForm s).2 = false then
    { state := (validateForm s).1, requests := [],
      toasts := [Toast.error "Please fix the errors in the form"], reload := false }
  else
    match tdsAPI_update token s.formData.effectiveDate (parseFloat s.formData.tdsPercentage)
        net with
    | { requests := reqs, toasts := ts, result := Except.ok response } =>
      if (response.getProp "success").truthy then
        { state :=
            { (validateForm s).1 with
              showModal := false,
              formData := { effectiveDate := today, tdsPercentage := "" },
              submitting := false },
          requests := reqs,
          toasts := ts ++ [Toast.success "TDS configuration updated successfully"],
          reload := true }
      else
        { state := { (validateForm s).1 with submitting := false }, requests := reqs,
          toasts := ts, reload := false }
    | { requests := reqs, toasts := ts, result := Except.error _ } =>
      { state := { (validateForm s).1 with submitting := false }, requests := reqs,
        toasts := ts ++ [Toast.error "Failed to update TDS configuration"], reload := false }

/-- The Number `parseFloat(formData.tdsPercentage || 0)` of the preview. -/
def previewPercentage (text : String) : JSNum :=
  if text = "" then JSNum.fin 0 else parseFloat text

/-- The amount shown on the preview's "TDS @ ..." line,
`((10000 * parseFloat(formData.tdsPercentage || 0)) / 100).toFixed(2)`; the preview is rendered
only for a non-empty percentage text. -/
def previewTDSAmount (text : String) : Option String :=
  if text = "" then none
  else some (toFixed 2 (((JSNum.fin 10000).mul (previewPercentage text)).div (JSNum.fin 100)))

/-- The amount shown on the preview's "Net Amount" line,
`(10000 - (10000 * parseFloat(formData.tdsPercentage || 0)) / 100).toFixed(2)`. -/
def previewNetAmount (text : String) : Option String :=
  if text = "" then none
  else
    some (toFixed 2
      ((JSNum.fin 10000).sub
        (((JSNum.fin 10000).mul (previewPercentage text)).div (JSNum.fin 100))))

end TDSConfig

/-! ## Totals, formatting, the password rule, PDF paging, unpaid invoices, TDS history -/

/-- ToNumber on any value, as the operators `-`, `*`, `/` apply it.  An array converts through
its join: the empty array is `0`, a one-element array converts as its element's text, a longer
one is NaN; a plain object is NaN. -/
def JSValue.toNumber : JSValue → JSNum
  | JSValue.undefined => JSNum.nan
  | JSValue.null => JSNum.fin 0
  | JSValue.bool b => if b then JSNum.fin 1 else JSNum.fin 0
  | JSValue.num x => x
  | JSValue.str s => stringToNumber s
  | JSValue.obj _ => JSNum.nan
  | JSValue.arr [] => JSNum.fin 0
  | JSValue.arr [JSValue.undefined] => JSNum.fin 0
  | JSValue.arr [JSValue.null] => JSNum.fin 0
  | JSValue.arr [JSValue.bool _] => JSNum.nan
  | JSValue.arr [JSValue.num x] => x
  | JSValue.arr [JSValue.str s] => stringToNumber s
  | JSValue.arr [JSValue.obj _] => JSNum.nan
  | JSValue.arr [JSValue.arr items] => JSValue.toNumber (JSValue.arr items)
  | JSValue.arr (_ :: _ :: _) => JSNum.nan

/-- The expression `v || 0` on any value: `v` when it is truthy, else the Number `0`. -/
def JSValue.orZero (v : JSValue) : JSValue := if v.truthy then v else JSValue.num (JSNum.fin 0)

/-- The running sum of Numbers in list order, in double arithmetic, from `0`. -/
def sumNumbers (xs : List JSNum) : JSNum := xs.foldl JSNum.add (JSNum.fin 0)

/-- The parsed amount of a field, `0` when it does not parse to a number. -/
def parsedOrZero (v : JSValue) : JSNum :=
  if JSValue.parseFloat v = JSNum.nan then JSNum.fin 0 else JSValue.parseFloat v

namespace InvoiceManagement

/-- The constant `totalBalance` of the invoice page ("Outstanding Balance"):
`invoices.reduce((sum, inv) => sum + (parseFloat(inv.Balance_Amount) || 0), 0)`, over the
invoice objects of the list. -/
def totalBalance (invoices : List JSValue) : JSNum :=
  invoices.foldl
    (fun sum inv => sum.add (JSValue.parseFloat (inv.getProp "Balance_Amount")).orZero)
    (JSNum.fin 0)

/-- The constant `totalInvoiceAmount` of the invoice page ("Total Invoiced"):
`invoices.reduce((sum, inv) => sum + (parseFloat(inv.Net_Amount) || 0), 0)`. -/
def totalInvoiceAmount (invoices : List JSValue) : JSNum :=
  invoices.foldl
    (fun sum inv => sum.add (JSValue.parseFloat (inv.getProp "Net_Amount")).orZero)
    (JSNum.fin 0)

end InvoiceManagement

/-! ### `src/components/client/Dashboard.jsx` -/

namespace ClientDashboard

/-- The object `dashboardData.billing`, by the two totals the paid amount is computed from
(`undefined` for an absent field). -/
structure Billing where
  totalNet : JSValue
  totalBalance : JSValue

/-- The value `billing?.totalNet || 0` shown as "Net Payable"; `billing` may be absent. -/
def netPayable (billing : Option Billing) : JSValue :=
  (match billing with
    | some b => b.totalNet
    | none => JSValue.undefined).orZero

/-- The value `billing?.totalBalance || 0` shown as "Balance to Pay". -/
def balanceDue (billing : Option Billing) : JSValue :=
  (match billing with
    | some b => b.totalBalance
    | none => JSValue.undefined).orZero

/-- The constant `paidAmount`:
`(billing?.totalNet || 0) - (billing?.totalBalance || 0)`. -/
def paidAmount (billing : Option Billing) : JSNum :=
  (netPayable billing).toNumber.sub (balanceDue billing).toNumber

end ClientDashboard

/-! ### `src/utils/helpers.js` -/

/-- The helper `formatCurrency(amount)`.  `format` stands for the platform's
`new Intl.NumberFormat('en-IN', ...).format`; the early return is the literal of the source,
whose first three characters are U+00E2, U+201A and U+00B9. -/
def formatCurrency (format : JSValue → String) (amount : JSValue) : String :=
  if !amount.truthy &&
      !(match amount with
        | JSValue.num (JSNum.fin q) => decide (q = 0)
        | _ => false) then "â‚¹0.00"
  else format amount

/-- The rendering of the Number 0 by `Intl.NumberFormat('en-IN', { style: 'currency',
currency: 'INR', minimumFractionDigits: 2 })`: the rupee sign U+20B9 and `0.00`. -/
def intlZeroDisplay : String := "₹0.00"

/-- The `length` of a JavaScript string: its number of UTF-16 code units (two for a character
outside the Basic Multilingual Plane). -/
def utf16Length (s : String) : Nat :=
  s.data.foldl (fun n c => n + (if c.toNat < 0x10000 then 1 else 2)) 0

/-- The result object of `validatePassword`. -/
structure PasswordCheck where
  valid : Bool
  message : String
  deriving DecidableEq

/-- The constant `hasUpperCase`: `/[A-Z]/.test(password)`. -/
def hasUpperCase (password : String) : Bool :=
  password.data.any (fun c => 65 ≤ c.toNat && c.toNat ≤ 90)

/-- The constant `hasLowerCase`: `/[a-z]/.test(password)`. -/
def hasLowerCase (password : String) : Bool :=
  password.data.any (fun c => 97 ≤ c.toNat && c.toNat ≤ 122)

/-- The constant `hasNumber`: `/\d/.test(password)`, a digit `0`..`9`. -/
def hasNumber (password : String) : Bool :=
  password.data.any (fun c => 48 ≤ c.toNat && c.toNat ≤ 57)

/-- The helper `validatePassword(password)`. -/
def validatePassword (password : String) : PasswordCheck :=
  if utf16Length password < 8 then
    { valid := false, message := "Password must be at least 8 characters" }
  else if !hasUpperCase password then
    { valid := false, message := "Password must contain at least one uppercase letter" }
  else if !hasLowerCase password then
    { valid := false, message := "Password must contain at least one lowercase letter" }
  else if !hasNumber password then
    { valid := false, message := "Password must contain at least one number" }
  else { valid := true, message := "Strong password" }

/-! ### `src/components/admin/InvoicePDFGenerator.jsx` -/

namespace InvoicePDFGenerator

/-- The `while (heightLeft > 0)` loop of `generatePDF`, run for at most `fuel` iterations:
each iteration adds a page and draws the image at `position = heightLeft - imgHeight`, then
lowers `heightLeft` by `pdfHeight`.  The result is the list of the positions at which the image
was drawn, one per page, or `none` when the loop is still running after `fuel` iterations. -/
def pagingLoop (imgHeight pdfHeight : JSNum) : Nat → JSNum → List JSNum → Option (List JSNum)
  | 0, heightLeft, positions =>
    if heightLeft.gt (JSNum.fin 0) = true then none else some positions
  | fuel + 1, heightLeft, positions =>
    if heightLeft.gt (JSNum.fin 0) = true then
      pagingLoop imgHeight pdfHeight fuel (heightLeft.sub pdfHeight)
        (positions ++ [heightLeft.sub imgHeight])
    else some positions

/-- The paging of `generatePDF`: the image is drawn at position 0 on the first page,
`heightLeft` starts at `imgHeight - pdfHeight`, and the loop adds the further pages. -/
def generatePDFPages (fuel : Nat) (imgHeight pdfHeight : JSNum) : Option (List JSNum) :=
  pagingLoop imgHeight pdfHeight fuel (imgHeight.sub pdfHeight) [JSNum.fin 0]

end InvoicePDFGenerator

/-- The call `invoiceAPI.getAll(filters)`: `callAPI('getInvoices', { filters })`, the argument
placed under the key `filters` of the request data (`undefined` when the call has none). -/
def invoiceAPI_getAll (token : Option String) (filters : JSValue) (net : FetchOutcome) :
    CallResult :=
  callAPI token "getInvoices" [("filters", filters)] net

namespace PaymentManagement

/-- The function `fetchUnpaidInvoices(developerId)`, run to completion against the outcome
`net` of its request, `invoiceAPI.getAll({ filters: { developerId, unpaidOnly: true } })`;
`data` is the list `response.data` of the answer, read as invoice records. -/
def fetchUnpaidInvoices (s : State) (developerId : String) (token : Option String)
    (net : FetchOutcome) (data : List Invoice) : HandlerResult State :=
  match invoiceAPI_getAll token
      (JSValue.obj
        [("filters",
          JSValue.obj
            [("developerId", JSValue.str developerId), ("unpaidOnly", JSValue.bool true)])])
      net with
  | { requests := reqs, toasts := ts, result := Except.ok response } =>
    if (response.getProp "success").truthy then
      { state :=
          { s with
            unpaidInvoices :=
              data.filter
                (fun inv => (JSValue.parseFloat inv.Balance_Amount).gt (JSNum.fin 0)) },
        requests := reqs, toasts := ts, reload := false }
    else { state := s, requests := reqs, toasts := ts, reload := false }
  | { requests := reqs, toasts := ts, result := Except.error _ } =>
    { state := { s with unpaidInvoices := [] }, requests := reqs, toasts := ts,
      reload := false }

end PaymentManagement

namespace TDSConfig

/-- The badges of the TDS history table from row `index` on:
`const isActive = index === 0`, `Active` for an active row and `Historical` otherwise. -/
def historyBadgesFrom : Nat → List JSValue → List String
  | _, [] => []
  | index, _ :: rest =>
    (if index = 0 then "Active" else "Historical") :: historyBadgesFrom (index + 1) rest

/-- The badges of the rows of `tdsHistory.map((config, index) => ...)`, in row order. -/
def historyBadges (tdsHistory : List JSValue) : List String :=
  historyBadgesFrom 0 tdsHistory

/-- The effective date of a history row as the text the server sent (an ISO date, whose
text order is the calendar order); the empty text when the field is no string. -/
def effectiveDate (config : JSValue) : String :=
  match config.getProp "Effective_Date" with
  | JSValue.str s => s
  | _ => ""

/-- A history row with the given effective date and percentage. -/
def historyRow (date : String) (percentage : ℚ) : JSValue :=
  JSValue.obj
    [("Effective_Date", JSValue.str date), ("TDS_Percentage", JSValue.num (JSNum.fin percentage))]

end TDSConfig

/-! ## The billing rules of the remote system

The client holds no code for rate resolution, payment application or aggregation: it sends
`getCurrentTDS`, `recordPayment`, `deletePayment` and `getDashboardData` and renders the
answers.  The definitions of this section follow the specification's sections 4.1, 4.3
and 4.4. -/

namespace BillingRules

/-- A calendar date. -/
structure Date where
  year : Nat
  month : Nat
  day : Nat
  deriving DecidableEq

/-- The position of a date in calendar order (for months and days below 100). -/
def Date.ordinal (d : Date) : Nat := (d.year * 100 + d.month) * 100 + d.day

/-- Modelled from the spec: the entity `TDSRate` of section 3 (the remote system's rate
history is not in the repository), an effective date and a percentage. -/
structure TDSRate where
  effectiveDate : Date
  percentage : ℚ

/-- The failure of `resolveRate`. -/
inductive ResolveError where
  | noApplicableRate
  deriving DecidableEq

/-- The later of two rates; on equal dates the first one stays. -/
def laterRate (best x : TDSRate) : TDSRate :=
  if best.effectiveDate.ordinal < x.effectiveDate.ordinal then x else best

/-- Modelled from the spec: `resolveRate(history, onDate)` of section 4.1, which the repository
does not contain.  The history is filtered to the entries with `effectiveDate ≤ onDate`; if
none is left the call fails with `NoApplicableRateError`; otherwise the entry with the maximum
effective date is returned, and of two entries with the same date the one that comes first in
the newest-first history wins. -/
def resolveRate (history : List TDSRate) (onDate : Date) : Except ResolveError ℚ :=
  match history.filter (fun e => e.effectiveDate.ordinal ≤ onDate.ordinal) with
  | [] => Except.error ResolveError.noApplicableRate
  | e :: es => Except.ok (es.foldl laterRate e).percentage

/-- The status of an invoice. -/
inductive InvoiceStatus where
  | generated
  | sent
  | partiallyPaid
  | paid
  deriving DecidableEq

/-- Modelled from the spec: the entity `Invoice` of section 3, by its amounts and its
status. -/
structure Invoice where
  grossAmount : ℚ
  tdsAmount : ℚ
  advanceAdjusted : ℚ
  netAmount : ℚ
  balanceAmount : ℚ
  status : InvoiceStatus

/-- The failures of payment reconciliation. -/
inductive PaymentError where
  | exceedsBalance
  | aboveNetAmount
  deriving DecidableEq

/-- Modelled from the spec: the status rule of section 4.3, "0 → Paid, (0, net) → Partially
Paid, unchanged otherwise". -/
def recalculateStatus (netAmount balanceAmount : ℚ) (status : InvoiceStatus) : InvoiceStatus :=
  if balanceAmount = 0 then InvoiceStatus.paid
  else if 0 < balanceAmount ∧ balanceAmount < netAmount then InvoiceStatus.partiallyPaid
  else status

/-- Modelled from the spec: `applyPayment(invoice, amount)` of section 4.3, which the
repository does not contain (the client sends `recordPayment`).  The amount of a payment is a
non-negative decimal; it is rejected when it exceeds the balance, otherwise the balance is
lowered by it and the status recalculated. -/
def applyPayment (invoice : Invoice) (amount : NNRat) : Except PaymentError Invoice :=
  if invoice.balanceAmount < (amount : ℚ) then Except.error PaymentError.exceedsBalance
  else
    Except.ok
      { invoice with
        balanceAmount := invoice.balanceAmount - (amount : ℚ),
        status :=
          recalculateStatus invoice.netAmount (invoice.balanceAmount - (amount : ℚ))
            invoice.status }

/-- Modelled from the spec: `deletePayment(invoice, payment)` of section 4.3, which the
repository does not contain (the client sends `deletePayment`).  The amount of the deleted
payment is added back to the balance and the status recalculated; a deletion that would drive
the balance above the net amount is refused (the invariant guard). -/
def deletePayment (invoice : Invoice) (amount : NNRat) : Except PaymentError Invoice :=
  if invoice.netAmount < invoice.balanceAmount + (amount : ℚ) then
    Except.error PaymentError.aboveNetAmount
  else
    Except.ok
      { invoice with
        balanceAmount := invoice.balanceAmount + (amount : ℚ),
        status :=
          recalculateStatus invoice.netAmount (invoice.balanceAmount + (amount : ℚ))
            invoice.status }

/-- The three payment classes of the aggregate. -/
inductive PaymentClass where
  | fullyPaid
  | partiallyPaid
  | unpaid
  deriving DecidableEq

/-- The amount paid on an invoice: its net amount less its balance. -/
def Invoice.paidAmount (invoice : Invoice) : ℚ := invoice.netAmount - invoice.balanceAmount

/-- Modelled from the spec: the classification of section 4.4, "fully paid (balance==0),
partially paid (0<paid<net), unpaid (paid==0)", each invoice in exactly one class: the first
class of that order whose condition holds, `unpaid` being the class of what is left. -/
def classify (invoice : Invoice) : PaymentClass :=
  if invoice.balanceAmount = 0 then PaymentClass.fullyPaid
  else if 0 < invoice.paidAmount ∧ invoice.paidAmount < invoice.netAmount then
    PaymentClass.partiallyPaid
  else PaymentClass.unpaid

/-- The result of `aggregate`. -/
structure Aggregate where
  grossBilled : ℚ
  totalTDS : ℚ
  advancesAdjusted : ℚ
  totalInvoiced : ℚ
  totalPaid : ℚ
  balancePayable : ℚ
  fullyPaidCount : Nat
  partiallyPaidCount : Nat
  unpaidCount : Nat

/-- Modelled from the spec: `aggregate(invoices)` of section 4.4, which the repository does not
contain (the dashboards render the answer to `getDashboardData`): each amount is summed over
the collection, and each invoice is counted in its one payment class. -/
def aggregate (invoices : List Invoice) : Aggregate :=
  { grossBilled := (invoices.map (fun i => i.grossAmount)).sum,
    totalTDS := (invoices.map (fun i => i.tdsAmount)).sum,
    advancesAdjusted := (invoices.map (fun i => i.advanceAdjusted)).sum,
    totalInvoiced := (invoices.map (fun i => i.netAmount)).sum,
    totalPaid := (invoices.map (fun i => i.paidAmount)).sum,
    balancePayable := (invoices.map (fun i => i.balanceAmount)).sum,
    fullyPaidCount := invoices.countP (fun i => classify i = PaymentClass.fullyPaid),
    partiallyPaidCount := invoices.countP (fun i => classify i = PaymentClass.partiallyPaid),
    unpaidCount := invoices.countP (fun i => classify i = PaymentClass.unpaid) }

/-- An invoice with the given net amount and balance, freshly generated. -/
def invoiceOf (netAmount balanceAmount : ℚ) : Invoice :=
  { grossAmount := netAmount, tdsAmount := 0, advanceAdjusted := 0, netAmount := netAmount,
    balanceAmount := balanceAmount, status := InvoiceStatus.generated }

end BillingRules

/-! ### `src/components/admin/Dashboard.jsx` -/

namespace AdminDashboard

/-- The count shown as "pending" in the Payment Status Summary,
`(financial?.partiallyPaidCount || 0) + (financial?.unpaidCount || 0)`, for counts that are
Numbers (`none` for an absent count or an absent `financial`). -/
def pendingCount (partiallyPaidCount unpaidCount : Option JSNum) : JSNum :=
  ((partiallyPaidCount.getD JSNum.nan).orZero).add ((unpaidCount.getD JSNum.nan).orZero)

end AdminDashboard

/-! ## Detail actions, list filters, hour statistics, selections, the password form, routes -/

/-- The comparison `v === 'text'` of a value with a string literal (also what
`['a', 'b'].includes(v)` applies to each element). -/
def JSValue.strictEqualsStr (v : JSValue) (text : String) : Bool :=
  match v with
  | JSValue.str s => s == text
  | _ => false

mutual

/-- Are the two values the same value, for values that are parts of one decoded answer: the
same primitive (NaN being the same as NaN), or arrays and objects with the same content in the
same order? -/
def JSValue.identical : JSValue → JSValue → Bool
  | JSValue.undefined, JSValue.undefined => true
  | JSValue.null, JSValue.null => true
  | JSValue.bool a, JSValue.bool b => a == b
  | JSValue.num a, JSValue.num b => decide (a = b)
  | JSValue.str a, JSValue.str b => a == b
  | JSValue.arr xs, JSValue.arr ys => JSValue.identicalItems xs ys
  | JSValue.obj fs, JSValue.obj gs => JSValue.identicalFields fs gs
  | _, _ => false

/-- The elements of two arrays are pairwise the same. -/
def JSValue.identicalItems : List JSValue → List JSValue → Bool
  | [], [] => true
  | x :: xs, y :: ys => JSValue.identical x y && JSValue.identicalItems xs ys
  | _, _ => false

/-- The property definitions of two objects are pairwise the same. -/
def JSValue.identicalFields : List (String × JSValue) → List (String × JSValue) → Bool
  | [], [] => true
  | (k, x) :: fs, (l, y) :: gs =>
    k == l && JSValue.identical x y && JSValue.identicalFields fs gs
  | _, _ => false

end

/-- The comparison `a === b`.  On primitive values it compares the values, NaN differing from
itself.  An object or an array is identical to itself only; the one comparison of this kind in
the client has the same property of the same object on both sides, so two operands that are
objects or arrays are compared as parts of one decoded answer. -/
def JSValue.strictEquals : JSValue → JSValue → Bool
  | JSValue.num a, JSValue.num b => !a.isNaN && decide (a = b)
  | a, b => JSValue.identical a b

/-- The expression `x || y` on Numbers: `x` when it is truthy, else `y`. -/
def JSNum.orElse (x y : JSNum) : JSNum := if x.truthy then x else y

/-- The method `trim`: the text without its leading and trailing white space. -/
def trim (s : String) : String :=
  String.mk ((s.data.dropWhile isWhiteSpace).reverse.dropWhile isWhiteSpace).reverse

/-- The method `text.includes(search)`: does `search` occur in `text` as a contiguous run? -/
def includes (text search : String) : Bool :=
  text.data.tails.any (fun t => search.data.isPrefixOf t)

/-- The call `invoiceAPI.updateStatus(invoiceNumber, status)`. -/
def invoiceAPI_updateStatus (token : Option String) (invoiceNumber : JSValue) (status : String)
    (net : FetchOutcome) : CallResult :=
  callAPI token "updateInvoiceStatus"
    [("invoiceNumber", invoiceNumber), ("status", JSValue.str status)] net

/-- The call `authAPI.changePassword(oldPassword, newPassword)`. -/
def authAPI_changePassword (token : Option String) (oldPassword newPassword : String)
    (net : FetchOutcome) : CallResult :=
  callAPI token "changePassword"
    [("oldPassword", JSValue.str oldPassword), ("newPassword", JSValue.str newPassword)] net

namespace InvoiceManagement

/-- The handler `handleUpdateStatus(invoiceNumber, newStatus)`, run to completion; `confirmed`
is the answer of `window.confirm`, `net` the outcome of the one request it may send. -/
def handleUpdateStatus (s : State) (invoiceNumber : JSValue) (newStatus : String)
    (confirmed : Bool) (token : Option String) (net : FetchOutcome) : HandlerResult State :=
  if !confirmed then { state := s, requests := [], toasts := [], reload := false }
  else
    match invoiceAPI_updateStatus token invoiceNumber newStatus net with
    | { requests := reqs, toasts := ts, result := Except.ok response } =>
      if (response.getProp "success").truthy then
        { state :=
            if s.selectedInvoice.truthy &&
                (s.selectedInvoice.getProp "Invoice_Number").strictEquals invoiceNumber then
              { s with showDetailModal := false }
            else s,
          requests := reqs, toasts := ts ++ [Toast.success "Status updated successfully"],
          reload := true }
      else { state := s, requests := reqs, toasts := ts, reload := false }
    | { requests := reqs, toasts := ts, result := Except.error _ } =>
      { state := s, requests := reqs, toasts := ts ++ [Toast.error "Failed to update status"],
        reload := false }

/-- The two status buttons of the invoice detail view. -/
inductive DetailAction where
  | markAsSent
  | markAsPaid
  deriving DecidableEq

/-- The status a button asks for. -/
def DetailAction.status : DetailAction → String
  | DetailAction.markAsSent => "Sent"
  | DetailAction.markAsPaid => "Paid"

/-- The condition under which "Mark as Sent" is rendered:
`selectedInvoice.Status === 'Generated'`. -/
def markAsSentOffered (selectedInvoice : JSValue) : Bool :=
  (selectedInvoice.getProp "Status").strictEqualsStr "Generated"

/-- The condition under which "Mark as Paid" is rendered:
`parseFloat(selectedInvoice.Balance_Amount) === 0 && selectedInvoice.Status !== 'Paid'`. -/
def markAsPaidOffered (selectedInvoice : JSValue) : Bool :=
  decide (JSValue.parseFloat (selectedInvoice.getProp "Balance_Amount") = JSNum.fin 0) &&
    !(selectedInvoice.getProp "Status").strictEqualsStr "Paid"

/-- The status buttons the detail view renders for the selected invoice, in order. -/
def detailActions (selectedInvoice : JSValue) : List DetailAction :=
  (if markAsSentOffered selectedInvoice then [DetailAction.markAsSent] else []) ++
    (if markAsPaidOffered selectedInvoice then [DetailAction.markAsPaid] else [])

/-- A click on a status button of the detail view: a button that is not rendered cannot be
clicked; a rendered one calls
`handleUpdateStatus(selectedInvoice.Invoice_Number, 'Sent' | 'Paid')`. -/
def clickDetailAction (s : State) (action : DetailAction) (confirmed : Bool)
    (token : Option String) (net : FetchOutcome) : HandlerResult State :=
  if action ∈ detailActions s.selectedInvoice then
    handleUpdateStatus s (s.selectedInvoice.getProp "Invoice_Number") action.status confirmed
      token net
  else { state := s, requests := [], toasts := [], reload := false }

/-- An invoice of the list `invoices`, by the three fields `applyFilters` reads: each is a text,
or absent. -/
structure InvoiceRow where
  Invoice_Number : Option String
  CR_Number : Option String
  Status : Option String
  deriving DecidableEq

/-- The search predicate of `applyFilters`:
`inv.Invoice_Number?.toLowerCase().includes(searchTerm.toLowerCase()) ||
 inv.CR_Number?.toLowerCase().includes(searchTerm.toLowerCase())`;
an absent field makes its side `undefined`. -/
def matchesSearch (toLowerCase : String → String) (searchTerm : String) (inv : InvoiceRow) :
    Bool :=
  (match inv.Invoice_Number with
    | some n => includes (toLowerCase n) (toLowerCase searchTerm)
    | none => false) ||
  (match inv.CR_Number with
    | some c => includes (toLowerCase c) (toLowerCase searchTerm)
    | none => false)

/-- The function `applyFilters`: the list it hands to `setFilteredInvoices`, from the state
variables `invoices`, `searchTerm` and `statusFilter`.  `toLowerCase` stands for the platform's
`String.prototype.toLowerCase`. -/
def applyFilters (toLowerCase : String → String) (invoices : List InvoiceRow)
    (searchTerm statusFilter : String) : List InvoiceRow :=
  let filtered :=
    if trim searchTerm ≠ "" then invoices.filter (matchesSearch toLowerCase searchTerm)
    else invoices
  if statusFilter ≠ "" then filtered.filter (fun inv => inv.Status == some statusFilter)
  else filtered

/-- The handler `handleCRChange(crNumber)`, run to completion against the outcome `net` of the
one request it may send, `invoiceAPI.getAll({ filters: { developerId: cr.Developer_ID } })`. -/
def handleCRChange (s : State) (crNumber : String) (token : Option String)
    (net : FetchOutcome) : HandlerResult State :=
  if crNumber ≠ "" then
    match s.crs.find? (fun c => c.CR_Number == crNumber) with
    | some cr =>
      match invoiceAPI_getAll token
          (JSValue.obj [("filters", JSValue.obj [("developerId", JSValue.str cr.Developer_ID)])])
          net with
      | { requests := reqs, toasts := ts, result := Except.ok _ } =>
        { state := { s with selectedCR := crNumber, availableAdvance := JSNum.fin 0 },
          requests := reqs, toasts := ts, reload := false }
      | { requests := reqs, toasts := ts, result := Except.error _ } =>
        { state := { s with selectedCR := crNumber }, requests := reqs, toasts := ts,
          reload := false }
    | none =>
      { state := { s with selectedCR := crNumber }, requests := [], toasts := [],
        reload := false }
  else
    { state := { s with selectedCR := crNumber, availableAdvance := JSNum.fin 0 },
      requests := [], toasts := [], reload := false }

end InvoiceManagement

namespace ClientDashboard

/-- A change request of `allCRs`, by the three fields `calculateHoursStats` reads
(`undefined` for an absent field). -/
structure CR where
  Estimated_Hours : JSValue
  Actual_Hours : JSValue
  Status : JSValue

/-- The object `calculateHoursStats` returns. -/
structure HoursStats where
  totalEstimated : JSNum
  totalActual : JSNum
  billedHours : JSNum
  unbilledHours : JSNum

/-- The test `statuses.includes(cr.Status)` on an array of string literals. -/
def statusIn (statuses : List String) (status : JSValue) : Bool :=
  statuses.any (fun t => status.strictEqualsStr t)

/-- The statuses whose hours count as billed. -/
def billedStatuses : List String := ["Billed", "Closed"]

/-- The statuses whose hours count as not yet billed. -/
def unbilledStatuses : List String :=
  ["In Progress", "Under UAT", "In Production", "Ready for Billing"]

/-- The constant `estimated`: `parseFloat(cr.Estimated_Hours) || 0`. -/
def estimated (cr : CR) : JSNum := (JSValue.parseFloat cr.Estimated_Hours).orZero

/-- The constant `actual`: `parseFloat(cr.Actual_Hours) || 0`. -/
def actual (cr : CR) : JSNum := (JSValue.parseFloat cr.Actual_Hours).orZero

/-- The hours of a CR, `actual || estimated`: the actual hours when they are not zero,
otherwise the estimated hours. -/
def crHours (cr : CR) : JSNum := (actual cr).orElse (estimated cr)

/-- The function `calculateHoursStats`: one pass over `allCRs` in order, from four zeros. -/
def calculateHoursStats (allCRs : List CR) : HoursStats :=
  allCRs.foldl
    (fun acc cr =>
      { totalEstimated := acc.totalEstimated.add (estimated cr),
        totalActual := acc.totalActual.add (actual cr),
        billedHours :=
          if statusIn billedStatuses cr.Status then acc.billedHours.add (crHours cr)
          else acc.billedHours,
        unbilledHours :=
          if statusIn billedStatuses cr.Status then acc.unbilledHours
          else if statusIn unbilledStatuses cr.Status then acc.unbilledHours.add (crHours cr)
          else acc.unbilledHours })
    { totalEstimated := JSNum.fin 0, totalActual := JSNum.fin 0, billedHours := JSNum.fin 0,
      unbilledHours := JSNum.fin 0 }

end ClientDashboard

namespace PaymentManagement

/-- The updater of `handleInvoiceSelection`: an invoice number that is in the selection is
removed from it (every occurrence), one that is not is appended. -/
def toggleSelection (prev : List String) (invoiceNumber : String) : List String :=
  if prev.contains invoiceNumber then prev.filter (fun inv => inv != invoiceNumber)
  else prev ++ [invoiceNumber]

/-- The handler `handleInvoiceSelection(invoiceNumber)`. -/
def handleInvoiceSelection (s : State) (invoiceNumber : String) : State :=
  { s with selectedInvoices := toggleSelection s.selectedInvoices invoiceNumber }

/-- The handler `handleRecordPayment`, which opens the Record Payment form; `today` is the
current date as the date input formats it.  The effect on `selectedDeveloper` empties the
unpaid invoices when the developer was set before. -/
def handleRecordPayment (s : State) (today : String) : State :=
  { s with
    selectedDeveloper := "", selectedInvoices := [],
    unpaidInvoices := if s.selectedDeveloper = "" then s.unpaidInvoices else [],
    paymentFormData :=
      { paymentDate := today, amount := "", paymentMode := "Bank Transfer",
        transactionReference := "", remarks := "" },
    showPaymentModal := true }

/-- The developer select's `onChange`, `setSelectedDeveloper(e.target.value)`, followed by the
effect on `selectedDeveloper`, which runs when the value changed: for a developer it calls
`fetchUnpaidInvoices` (answered by `net` with the invoice list `data`), for the empty choice it
empties `unpaidInvoices` and `selectedInvoices`. -/
def selectDeveloper (s : State) (developerId : String) (token : Option String)
    (net : FetchOutcome) (data : List Invoice) : HandlerResult State :=
  if developerId = s.selectedDeveloper then
    { state := s, requests := [], toasts := [], reload := false }
  else if developerId ≠ "" then
    fetchUnpaidInvoices { s with selectedDeveloper := developerId } developerId token net data
  else
    { state := { s with selectedDeveloper := "", unpaidInvoices := [], selectedInvoices := [] },
      requests := [], toasts := [], reload := false }

/-- The amount input's `onChange`:
`setPaymentFormData({ ...paymentFormData, amount: e.target.value })`. -/
def setPaymentAmount (s : State) (text : String) : State :=
  { s with paymentFormData := { s.paymentFormData with amount := text } }

/-- The state of the component when it is mounted. -/
def initialState (today : String) : State :=
  { payments := [], advances := [], developers := [], unpaidInvoices := [], loading := true,
    activeTab := "payments", showPaymentModal := false, showAdvanceModal := false,
    selectedDeveloper := "", selectedInvoices := [],
    paymentFormData :=
      { paymentDate := today, amount := "", paymentMode := "Bank Transfer",
        transactionReference := "", remarks := "" },
    advanceFormData := { developerId := "", date := today, amount := "", purpose := "" },
    submitting := false }

end PaymentManagement

/-! ### `src/components/auth/ChangePassword.jsx` and `src/context/AuthContext.jsx` -/

namespace ChangePassword

/-- The state `formData`. -/
structure FormData where
  oldPassword : String
  newPassword : String
  confirmPassword : String
  deriving DecidableEq

/-- The state variables of the `ChangePassword` component that its handlers read and write;
`passwordStrength` is `null` (`none`) or a result of `validatePassword`. -/
structure State where
  formData : FormData
  loading : Bool
  passwordStrength : Option PasswordCheck
  deriving DecidableEq

/-- The state of the component when it is mounted. -/
def initialState : State :=
  { formData := { oldPassword := "", newPassword := "", confirmPassword := "" },
    loading := false, passwordStrength := none }

/-- The handler `handleChange` for an input with the given `name` and new `value`:
`setFormData({ ...formData, [name]: value })`, and for the new password the strength check.
A name that is none of the three fields leaves the three fields as they are. -/
def handleChange (s : State) (name value : String) : State :=
  if name = "newPassword" then
    { s with
      formData := { s.formData with newPassword := value },
      passwordStrength := some (validatePassword value) }
  else if name = "oldPassword" then { s with formData := { s.formData with oldPassword := value } }
  else if name = "confirmPassword" then
    { s with formData := { s.formData with confirmPassword := value } }
  else s

/-- The function `changePassword` of the auth context: the answer of
`authAPI.changePassword`, with a success toast when it reports success, or the object
`{ success: false, error: 'Failed to change password' }` when the call throws. -/
def changePassword (token : Option String) (oldPassword newPassword : String)
    (net : FetchOutcome) : List JSObject × List Toast × JSValue :=
  match authAPI_changePassword token oldPassword newPassword net with
  | { requests := reqs, toasts := ts, result := Except.ok response } =>
    (reqs,
      ts ++ (if (response.getProp "success").truthy then
        [Toast.success "Password changed successfully"] else []),
      response)
  | { requests := reqs, toasts := ts, result := Except.error _ } =>
    (reqs, ts,
      JSValue.obj
        [("success", JSValue.bool false), ("error", JSValue.str "Failed to change password")])

/-- The handler `handleSubmit`, run to completion against the outcome `net` of the one request
it may send. -/
def handleSubmit (s : State) (token : Option String) (net : FetchOutcome) :
    HandlerResult State :=
  if s.formData.oldPassword = "" ∨ s.formData.newPassword = "" ∨
      s.formData.confirmPassword = "" then
    { state := s, requests := [], toasts := [Toast.error "All fields are required"],
      reload := false }
  else if s.formData.newPassword ≠ s.formData.confirmPassword then
    { state := s, requests := [], toasts := [Toast.error "New passwords do not match"],
      reload := false }
  else if !(match s.passwordStrength with
      | some strength => strength.valid
      | none => false) then
    { state := s, requests := [],
      toasts :=
        [Toast.error
          (match s.passwordStrength with
            | some strength =>
              if strength.message = "" then "Password is not strong enough"
              else strength.message
            | none => "Password is not strong enough")],
      reload := false }
  else if s.formData.oldPassword = s.formData.newPassword then
    { state := s, requests := [],
      toasts := [Toast.error "New password must be different from old password"],
      reload := false }
  else
    match changePassword token s.formData.oldPassword s.formData.newPassword net with
    | (reqs, ts, result) =>
      { state :=
          if (result.getProp "success").truthy then
            { formData := { oldPassword := "", newPassword := "", confirmPassword := "" },
              loading := false, passwordStrength := none }
          else { s with loading := false },
        requests := reqs, toasts := ts, reload := false }

/-- What the user can do on the form: type into an input, or submit (the request, if one is
sent, meeting the given outcome). -/
inductive Event where
  | change (name value : String)
  | submit (token : Option String) (net : FetchOutcome)

/-- The state after one event. -/
def step (s : State) : Event → State
  | Event.change name value => handleChange s name value
  | Event.submit token net => (handleSubmit s token net).state

/-- The state the form reaches from its initial state by a sequence of events. -/
def run (events : List Event) : State := events.foldl step initialState

/-- The stored strength is current: it is `null` or the check of the current new-password
field. -/
def StrengthCurrent (s : State) : Prop :=
  s.passwordStrength = none ∨
    s.passwordStrength = some (validatePassword s.formData.newPassword)

end ChangePassword

/-! ### `src/App.js` and `src/components/developer/Dashboard.jsx` -/

namespace App

/-- The roles of `allowedRoles`. -/
inductive Role where
  | admin
  | developer
  | client
  deriving DecidableEq

/-- The element of a route: a public page, a page behind `ProtectedRoute` with its
`allowedRoles`, or a `Navigate` to another path. -/
inductive RouteElement where
  | publicPage (component : String)
  | protectedPage (component : String) (allowedRoles : List Role)
  | navigate (target : String)
  deriving DecidableEq

/-- The routes of `App` with a fixed path, in source order. -/
def routes : List (String × RouteElement) :=
  [("/login", RouteElement.publicPage "Login"),
    ("/unauthorized", RouteElement.publicPage "Unauthorized"),
    ("/admin/dashboard", RouteElement.protectedPage "AdminDashboard" [Role.admin]),
    ("/admin/developers", RouteElement.protectedPage "DeveloperManagement" [Role.admin]),
    ("/admin/clients", RouteElement.protectedPage "ClientManagement" [Role.admin]),
    ("/admin/crs", RouteElement.protectedPage "CRManagement" [Role.admin]),
    ("/admin/invoices", RouteElement.protectedPage "InvoiceManagement" [Role.admin]),
    ("/admin/payments", RouteElement.protectedPage "PaymentManagement" [Role.admin]),
    ("/admin/reports", RouteElement.protectedPage "Reports" [Role.admin]),
    ("/admin/tds-config", RouteElement.protectedPage "TDSConfig" [Role.admin]),
    ("/developer/dashboard", RouteElement.protectedPage "DeveloperDashboard" [Role.developer]),
    ("/developer/my-crs", RouteElement.protectedPage "MyCRs" [Role.developer]),
    ("/developer/earnings", RouteElement.protectedPage "Earnings" [Role.developer]),
    ("/client/dashboard", RouteElement.protectedPage "ClientDashboard" [Role.client]),
    ("/client/crs", RouteElement.protectedPage "CRList" [Role.client]),
    ("/client/approvals", RouteElement.protectedPage "Approvals" [Role.client]),
    ("/change-password",
      RouteElement.protectedPage "ChangePassword" [Role.admin, Role.developer, Role.client]),
    ("/", RouteElement.navigate "/login")]

/-- The element of the catch-all route `path="*"`. -/
def catchAll : RouteElement := RouteElement.navigate "/login"

/-- The text by which a location and a route path are compared: the router matches a path
ignoring the case of its letters and any slashes at its end. -/
def normalizePath (path : String) : List Char :=
  ((path.data.reverse.dropWhile (fun c => c == '/')).reverse).map Char.toLower

/-- The element rendered for a location: that of the route whose path matches it, and the
catch-all's when there is none. -/
def resolve (path : String) : RouteElement :=
  match routes.find? (fun r => normalizePath r.1 == normalizePath path) with
  | some r => r.2
  | none => catchAll

/-- The paths registered as Developer routes: those whose `allowedRoles` is
`['Developer']`. -/
def developerRoutes : List String :=
  (routes.filter
    (fun r =>
      match r.2 with
      | RouteElement.protectedPage _ roles => roles == [Role.developer]
      | _ => false)).map (fun r => r.1)

end App

namespace DeveloperDashboard

/-- The arguments of the `navigate(...)` calls of the developer dashboard, in source order
(lines 92, 110, 118, 126, 134, 246 and 269). -/
def navigateTargets : List String :=
  ["/developer/crs", "/developer/crs", "/developer/earnings", "/developer/earnings",
    "/developer/earnings", "/developer/crs", "/developer/crs"]

end DeveloperDashboard

/-! ## Observations on requests and outcomes -/

/-- Is the body a request for the given action (is its `action` field that string)? -/
def JSObject.isAction (body : JSObject) (action : String) : Bool :=
  match body.get "action" with
  | JSValue.str a => a == action
  | _ => false

/-- Did the handler send a request for the given action? -/
def HandlerResult.sends {σ : Type} (r : HandlerResult σ) (action : String) : Bool :=
  r.requests.any (fun body => body.isAction action)

/-- Did `callAPI` throw? -/
def CallResult.raised (r : CallResult) : Bool :=
  match r.result with
  | Except.error _ => true
  | Except.ok _ => false

/-- Was the request answered by an `ok` response whose decoded body has a truthy `success`? -/
def FetchOutcome.answeredSuccess : FetchOutcome → Bool
  | FetchOutcome.response true _ (some v) => !v.isNullish && (v.getProp "success").truthy
  | _ => false

/-- The strings among the elements of an array (the empty list for any other value). -/
def JSValue.stringItems : JSValue → List String
  | JSValue.arr items =>
    items.filterMap
      (fun v =>
        match v with
        | JSValue.str s => some s
        | _ => none)
  | _ => []

/-- The spec's `round2`: a money value rounded to 2 decimal places, half-up. -/
def round2 (x : ℚ) : ℚ := (⌊x * 100 + 1 / 2⌋ : ℚ) / 100

/-- The exact value of a text that is a plain unsigned decimal literal as a whole (`12`, `12.5`,
`.5`, `1e2`): the value the literal denotes before it is rounded to a double. -/
def decimalTextValue (s : String) : Option ℚ :=
  match strUnsignedDecimalLiteral s.data with
  | some (some q, []) => some q
  | _ => none

/-! ## Concrete states -/

/-- An `ok` response whose body is `{ success: true }`. -/
def successResponse : FetchOutcome :=
  FetchOutcome.response true 200 (some (JSValue.obj [("success", JSValue.bool true)]))

namespace PaymentManagement

/-- A payment form with developer `DEV001` and its unpaid invoice `INV-1` (balance 5000)
selected, holding the given amount text. -/
def formWithAmount (amount : String) (submitting : Bool) : State :=
  { payments := [], advances := [], developers := [],
    unpaidInvoices :=
      [{ Invoice_Number := "INV-1", Balance_Amount := JSValue.num (JSNum.fin 5000) }],
    loading := false, activeTab := "payments", showPaymentModal := true,
    showAdvanceModal := false, selectedDeveloper := "DEV001", selectedInvoices := ["INV-1"],
    paymentFormData :=
      { paymentDate := "2024-06-01", amount := amount, paymentMode := "Bank Transfer",
        transactionReference := "", remarks := "" },
    advanceFormData := { developerId := "", date := "2024-06-01", amount := "", purpose := "" },
    submitting := submitting }

/-- The Record Payment form after this session: the form is opened, developer `DEV001` is
chosen (the server answers with the unpaid invoice `INV-1`, balance 1000), `INV-1` is ticked,
developer `DEV002` is chosen instead (the server answers with the unpaid invoice `INV-5`,
balance 2000), `INV-5` is ticked, and the amount `500` is typed. -/
def switchedDeveloperForm : State :=
  setPaymentAmount
    (handleInvoiceSelection
      (selectDeveloper
        (handleInvoiceSelection
          (selectDeveloper (handleRecordPayment (initialState "2024-06-01") "2024-06-01")
            "DEV001" (some "t") successResponse
            [{ Invoice_Number := "INV-1", Balance_Amount := JSValue.num (JSNum.fin 1000) }]).state
          "INV-1")
        "DEV002" (some "t") successResponse
        [{ Invoice_Number := "INV-5", Balance_Amount := JSValue.num (JSNum.fin 2000) }]).state
      "INV-5")
    "500"

end PaymentManagement

namespace InvoiceManagement

/-- An invoice page whose loaded list holds the one CR `CR-1` with the given status, with
`CR-1` selected and the given advance text. -/
def pageWithCR (status advance : String) : State :=
  { invoices := [], filteredInvoices := [],
    crs := [{ CR_Number := "CR-1", Title := "Login page", Developer_ID := "DEV001",
              Status := status }],
    developers := [], clients := [], loading := false, searchTerm := "", statusFilter := "",
    showGenerateModal := true, showDetailModal := false, selectedInvoice := JSValue.null,
    selectedCR := "CR-1", advanceAmount := advance, availableAdvance := JSNum.fin 0,
    generating := false, downloadingPDF := false }

end InvoiceManagement

namespace TDSConfig

/-- A TDS page whose form holds the date 2024-06-01 and the given percentage text. -/
def pageWithPercentage (text : String) : State :=
  { currentTDS := JSValue.null, tdsHistory := [], loading := false, showModal := true,
    formData := { effectiveDate := "2024-06-01", tdsPercentage := text },
    formErrors := { effectiveDate := none, tdsPercentage := none }, submitting := false }

end TDSConfig

/-! ## Shared lemmas -/

theorem parseFloat_empty : parseFloat "" = JSNum.nan := by decide!

theorem JSNum.le_fin_eq_not_gt (a : JSNum) (q : ℚ) (h : a ≠ JSNum.nan) :
    a.le (JSNum.fin q) = !(a.gt (JSNum.fin q)) := by
  cases a <;> simp_all [JSNum.le, JSNum.gt, JSNum.lt]

theorem JSNum.orZero_eq (x : JSNum) :
    x.orZero = if x = JSNum.nan then JSNum.fin 0 else x := by
  cases x <;> simp [JSNum.orZero, JSNum.truthy]
  rename_i q
  intro h
  exact h.symm

theorem JSNum.ge_or_lt_fin (a : JSNum) (q : ℚ) (h : a ≠ JSNum.nan) :
    a.ge (JSNum.fin q) = true ∨ a.lt (JSNum.fin q) = true := by
  cases a <;> simp_all [JSNum.ge, JSNum.le, JSNum.lt]
  exact le_or_lt _ _

theorem JSNum.in_range_iff (p : JSNum) (a b : ℚ) :
    (p.isNaN = false ∧ p.lt (JSNum.fin a) = false ∧ p.gt (JSNum.fin b) = false) ↔
      ((JSNum.fin a).le p = true ∧ p.le (JSNum.fin b) = true) := by
  cases p <;> simp [JSNum.isNaN, JSNum.le, JSNum.gt, JSNum.lt]

theorem callAPI_requests (token : Option String) (action : String) (data : JSObject)
    (net : FetchOutcome) :
    (callAPI token action data net).requests = [requestData token action data] := by
  unfold callAPI
  split
  · rfl
  · split
    · rfl
    · split
      · rfl
      · split <;> rfl

theorem JSObject.lookup_append (xs ys : JSObject) (k : String) :
    JSObject.lookup (xs ++ ys) k =
      match JSObject.lookup ys k with
      | some w => some w
      | none => JSObject.lookup xs k := by
  induction xs with
  | nil => cases h : JSObject.lookup ys k <;> simp [JSObject.lookup, h]
  | cons p xs ih =>
    obtain ⟨k', v⟩ := p
    show JSObject.lookup ((k', v) :: (xs ++ ys)) k = _
    simp only [JSObject.lookup]
    rw [ih]
    cases h : JSObject.lookup ys k <;> simp

theorem JSObject.lookup_eq_none (o : JSObject) (k : String) :
    JSObject.lookup o k = none ↔ o.hasKey k = false := by
  induction o with
  | nil => simp [JSObject.lookup, JSObject.hasKey]
  | cons p o ih =>
    obtain ⟨k', v⟩ := p
    simp only [JSObject.lookup, JSObject.hasKey, List.any_cons] at ih ⊢
    cases h : JSObject.lookup o k with
    | some w =>
      have : ¬ (o.any (fun p => p.1 == k) = false) := fun hc => by
        have := ih.mpr hc
        simp [h] at this
      simp at this ⊢
      intro _
      exact this
    | none =>
      have hk := ih.mp h
      by_cases hkk : k' = k <;> simp [hkk, hk]

theorem requestData_lookup_action (token : Option String) (action : String) (data : JSObject)
    (h : data.hasKey "action" = false) :
    JSObject.lookup (requestData token action data) "action" = some (JSValue.str action) := by
  unfold requestData
  rw [JSObject.lookup_append, (JSObject.lookup_eq_none data "action").mpr h]
  simp [JSObject.lookup]

theorem requestData_lookup_token (token : Option String) (action : String) (data : JSObject)
    (h : data.hasKey "token" = false) :
    JSObject.lookup (requestData token action data) "token" =
      some (tokenValue token) := by
  unfold requestData
  rw [JSObject.lookup_append, (JSObject.lookup_eq_none data "token").mpr h]
  simp [JSObject.lookup]

theorem requestData_isAction (token : Option String) (action : String) (data : JSObject)
    (h : data.hasKey "action" = false) :
    (requestData token action data).isAction action = true := by
  unfold JSObject.isAction JSObject.get
  rw [requestData_lookup_action token action data h]
  simp

/-! ## Rounding to a double: the error of `roundDouble` -/

namespace JSNum

theorem log2Fuel_spec (f : Nat) : ∀ n : Nat, n ≤ f → 1 ≤ n →
    2 ^ log2Fuel f n ≤ n ∧ n < 2 ^ (log2Fuel f n + 1) := by
  induction f with
  | zero => intro n h0 h1; omega
  | succ f ih =>
    intro n hn h1
    unfold log2Fuel
    by_cases h2 : 2 ≤ n
    · rw [if_pos h2]
      obtain ⟨hlo, hhi⟩ := ih (n / 2) (by omega) (by omega)
      generalize log2Fuel f (n / 2) = k at hlo hhi ⊢
      rw [pow_succ] at hhi ⊢
      rw [pow_succ]
      constructor <;> omega
    · rw [if_neg h2]
      have : n = 1 := by omega
      subst this
      simp

theorem log2_spec (n : Nat) (h1 : 1 ≤ n) : 2 ^ log2 n ≤ n ∧ n < 2 ^ (log2 n + 1) :=
  log2Fuel_spec n n le_rfl h1

theorem scaled_snd_pos (n d : Nat) (e : Int) (hd : 0 < d) : 0 < (scaled n d e).2 := by
  unfold scaled
  split
  · exact Nat.mul_pos hd (pow_pos (by norm_num) _)
  · exact hd

theorem scaled_ratio (n d : Nat) (e : Int) (hd : 0 < d) :
    ((scaled n d e).1 : ℚ) / ((scaled n d e).2 : ℚ) * (2 : ℚ) ^ e = (n : ℚ) / (d : ℚ) := by
  have hd' : (d : ℚ) ≠ 0 := by exact_mod_cast hd.ne'
  unfold scaled
  split
  · rename_i he
    obtain ⟨k, rfl⟩ := Int.eq_ofNat_of_zero_le he
    simp only [Int.toNat_ofNat, Nat.cast_mul, Nat.cast_pow, Nat.cast_ofNat, zpow_natCast]
    field_simp
    ring
  · rename_i he
    push_neg at he
    obtain ⟨k, hk⟩ := Int.eq_ofNat_of_zero_le (by omega : 0 ≤ -e)
    have he' : e = -(k : Int) := by omega
    subst he'
    simp only [neg_neg, Int.toNat_ofNat, Nat.cast_mul, Nat.cast_pow, Nat.cast_ofNat, zpow_neg,
      zpow_natCast]
    field_simp
    ring

theorem significand_err (n d : Nat) (e : Int) (hd : 0 < d) :
    |(significand n d e : ℚ) - ((scaled n d e).1 : ℚ) / ((scaled n d e).2 : ℚ)| ≤ 1 / 2 := by
  have hb := scaled_snd_pos n d e hd
  unfold significand
  generalize (scaled n d e).1 = a at *
  generalize (scaled n d e).2 = b at *
  have hbq : (0 : ℚ) < b := by exact_mod_cast hb
  have hdiv : (a : ℚ) = (b : ℚ) * ((a / b : Nat) : ℚ) + ((a % b : Nat) : ℚ) := by
    exact_mod_cast (Nat.div_add_mod a b).symm
  have hmod : a % b < b := Nat.mod_lt a hb
  have hmodq : ((a % b : Nat) : ℚ) < b := by exact_mod_cast hmod
  have hmod0 : (0 : ℚ) ≤ ((a % b : Nat) : ℚ) := by positivity
  have hval : (a : ℚ) / b = ((a / b : Nat) : ℚ) + ((a % b : Nat) : ℚ) / b := by
    rw [hdiv]
    field_simp
    ring
  simp only
  split
  · rename_i h
    have h2 : b ≤ 2 * (a % b) := by
      rcases h with h | h
      · omega
      · omega
    have h2q : (b : ℚ) ≤ 2 * ((a % b : Nat) : ℚ) := by exact_mod_cast h2
    rw [hval, abs_le]
    push_cast
    constructor
    · have : ((a % b : Nat) : ℚ) / b ≤ 1 := by
        rw [div_le_one hbq]
        exact hmodq.le
      linarith
    · have : (1 : ℚ) / 2 ≤ ((a % b : Nat) : ℚ) / b := by
        rw [le_div_iff₀ hbq]
        linarith
      linarith
  · rename_i h
    push_neg at h
    have h2 : 2 * (a % b) ≤ b := by omega
    have h2q : 2 * ((a % b : Nat) : ℚ) ≤ (b : ℚ) := by exact_mod_cast h2
    have hlo : (0 : ℚ) ≤ ((a % b : Nat) : ℚ) / b := by positivity
    have hhi : ((a % b : Nat) : ℚ) / b ≤ 1 / 2 := by
      rw [div_le_iff₀ hbq]
      linarith
    rw [hval, abs_le]
    constructor <;> linarith

theorem dyadic_eq (m : Nat) (e : Int) : dyadic m e = (m : ℚ) * (2 : ℚ) ^ e := by
  unfold dyadic
  split
  · rename_i he
    obtain ⟨k, rfl⟩ := Int.eq_ofNat_of_zero_le he
    simp
  · rename_i he
    push_neg at he
    obtain ⟨k, hk⟩ := Int.eq_ofNat_of_zero_le (by omega : 0 ≤ -e)
    have he' : e = -(k : Int) := by omega
    subst he'
    simp only [neg_neg, Int.toNat_ofNat, Nat.cast_pow, Nat.cast_ofNat, zpow_neg, zpow_natCast]
    rfl

end JSNum

namespace JSNum

theorem binExponent_le (n d L : Nat) (hn : 1 ≤ n) (hd : 1 ≤ d) (hq : n < 2 ^ L * d) :
    binExponent n d ≤ (L : Int) - 52 := by
  obtain ⟨hlo, -⟩ := log2_spec n hn
  obtain ⟨-, hhi⟩ := log2_spec d hd
  have hlt : 2 ^ log2 n < 2 ^ (L + (log2 d + 1)) := by
    calc 2 ^ log2 n ≤ n := hlo
      _ < 2 ^ L * d := hq
      _ ≤ 2 ^ L * 2 ^ (log2 d + 1) := Nat.mul_le_mul_left _ hhi.le
      _ = 2 ^ (L + (log2 d + 1)) := (pow_add 2 L (log2 d + 1)).symm
  have hab : log2 n < L + (log2 d + 1) := (Nat.pow_lt_pow_iff_right (by norm_num)).mp hlt
  unfold binExponent
  simp only
  apply max_le
  · split <;> omega
  · omega

theorem roundPos_err (n d L : Nat) (hn : 1 ≤ n) (hd : 1 ≤ d) (hq : n < 2 ^ L * d)
    (hL : L ≤ 1000) :
    ∃ r : ℚ, roundPos n d = some r ∧ 0 ≤ r ∧
      |r - (n : ℚ) / (d : ℚ)| ≤ (2 : ℚ) ^ L / 2 ^ 53 := by
  have he := binExponent_le n d L hn hd hq
  have hratio := scaled_ratio n d (binExponent n d) hd
  have herr := significand_err n d (binExponent n d) hd
  unfold roundPos
  simp only
  rw [if_neg (by omega)]
  refine ⟨_, rfl, ?_, ?_⟩
  · rw [dyadic_eq]
    positivity
  · rw [dyadic_eq, ← hratio, ← sub_mul, abs_mul]
    have hpos : (0 : ℚ) < (2 : ℚ) ^ binExponent n d := by positivity
    rw [abs_of_pos hpos]
    have hpow : (2 : ℚ) ^ binExponent n d ≤ (2 : ℚ) ^ L / 2 ^ 52 := by
      have h1 : (2 : ℚ) ^ binExponent n d ≤ (2 : ℚ) ^ ((L : Int) - 52) :=
        zpow_le_zpow_right₀ (by norm_num) he
      rw [zpow_sub₀ (by norm_num : (2 : ℚ) ≠ 0), zpow_natCast] at h1
      exact_mod_cast h1
    calc |(significand n d (binExponent n d) : ℚ) -
            ((scaled n d (binExponent n d)).1 : ℚ) / ((scaled n d (binExponent n d)).2 : ℚ)|
          * (2 : ℚ) ^ binExponent n d
        ≤ 1 / 2 * ((2 : ℚ) ^ L / 2 ^ 52) :=
          mul_le_mul herr hpow hpos.le (by norm_num)
      _ = (2 : ℚ) ^ L / 2 ^ 53 := by ring

/-- The rounding error of `roundDouble` on `0 ≤ q < 2 ^ L`: the result is a finite
non-negative double within `2 ^ L / 2 ^ 53` of `q`. -/
theorem roundDouble_err (q : ℚ) (L : Nat) (h0 : 0 ≤ q) (hq : q < 2 ^ L) (hL : L ≤ 1000) :
    ∃ r : ℚ, roundDouble q = fin r ∧ 0 ≤ r ∧ |r - q| ≤ (2 : ℚ) ^ L / 2 ^ 53 := by
  unfold roundDouble
  by_cases hz : q = 0
  · subst hz
    refine ⟨0, by simp, le_rfl, ?_⟩
    simp only [sub_zero, abs_zero]
    positivity
  · have hpos : 0 < q := lt_of_le_of_ne h0 (Ne.symm hz)
    rw [if_neg hz, if_pos hpos]
    have hnum : 0 < q.num := Rat.num_pos.mpr hpos
    have hcast : ((q.num.toNat : Nat) : ℚ) = (q.num : ℚ) := by
      have : ((q.num.toNat : Nat) : Int) = q.num := Int.toNat_of_nonneg hnum.le
      exact_mod_cast congrArg (fun z : Int => (z : ℚ)) this
    have hqeq : ((q.num.toNat : Nat) : ℚ) / (q.den : ℚ) = q := by
      rw [hcast]
      exact Rat.num_div_den q
    have hn1 : 1 ≤ q.num.toNat := by
      have : 0 < q.num.toNat := by
        rw [Int.lt_toNat]
        exact_mod_cast hnum
      omega
    have hd1 : 1 ≤ q.den := q.den_pos
    have hlt : q.num.toNat < 2 ^ L * q.den := by
      have hdq : (0 : ℚ) < q.den := by exact_mod_cast q.den_pos
      have h1 : ((q.num.toNat : Nat) : ℚ) < (2 : ℚ) ^ L * q.den := by
        rw [← div_lt_iff₀ hdq, hqeq]
        exact hq
      exact_mod_cast h1
    obtain ⟨r, hr, hr0, hrerr⟩ := roundPos_err q.num.toNat q.den L hn1 hd1 hlt hL
    rw [hr]
    rw [hqeq] at hrerr
    exact ⟨r, rfl, hr0, hrerr⟩

end JSNum

namespace JSNum

/-- The double computed for `(10000 * p) / 100` when `p` is the double nearest to
`N / 10000`, `N ≤ 1000000`: it lies within `10⁻⁹` of `N / 100`. -/
theorem previewTDS_double (N : Nat) (hN : N ≤ 1000000) :
    ∃ z : ℚ, ((fin 10000).mul (roundDouble ((N : ℚ) / 10000))).div (fin 100) = fin z ∧
      0 ≤ z ∧ |z - (N : ℚ) / 100| ≤ 1 / 10 ^ 9 := by
  have hNq : (N : ℚ) ≤ 1000000 := by exact_mod_cast hN
  have hN0 : (0 : ℚ) ≤ N := by positivity
  obtain ⟨p, hp, hp0, hperr⟩ := roundDouble_err ((N : ℚ) / 10000) 7 (by positivity)
    (by rw [div_lt_iff₀ (by norm_num)]; norm_num; linarith) (by norm_num)
  rw [abs_le] at hperr
  norm_num at hperr
  obtain ⟨y, hy, hy0, hyerr⟩ := roundDouble_err (10000 * p) 20 (by positivity)
    (by norm_num; linarith) (by norm_num)
  rw [abs_le] at hyerr
  norm_num at hyerr
  obtain ⟨z, hz, hz0, hzerr⟩ := roundDouble_err (y / 100) 14 (by positivity)
    (by rw [div_lt_iff₀ (by norm_num)]; norm_num; linarith) (by norm_num)
  rw [abs_le] at hzerr
  norm_num at hzerr
  refine ⟨z, ?_, hz0, ?_⟩
  · rw [hp]
    show (roundDouble (10000 * p)).div (fin 100) = fin z
    rw [hy]
    simp only [div]
    rw [if_neg (by norm_num), hz]
  · rw [abs_le]
    constructor <;> linarith

/-- The double computed for `10000 - (10000 * p) / 100` when `p` is the double nearest to
`N / 10000`, `N < 1000000`: it lies within `2 * 10⁻⁹` of `(1000000 - N) / 100`. -/
theorem previewNet_double (N : Nat) (hN : N < 1000000) :
    ∃ w : ℚ,
      (fin 10000).sub (((fin 10000).mul (roundDouble ((N : ℚ) / 10000))).div (fin 100))
        = fin w ∧
      0 ≤ w ∧ |w - ((1000000 : ℚ) - N) / 100| ≤ 2 / 10 ^ 9 := by
  obtain ⟨z, hz, hz0, hzerr⟩ := previewTDS_double N hN.le
  have hNq : (N : ℚ) ≤ 999999 := by
    have : N ≤ 999999 := by omega
    exact_mod_cast this
  have hN0 : (0 : ℚ) ≤ N := by positivity
  rw [abs_le] at hzerr
  norm_num at hzerr
  obtain ⟨w, hw, hw0, hwerr⟩ := roundDouble_err (10000 + -z) 14 (by linarith)
    (by norm_num; linarith) (by norm_num)
  rw [abs_le] at hwerr
  norm_num at hwerr
  refine ⟨w, ?_, hw0, ?_⟩
  · rw [hz]
    show roundDouble (10000 + -z) = fin w
    exact hw
  · rw [abs_le]
    constructor <;> linarith

end JSNum

theorem nearestScaled_two_eq (z : ℚ) (N : Nat) (h : |z - (N : ℚ) / 100| < 1 / 200) :
    nearestScaled 2 z = N := by
  rw [abs_lt] at h
  unfold nearestScaled
  have hfloor : ⌊z * 10 ^ 2 + 1 / 2⌋ = (N : Int) := by
    rw [Int.floor_eq_iff]
    push_cast
    constructor <;> linarith [h.1, h.2]
  rw [hfloor]
  simp

theorem toFixed_two_of_nonneg (z : ℚ) (h0 : 0 ≤ z) (h : z < 10 ^ 21) :
    toFixed 2 (JSNum.fin z) = fixedDigits 2 (nearestScaled 2 z) := by
  unfold toFixed
  simp only
  rw [if_neg (not_lt.mpr h0), abs_of_nonneg h0, if_neg (not_le.mpr h)]
  simp

/-! ## Plain decimal texts -/

theorem strUnsignedDecimalLiteral_head (cs : List Char) (q : ℚ) (r : List Char)
    (h : strUnsignedDecimalLiteral cs = some (some q, r)) :
    ∃ c rest, cs = c :: rest ∧ (isDecDigit c = true ∨ c = '.') := by
  cases cs with
  | nil =>
    have hnil : strUnsignedDecimalLiteral [] = none := by decide!
    rw [hnil] at h
    cases h
  | cons c rest =>
    refine ⟨c, rest, rfl, ?_⟩
    by_cases hdig : isDecDigit c = true
    · exact Or.inl hdig
    · right
      by_contra hdot
      unfold strUnsignedDecimalLiteral at h
      split at h
      · cases h
      · have hspan : (c :: rest).span isDecDigit = ([], c :: rest) := by
          simp [List.span_eq_take_drop, List.takeWhile_cons, List.dropWhile_cons, hdig]
        have hfr : fractionPart [] (c :: rest) = ([], c :: rest) := by
          unfold fractionPart
          split
          · rename_i heq
            simp only [List.cons.injEq] at heq
            exact absurd heq.1 hdot
          · rfl
        simp only [hspan, hfr] at h
        simp at h

theorem isDecDigit_not_special (c : Char) (h : isDecDigit c = true ∨ c = '.') :
    isWhiteSpace c = false ∧ c ≠ '-' ∧ c ≠ '+' := by
  rcases h with h | h
  · unfold isDecDigit at h
    simp only [Bool.and_eq_true, decide_eq_true_eq] at h
    refine ⟨?_, ?_, ?_⟩
    · unfold isWhiteSpace
      obtain ⟨h1, h2⟩ := h
      generalize c.toNat = n at h1 h2 ⊢
      interval_cases n <;> rfl
    · rintro rfl
      simp at h
    · rintro rfl
      simp at h
  · subst h
    decide

theorem strDecimalLiteral_unsigned (c : Char) (rest : List Char) (h1 : c ≠ '-') (h2 : c ≠ '+')
    (q : ℚ) (r : List Char) (hq : strUnsignedDecimalLiteral (c :: rest) = some (some q, r)) :
    strDecimalLiteral (c :: rest) = some (JSNum.roundDouble q, r) := by
  unfold strDecimalLiteral
  split
  · rename_i heq
    simp only [List.cons.injEq] at heq
    exact absurd heq.1 h1
  · rename_i heq
    simp only [List.cons.injEq] at heq
    exact absurd heq.1 h2
  · rw [hq]

/-- A text that is a plain unsigned decimal literal as a whole is read by `parseFloat` as the
double nearest to its exact value. -/
theorem parseFloat_of_decimalTextValue (t : String) (P : ℚ)
    (h : decimalTextValue t = some P) : parseFloat t = JSNum.roundDouble P := by
  unfold decimalTextValue at h
  split at h
  · rename_i q hq
    simp only [Option.some.injEq] at h
    subst h
    obtain ⟨c, rest, hcs, hc⟩ := strUnsignedDecimalLiteral_head _ _ _ hq
    obtain ⟨hws, hminus, hplus⟩ := isDecDigit_not_special c hc
    unfold parseFloat
    rw [hcs] at hq ⊢
    rw [List.dropWhile_cons, hws]
    simp only [Bool.false_eq_true, if_false]
    rw [strDecimalLiteral_unsigned c rest hminus hplus q [] hq]
  · cases h

/-! ## The values of a number input are read as numbers -/

/-- A run of which every character satisfies `p` is its own longest such head. -/
theorem span_of_all (p : Char → Bool) (l : List Char) (h : l.all p = true) :
    l.span p = (l, []) := by
  rw [List.all_eq_true] at h
  rw [List.span_eq_take_drop, List.takeWhile_eq_self_iff.2 h, List.dropWhile_eq_nil_iff.2 h]

/-- The characters a valid floating-point number is made of are no white space, and none of
them is a letter that marks another kind of literal. -/
theorem floatChar_props (c : Char)
    (h : isDecDigit c = true ∨ c = '.' ∨ c = 'e' ∨ c = 'E' ∨ c = '+' ∨ c = '-') :
    isWhiteSpace c = false ∧ c ≠ 'I' ∧ c ≠ 'x' ∧ c ≠ 'X' ∧ c ≠ 'o' ∧ c ≠ 'O' ∧ c ≠ 'b' ∧
      c ≠ 'B' := by
  rcases h with h | h | h | h | h | h
  · refine ⟨(isDecDigit_not_special c (Or.inl h)).1, ?_, ?_, ?_, ?_, ?_, ?_, ?_⟩ <;>
      (rintro rfl; revert h; decide)
  all_goals (subst h; decide)

/-- A valid exponent is consumed whole by `exponentPart`, and is made of float characters. -/
theorem validExponent_spec (r : List Char) (h : validExponent r = true) :
    (exponentPart r).2 = [] ∧
      ∀ c ∈ r, isDecDigit c = true ∨ c = '.' ∨ c = 'e' ∨ c = 'E' ∨ c = '+' ∨ c = '-' := by
  unfold validExponent at h
  cases r with
  | nil => exact ⟨rfl, fun c hc => by simp at hc⟩
  | cons c t =>
    simp only [Bool.and_eq_true] at h
    obtain ⟨hc, ht⟩ := h
    have hc' : c = 'e' ∨ c = 'E' := by simpa using hc
    have hcm : isDecDigit c = true ∨ c = '.' ∨ c = 'e' ∨ c = 'E' ∨ c = '+' ∨ c = '-' := by
      rcases hc' with h | h
      · exact Or.inr (Or.inr (Or.inl h))
      · exact Or.inr (Or.inr (Or.inr (Or.inl h)))
    unfold exponentPart
    simp only [hc, if_true]
    split at ht
    · rename_i u
      simp only [Bool.and_eq_true, Bool.not_eq_true', List.isEmpty_eq_false] at ht
      obtain ⟨hne, hall⟩ := ht
      refine ⟨?_, ?_⟩
      · rw [span_of_all _ _ hall]
        cases u with
        | nil => exact absurd rfl hne
        | cons d ds => rfl
      · intro x hx
        rcases List.mem_cons.1 hx with hx | hx
        · rw [hx]; exact hcm
        rcases List.mem_cons.1 hx with hx | hx
        · exact Or.inr (Or.inr (Or.inr (Or.inr (Or.inl hx))))
        · exact Or.inl ((List.all_eq_true.1 hall) x hx)
    · rename_i u
      simp only [Bool.and_eq_true, Bool.not_eq_true', List.isEmpty_eq_false] at ht
      obtain ⟨hne, hall⟩ := ht
      refine ⟨?_, ?_⟩
      · rw [span_of_all _ _ hall]
        cases u with
        | nil => exact absurd rfl hne
        | cons d ds => rfl
      · intro x hx
        rcases List.mem_cons.1 hx with hx | hx
        · rw [hx]; exact hcm
        rcases List.mem_cons.1 hx with hx | hx
        · exact Or.inr (Or.inr (Or.inr (Or.inr (Or.inr hx))))
        · exact Or.inl ((List.all_eq_true.1 hall) x hx)
    · rename_i hplus hminus
      simp only [Bool.and_eq_true, Bool.not_eq_true', List.isEmpty_eq_false] at ht
      obtain ⟨hne, hall⟩ := ht
      refine ⟨?_, ?_⟩
      · rw [span_of_all _ _ hall]
        cases t with
        | nil => exact absurd rfl hne
        | cons d ds => rfl
      · intro x hx
        rcases List.mem_cons.1 hx with hx | hx
        · rw [hx]; exact hcm
        · exact Or.inl ((List.all_eq_true.1 hall) x hx)

/-- A valid unsigned float is read whole by `strUnsignedDecimalLiteral`, as a finite value, and
is made of float characters. -/
theorem validUnsignedFloat_spec (cs : List Char) (h : validUnsignedFloat cs = true) :
    (∃ q : ℚ, strUnsignedDecimalLiteral cs = some (some q, [])) ∧
      cs ≠ [] ∧
      ∀ c ∈ cs, isDecDigit c = true ∨ c = '.' ∨ c = 'e' ∨ c = 'E' ∨ c = '+' ∨ c = '-' := by
  have hsplit : cs = (cs.span isDecDigit).1 ++ (cs.span isDecDigit).2 := by
    rw [List.span_eq_take_drop]
    exact (List.takeWhile_append_dropWhile _ _).symm
  have hip : ∀ c ∈ (cs.span isDecDigit).1, isDecDigit c = true := by
    intro c hc
    rw [List.span_eq_take_drop] at hc
    exact List.mem_takeWhile_imp hc
  unfold validUnsignedFloat at h
  have hchars : ∀ c ∈ cs,
      isDecDigit c = true ∨ c = '.' ∨ c = 'e' ∨ c = 'E' ∨ c = '+' ∨ c = '-' := by
    intro c hc
    rw [hsplit, List.mem_append] at hc
    rcases hc with hc | hc
    · exact Or.inl (hip c hc)
    · split at h
      · rename_i t heq
        simp only [Bool.and_eq_true] at h
        rw [heq] at hc
        rcases List.mem_cons.1 hc with hc | hc
        · exact Or.inr (Or.inl hc)
        · have ht : t = (t.span isDecDigit).1 ++ (t.span isDecDigit).2 := by
            rw [List.span_eq_take_drop]
            exact (List.takeWhile_append_dropWhile _ _).symm
          rw [ht, List.mem_append] at hc
          rcases hc with hc | hc
          · rw [List.span_eq_take_drop] at hc
            exact Or.inl (List.mem_takeWhile_imp hc)
          · exact (validExponent_spec _ h.2).2 c hc
      · simp only [Bool.and_eq_true] at h
        exact (validExponent_spec _ h.2).2 c hc
  have hne : cs ≠ [] := by
    rintro rfl
    revert h
    decide
  refine ⟨?_, hne, hchars⟩
  have hinf : startsWith cs "Infinity".data = false := by
    cases cs with
    | nil => exact absurd rfl hne
    | cons c rest =>
      have hcI := (floatChar_props c (hchars c (List.mem_cons_self _ _))).2.1
      show (c == 'I' && _) = false
      simp [hcI]
  unfold strUnsignedDecimalLiteral
  rw [hinf]
  simp only [Bool.false_eq_true, if_false]
  split at h
  · rename_i t heq
    simp only [Bool.and_eq_true, Bool.not_eq_true', List.isEmpty_eq_false] at h
    have hfr : fractionPart (cs.span isDecDigit).1 (cs.span isDecDigit).2 =
        t.span isDecDigit := by
      rw [heq]
      have : ((t.span isDecDigit).1.isEmpty) = false := by
        cases hfr1 : (t.span isDecDigit).1 with
        | nil => exact absurd hfr1 h.1
        | cons d ds => rfl
      show (if ((cs.span isDecDigit).1.isEmpty && (t.span isDecDigit).1.isEmpty) = true then
        ([], '.' :: t) else t.span isDecDigit) = _
      rw [this, Bool.and_false, if_neg Bool.false_ne_true]
    rw [hfr]
    have hnot : ((cs.span isDecDigit).1.isEmpty && (t.span isDecDigit).1.isEmpty) = false := by
      cases hfr1 : (t.span isDecDigit).1 with
      | nil => exact absurd hfr1 h.1
      | cons d ds => simp
    rw [if_neg (by rw [hnot]; exact Bool.false_ne_true)]
    exact ⟨_, by rw [(validExponent_spec _ h.2).1]⟩
  · rename_i r hnodot
    simp only [Bool.and_eq_true, Bool.not_eq_true', List.isEmpty_eq_false] at h
    have hfr : fractionPart (cs.span isDecDigit).1 (cs.span isDecDigit).2 =
        ([], (cs.span isDecDigit).2) := by
      unfold fractionPart
      split
      · rename_i t heq
        exact absurd heq (hnodot t)
      · rfl
    rw [hfr]
    have hnot : ((cs.span isDecDigit).1.isEmpty && ([] : List Char).isEmpty) = false := by
      cases hip1 : (cs.span isDecDigit).1 with
      | nil => exact absurd hip1 h.1
      | cons d ds => simp
    rw [if_neg (by rw [hnot]; exact Bool.false_ne_true)]
    exact ⟨_, by rw [(validExponent_spec _ h.2).1]⟩

/-- No rounding gives NaN. -/
theorem JSNum.roundDouble_ne_nan (q : ℚ) : JSNum.roundDouble q ≠ JSNum.nan := by
  unfold JSNum.roundDouble
  split
  · exact fun h => JSNum.noConfusion h
  · split
    · split <;> exact fun h => JSNum.noConfusion h
    · split <;> exact fun h => JSNum.noConfusion h

/-- Trimming leaves a text without white space as it is. -/
theorem dropWhile_isWhiteSpace_of_none (l : List Char)
    (h : ∀ c ∈ l, isWhiteSpace c = false) : l.dropWhile isWhiteSpace = l := by
  cases l with
  | nil => rfl
  | cons c rest =>
    rw [List.dropWhile_cons, h c (List.mem_cons_self _ _)]
    rfl

/-- A valid floating-point number is read whole by `strDecimalLiteral`, as a finite or
infinite Number, never as NaN. -/
theorem validFloat_strDecimalLiteral (s : String) (h : isValidFloatingPointNumber s = true) :
    (∃ q : ℚ, strDecimalLiteral s.data = some (JSNum.roundDouble q, [])) ∧
      s.data ≠ [] ∧
      ∀ c ∈ s.data, isDecDigit c = true ∨ c = '.' ∨ c = 'e' ∨ c = 'E' ∨ c = '+' ∨ c = '-' := by
  unfold isValidFloatingPointNumber at h
  split at h
  · rename_i t heq
    obtain ⟨⟨q, hq⟩, -, hchars⟩ := validUnsignedFloat_spec t h
    rw [heq]
    refine ⟨⟨-q, ?_⟩, by simp, ?_⟩
    · show (match strUnsignedDecimalLiteral t with
        | some (some q, r) => some (JSNum.roundDouble (-q), r)
        | some (none, r) => some (JSNum.negInf, r)
        | none => none) = _
      rw [hq]
    · intro c hc
      rcases List.mem_cons.1 hc with hc | hc
      · exact Or.inr (Or.inr (Or.inr (Or.inr (Or.inr hc))))
      · exact hchars c hc
  · rename_i cs hnominus
    obtain ⟨⟨q, hq⟩, hne, hchars⟩ := validUnsignedFloat_spec s.data h
    obtain ⟨c, rest, hcs, hc⟩ := strUnsignedDecimalLiteral_head _ _ _ hq
    obtain ⟨-, hminus, hplus⟩ := isDecDigit_not_special c hc
    refine ⟨⟨q, ?_⟩, hne, hchars⟩
    rw [hcs] at hq ⊢
    exact strDecimalLiteral_unsigned c rest hminus hplus q [] hq

/-- Every value of a number input is the empty text or a text that `parseFloat` and `Number`
read alike, as a number. -/
theorem numberInputValue_parses (s : String) (h : isNumberInputValue s = true) :
    s = "" ∨ (parseFloat s ≠ JSNum.nan ∧ stringToNumber s = parseFloat s) := by
  unfold isNumberInputValue at h
  rw [Bool.or_eq_true] at h
  rcases h with h | h
  · left
    exact (String.isEmpty_iff s).1 h
  · right
    obtain ⟨⟨q, hq⟩, hne, hchars⟩ := validFloat_strDecimalLiteral s h
    have hws : ∀ c ∈ s.data, isWhiteSpace c = false :=
      fun c hc => (floatChar_props c (hchars c hc)).1
    have hpf : parseFloat s = JSNum.roundDouble q := by
      unfold parseFloat
      rw [dropWhile_isWhiteSpace_of_none _ hws, hq]
    have hwhole : wholeDecimalLiteral s.data = JSNum.roundDouble q := by
      unfold wholeDecimalLiteral
      rw [hq]
    have htrim : ((s.data.dropWhile isWhiteSpace).reverse.dropWhile isWhiteSpace).reverse =
        s.data := by
      rw [dropWhile_isWhiteSpace_of_none _ hws,
        dropWhile_isWhiteSpace_of_none _ (fun c hc => hws c (List.mem_reverse.1 hc)),
        List.reverse_reverse]
    refine ⟨by rw [hpf]; exact JSNum.roundDouble_ne_nan q, ?_⟩
    rw [hpf]
    unfold stringToNumber
    rw [htrim]
    split
    · rename_i heq
      exact absurd heq hne
    · rename_i x ds heq
      have hx := floatChar_props x (hchars x (by rw [heq]; simp))
      obtain ⟨-, -, h1, h2, h3, h4, h5, h6⟩ := hx
      have e1 : (x == 'x' || x == 'X') = false := by simp [h1, h2]
      have e2 : (x == 'o' || x == 'O') = false := by simp [h3, h4]
      have e3 : (x == 'b' || x == 'B') = false := by simp [h5, h6]
      rw [e1, e2, e3, ← heq]
      simp only [Bool.false_eq_true, if_false]
      exact hwhole
    · exact hwhole

/-! ## Record Payment: which submissions are sent (C1) -/

namespace PaymentManagement

/-- The requests of `handlePaymentSubmit`: none when one of its four guards rejects, otherwise
the one `recordPayment` body. -/
theorem handlePaymentSubmit_requests (s : State) (token : Option String) (net : FetchOutcome) :
    (handlePaymentSubmit s token net).requests =
      if s.selectedDeveloper = "" ∨ s.selectedInvoices.length = 0 ∨
          s.paymentFormData.amount = "" ∨
          (parseFloat s.paymentFormData.amount).le (JSNum.fin 0) = true ∨
          (parseFloat s.paymentFormData.amount).gt (getTotalBalance s) = true then []
      else [requestData token "recordPayment"
        [("paymentData",
          JSValue.obj (paymentData s (parseFloat s.paymentFormData.amount)))]] := by
  unfold handlePaymentSubmit
  by_cases h1 : s.selectedDeveloper = ""
  · simp [h1]
  by_cases h2 : s.selectedInvoices.length = 0
  · simp [h1, h2]
  by_cases h3 : s.paymentFormData.amount = "" ∨
      (parseFloat s.paymentFormData.amount).le (JSNum.fin 0) = true
  · rw [if_neg h1, if_neg h2, if_pos h3]
    rcases h3 with h3 | h3 <;> simp [h3]
  by_cases h4 : (parseFloat s.paymentFormData.amount).gt (getTotalBalance s) = true
  · rw [if_neg h1, if_neg h2, if_neg h3, if_pos h4]
    simp [h4]
  rw [if_neg h1, if_neg h2, if_neg h3, if_neg h4]
  have hreq := callAPI_requests token "recordPayment"
    [("paymentData", JSValue.obj (paymentData s (parseFloat s.paymentFormData.amount)))] net
  push_neg at h3
  rw [if_neg (by simp [h1, h2, h3.1, h3.2, h4])]
  unfold paymentAPI_record
  split
  · rename_i heq
    rw [heq] at hreq
    simp only at hreq
    split <;> simpa using hreq
  · rename_i heq
    rw [heq] at hreq
    simpa using hreq

/-- A text that is no number, which the amount's number input never yields, passes both amount
guards, `NaN <= 0` and `NaN > total` being false: with a developer and an invoice selected the
request is sent for the amount text `abc`. -/
theorem handlePaymentSubmit_sends_on_nan_text :
    (handlePaymentSubmit (formWithAmount "abc" false) none
        (FetchOutcome.networkError "offline")).sends "recordPayment" = true ∧
      isNumberInputValue (formWithAmount "abc" false).paymentFormData.amount = false ∧
      parseFloat (formWithAmount "abc" false).paymentFormData.amount = JSNum.nan := by
  decide!

/-- C1: for every state of the Record Payment form, whose amount is the value of a number
input (and for every other amount text that `parseFloat` reads as a number),
`handlePaymentSubmit` sends a `recordPayment` request exactly when a developer is selected, at
least one invoice is selected, and the entered amount is a number greater than 0 and not
greater than `getTotalBalance`; it then sends exactly that one request, and for every other
amount input it sends no request at all. -/
theorem C1_payment_sent_iff_valid_amount (s : State) (token : Option String)
    (net : FetchOutcome)
    (hinput : isNumberInputValue s.paymentFormData.amount = true ∨
      parseFloat s.paymentFormData.amount ≠ JSNum.nan) :
    ((handlePaymentSubmit s token net).sends "recordPayment" = true ↔
        (s.selectedDeveloper ≠ "" ∧ s.selectedInvoices ≠ [] ∧
          (parseFloat s.paymentFormData.amount).gt (JSNum.fin 0) = true ∧
          (parseFloat s.paymentFormData.amount).gt (getTotalBalance s) = false)) ∧
      ((s.selectedDeveloper ≠ "" ∧ s.selectedInvoices ≠ [] ∧
          (parseFloat s.paymentFormData.amount).gt (JSNum.fin 0) = true ∧
          (parseFloat s.paymentFormData.amount).gt (getTotalBalance s) = false) →
        (handlePaymentSubmit s token net).requests =
          [requestData token "recordPayment"
            [("paymentData",
              JSValue.obj (paymentData s (parseFloat s.paymentFormData.amount)))]]) ∧
      (¬ (s.selectedDeveloper ≠ "" ∧ s.selectedInvoices ≠ [] ∧
          (parseFloat s.paymentFormData.amount).gt (JSNum.fin 0) = true ∧
          (parseFloat s.paymentFormData.amount).gt (getTotalBalance s) = false) →
        (handlePaymentSubmit s token net).requests = []) := by
  have hnum : s.paymentFormData.amount = "" ∨
      parseFloat s.paymentFormData.amount ≠ JSNum.nan := by
    rcases hinput with h | h
    · rcases numberInputValue_parses _ h with he | hp
      · exact Or.inl he
      · exact Or.inr hp.1
    · exact Or.inr h
  have hguard :
      (s.selectedDeveloper = "" ∨ s.selectedInvoices.length = 0 ∨
          s.paymentFormData.amount = "" ∨
          (parseFloat s.paymentFormData.amount).le (JSNum.fin 0) = true ∨
          (parseFloat s.paymentFormData.amount).gt (getTotalBalance s) = true) ↔
        ¬ (s.selectedDeveloper ≠ "" ∧ s.selectedInvoices ≠ [] ∧
          (parseFloat s.paymentFormData.amount).gt (JSNum.fin 0) = true ∧
          (parseFloat s.paymentFormData.amount).gt (getTotalBalance s) = false) := by
    rcases hnum with he | hn
    · simp [he, parseFloat_empty, JSNum.gt, JSNum.lt]
    · have hne : s.paymentFormData.amount ≠ "" := fun he => hn (by rw [he, parseFloat_empty])
      rw [JSNum.le_fin_eq_not_gt _ _ hn]
      simp only [hne, false_or, List.length_eq_zero, Bool.not_eq_true', ne_eq, not_and,
        Bool.not_eq_false]
      constructor
      · rintro (h | h | h | h) <;> simp_all
      · intro h
        by_cases h1 : s.selectedDeveloper = ""
        · exact Or.inl h1
        by_cases h2 : s.selectedInvoices = []
        · exact Or.inr (Or.inl h2)
        by_cases h3 : (parseFloat s.paymentFormData.amount).gt (JSNum.fin 0) = true
        · exact Or.inr (Or.inr (Or.inr (h h1 h2 h3)))
        · exact Or.inr (Or.inr (Or.inl (by simpa using h3)))
  rw [handlePaymentSubmit_requests] at *
  refine ⟨?_, ?_, ?_⟩
  · unfold HandlerResult.sends
    rw [handlePaymentSubmit_requests]
    by_cases hg : (s.selectedDeveloper = "" ∨ s.selectedInvoices.length = 0 ∨
          s.paymentFormData.amount = "" ∨
          (parseFloat s.paymentFormData.amount).le (JSNum.fin 0) = true ∨
          (parseFloat s.paymentFormData.amount).gt (getTotalBalance s) = true)
    · rw [if_pos hg]
      simp only [List.any_nil, Bool.false_eq_true, false_iff]
      exact hguard.mp hg
    · rw [if_neg hg]
      have hv := not_not.mp (fun h => hg (hguard.mpr h))
      refine ⟨fun _ => hv, fun _ => ?_⟩
      simp only [List.any_cons, List.any_nil, Bool.or_false]
      refine requestData_isAction token "recordPayment" _ ?_
      simp [JSObject.hasKey]
  · intro hv
    rw [if_neg (fun hg => (hguard.mp hg) hv)]
  · intro hv
    rw [if_pos (hguard.mpr hv)]

/-- C1 at a concrete form: developer and invoice selected, balance 5000, amount `1500.50`. -/
theorem C1_payment_sent_iff_valid_amount_witness :
    isNumberInputValue (formWithAmount "1500.50" false).paymentFormData.amount = true ∧
      (handlePaymentSubmit (formWithAmount "1500.50" false) (some "tok") successResponse).sends
        "recordPayment" = true :=
  ⟨by decide,
    ((C1_payment_sent_iff_valid_amount (formWithAmount "1500.50" false) (some "tok")
      successResponse (Or.inl (by decide))).1).mpr (by decide!)⟩

end PaymentManagement

/-! ## Generate Invoice: what `handleGenerate` checks and sends (C2, C3) -/

namespace InvoiceManagement

/-- The requests of `handleGenerate`: none when the CR selection is empty or the advance is
negative, otherwise the one `generateInvoice` body. -/
theorem handleGenerate_requests (s : State) (token : Option String) (net : FetchOutcome) :
    (handleGenerate s token net).requests =
      if s.selectedCR = "" ∨ (parseFloat s.advanceAmount).orZero.lt (JSNum.fin 0) = true then []
      else [requestData token "generateInvoice"
        [("crNumber", JSValue.str s.selectedCR),
          ("advanceAmount", JSValue.num (parseFloat s.advanceAmount).orZero)]] := by
  unfold handleGenerate
  by_cases h1 : s.selectedCR = ""
  · simp [h1]
  by_cases h2 : (parseFloat s.advanceAmount).orZero.lt (JSNum.fin 0) = true
  · rw [if_neg h1, if_pos h2]
    simp [h2]
  rw [if_neg h1, if_neg h2, if_neg (by simp [h1, h2])]
  have hreq := callAPI_requests token "generateInvoice"
    [("crNumber", JSValue.str s.selectedCR),
      ("advanceAmount", JSValue.num (parseFloat s.advanceAmount).orZero)] net
  unfold invoiceAPI_generate
  split
  · rename_i heq
    rw [heq] at hreq
    simp only at hreq
    split <;> simpa using hreq
  · rename_i heq
    rw [heq] at hreq
    simpa using hreq

/-- When `handleGenerate` sends a `generateInvoice` request. -/
theorem handleGenerate_sends_iff (s : State) (token : Option String) (net : FetchOutcome) :
    (handleGenerate s token net).sends "generateInvoice" = true ↔
      (s.selectedCR ≠ "" ∧ (parseFloat s.advanceAmount).orZero.lt (JSNum.fin 0) = false) := by
  unfold HandlerResult.sends
  rw [handleGenerate_requests]
  by_cases hg : s.selectedCR = "" ∨ (parseFloat s.advanceAmount).orZero.lt (JSNum.fin 0) = true
  · rw [if_pos hg]
    simp only [List.any_nil, Bool.false_eq_true, false_iff, not_and, Bool.not_eq_false, ne_eq]
    intro h
    rcases hg with hg | hg
    · exact absurd hg h
    · exact hg
  · rw [if_neg hg]
    push_neg at hg
    refine ⟨fun _ => ⟨hg.1, by simpa using hg.2⟩, fun _ => ?_⟩
    simp only [List.any_cons, List.any_nil, Bool.or_false]
    refine requestData_isAction token "generateInvoice" _ ?_
    simp [JSObject.hasKey]

/-- C2, as stated, fails: with the loaded list holding `CR-1` in status `Billed` only, and
`CR-1` still the selected number, `handleGenerate` sends a `generateInvoice` request although no
CR of the loaded list with that number is ready for billing. -/
theorem C2_counterexample_billed_cr_is_sent :
    (handleGenerate (pageWithCR "Billed" "0") none successResponse).sends "generateInvoice"
        = true ∧
      ¬ (∃ cr ∈ (pageWithCR "Billed" "0").crs,
          cr.CR_Number = (pageWithCR "Billed" "0").selectedCR ∧
            cr.Status = "Ready for Billing") ∧
      (pageWithCR "Billed" "0").selectedCR ∉ selectCROptions (pageWithCR "Billed" "0") := by
  decide!

/-- C2, amended: `handleGenerate` itself checks only that a CR number is selected (and that the
advance is not negative): it sends a `generateInvoice` request exactly then.  The restriction to
CRs that are ready for billing lies in the Select CR control, which offers exactly the numbers
`getReadyForBillingCRs` returns: whenever the selected number is one of the options offered for
the loaded list, a request is sent only for the number of a CR of that list whose Status is
`Ready for Billing`. -/
theorem C2_generate_sent_iff_cr_selected (s : State) (token : Option String)
    (net : FetchOutcome) :
    ((handleGenerate s token net).sends "generateInvoice" = true ↔
        (s.selectedCR ≠ "" ∧ (parseFloat s.advanceAmount).orZero.lt (JSNum.fin 0) = false)) ∧
      (s.selectedCR ∈ selectCROptions s →
        (handleGenerate s token net).sends "generateInvoice" = true →
        ∃ cr ∈ s.crs, cr.CR_Number = s.selectedCR ∧ cr.Status = "Ready for Billing") := by
  refine ⟨handleGenerate_sends_iff s token net, fun hopt hsend => ?_⟩
  have hne := ((handleGenerate_sends_iff s token net).mp hsend).1
  unfold selectCROptions getReadyForBillingCRs at hopt
  rcases List.mem_cons.mp hopt with h | h
  · exact absurd h hne
  · obtain ⟨cr, hcr, hnum⟩ := List.mem_map.mp h
    obtain ⟨hmem, hst⟩ := List.mem_filter.mp hcr
    exact ⟨cr, hmem, hnum, by simpa using hst⟩

/-- C2, amended, at a concrete page: `CR-1` is ready for billing and selected. -/
theorem C2_generate_sent_iff_cr_selected_witness :
    (pageWithCR "Ready for Billing" "0").selectedCR ∈
        selectCROptions (pageWithCR "Ready for Billing" "0") ∧
      (handleGenerate (pageWithCR "Ready for Billing" "0") none successResponse).sends
        "generateInvoice" = true ∧
      ∃ cr ∈ (pageWithCR "Ready for Billing" "0").crs,
        cr.CR_Number = (pageWithCR "Ready for Billing" "0").selectedCR ∧
          cr.Status = "Ready for Billing" :=
  ⟨by decide!, by decide!,
    (C2_generate_sent_iff_cr_selected (pageWithCR "Ready for Billing" "0") none
      successResponse).2 (by decide!) (by decide!)⟩

/-- C3: with a CR selected, for every advance text, let `a` be the parsed text, `0` when the
text does not parse to a number (the empty text included).  `a` is never NaN; when `a >= 0`
`handleGenerate` sends exactly one request, `generateInvoice` with that CR number and
`advanceAmount = a`, whatever the size of `a` (no upper bound, infinity included); when `a < 0`
it sends no request. -/
theorem C3_advance_sent_iff_nonnegative (s : State) (token : Option String)
    (net : FetchOutcome) (hsel : s.selectedCR ≠ "") :
    ((if parseFloat s.advanceAmount = JSNum.nan then JSNum.fin 0
        else parseFloat s.advanceAmount).ge (JSNum.fin 0) = true →
      (handleGenerate s token net).requests =
        [requestData token "generateInvoice"
          [("crNumber", JSValue.str s.selectedCR),
            ("advanceAmount",
              JSValue.num (if parseFloat s.advanceAmount = JSNum.nan then JSNum.fin 0
                else parseFloat s.advanceAmount))]]) ∧
    ((if parseFloat s.advanceAmount = JSNum.nan then JSNum.fin 0
        else parseFloat s.advanceAmount).lt (JSNum.fin 0) = true →
      (handleGenerate s token net).requests = []) ∧
    ((if parseFloat s.advanceAmount = JSNum.nan then JSNum.fin 0
        else parseFloat s.advanceAmount).ge (JSNum.fin 0) = true ∨
      (if parseFloat s.advanceAmount = JSNum.nan then JSNum.fin 0
        else parseFloat s.advanceAmount).lt (JSNum.fin 0) = true) := by
  rw [handleGenerate_requests, JSNum.orZero_eq]
  have ha : (if parseFloat s.advanceAmount = JSNum.nan then JSNum.fin 0
      else parseFloat s.advanceAmount) ≠ JSNum.nan := by
    split
    · simp
    · assumption
  generalize (if parseFloat s.advanceAmount = JSNum.nan then JSNum.fin 0
    else parseFloat s.advanceAmount) = a at ha ⊢
  have hex : ¬ (a.ge (JSNum.fin 0) = true ∧ a.lt (JSNum.fin 0) = true) := by
    cases a <;> simp [JSNum.ge, JSNum.le, JSNum.lt]
  refine ⟨fun hge => ?_, fun hlt => ?_, ?_⟩
  · rw [if_neg]
    rintro (h | h)
    · exact hsel h
    · exact hex ⟨hge, h⟩
  · rw [if_pos (Or.inr hlt)]
  · exact JSNum.ge_or_lt_fin a 0 ha

/-- C3 at a concrete page: `CR-1` selected, advance text `250.50`, which parses to 250.5. -/
theorem C3_advance_sent_iff_nonnegative_witness :
    (pageWithCR "Ready for Billing" "250.50").selectedCR ≠ "" ∧
      parseFloat (pageWithCR "Ready for Billing" "250.50").advanceAmount
        = JSNum.fin (501 / 2) ∧
      (handleGenerate (pageWithCR "Ready for Billing" "250.50") none successResponse).requests =
        [requestData none "generateInvoice"
          [("crNumber", JSValue.str (pageWithCR "Ready for Billing" "250.50").selectedCR),
            ("advanceAmount",
              JSValue.num
                (if parseFloat (pageWithCR "Ready for Billing" "250.50").advanceAmount
                    = JSNum.nan then JSNum.fin 0
                  else parseFloat (pageWithCR "Ready for Billing" "250.50").advanceAmount))]] :=
  ⟨by decide!, by decide!,
    (C3_advance_sent_iff_nonnegative (pageWithCR "Ready for Billing" "250.50") none
      successResponse (by decide!)).1 (by decide!)⟩

end InvoiceManagement

/-! ## Update TDS Rate: the preview amounts (C4, C5) -/

namespace TDSConfig

/-- The preview's TDS amount for a plain decimal text of value `N / 10000`, `N ≤ 1000000`. -/
theorem previewTDSAmount_of_decimal (t : String) (N : Nat) (hN : N ≤ 1000000)
    (ht : decimalTextValue t = some ((N : ℚ) / 10000)) :
    previewTDSAmount t = some (fixedDigits 2 N) := by
  have hne : t ≠ "" := by
    rintro rfl
    have : decimalTextValue "" = none := by decide!
    rw [this] at ht
    cases ht
  obtain ⟨z, hz, hz0, hzerr⟩ := JSNum.previewTDS_double N hN
  have hzN : nearestScaled 2 z = N :=
    nearestScaled_two_eq z N (lt_of_le_of_lt hzerr (by norm_num))
  have hNq : (N : ℚ) ≤ 1000000 := by exact_mod_cast hN
  have hzlt : z < 10 ^ 21 := by
    rw [abs_le] at hzerr
    norm_num at hzerr ⊢
    linarith
  unfold previewTDSAmount previewPercentage
  rw [if_neg hne, if_neg hne, parseFloat_of_decimalTextValue t _ ht, hz,
    toFixed_two_of_nonneg z hz0 hzlt, hzN]

/-- The preview's net amount for a plain decimal text of value `N / 10000`, `N ≤ 1000000`. -/
theorem previewNetAmount_of_decimal (t : String) (N : Nat) (hN : N ≤ 1000000)
    (ht : decimalTextValue t = some ((N : ℚ) / 10000)) :
    previewNetAmount t = some (fixedDigits 2 (1000000 - N)) := by
  have hne : t ≠ "" := by
    rintro rfl
    have : decimalTextValue "" = none := by decide!
    rw [this] at ht
    cases ht
  unfold previewNetAmount previewPercentage
  rw [if_neg hne, if_neg hne, parseFloat_of_decimalTextValue t _ ht]
  rcases Nat.lt_or_ge N 1000000 with hlt | hge
  · obtain ⟨w, hw, hw0, hwerr⟩ := JSNum.previewNet_double N hlt
    have hcast : ((1000000 : ℚ) - N) / 100 = ((1000000 - N : Nat) : ℚ) / 100 := by
      rw [Nat.cast_sub hlt.le]
      norm_num
    rw [hcast] at hwerr
    have hwN : nearestScaled 2 w = 1000000 - N :=
      nearestScaled_two_eq w _ (lt_of_le_of_lt hwerr (by norm_num))
    have hbound : (((1000000 - N : Nat) : ℚ)) ≤ 1000000 := by
      exact_mod_cast Nat.sub_le 1000000 N
    have hwlt : w < 10 ^ 21 := by
      rw [abs_le] at hwerr
      norm_num at hwerr ⊢
      linarith
    rw [hw, toFixed_two_of_nonneg w hw0 hwlt, hwN]
  · have hN' : N = 1000000 := le_antisymm hN hge
    subst hN'
    decide!

theorem round2_hundredths (N : Nat) : round2 (10000 * ((N : ℚ) / 10000) / 100) = (N : ℚ) / 100 := by
  unfold round2
  have h : (10000 * ((N : ℚ) / 10000) / 100 * 100 + 1 / 2 : ℚ) = (N : ℚ) + 1 / 2 := by ring
  have hfloor : ⌊(N : ℚ) + 1 / 2⌋ = (N : Int) := by
    rw [Int.floor_eq_iff]
    push_cast
    constructor <;> linarith
  rw [h, hfloor]
  norm_num

/-- C4, as stated, fails: for the percentage 0.00015 the exact amount 10000 * P / 100 is
0.015 and round2 of it is 0.02, but the preview shows 0.01: the doubles give
0.014999999999999998 before `toFixed(2)` rounds. -/
theorem C4_counterexample_preview_below_tie :
    decimalTextValue "0.00015" = some (15 / 100000) ∧
      (0 : ℚ) ≤ 15 / 100000 ∧ (15 / 100000 : ℚ) ≤ 100 ∧
      round2 (10000 * (15 / 100000) / 100) = 2 / 100 ∧
      previewTDSAmount "0.00015" = some "0.01" := by
  decide!

/-- C4, amended: for every TDS percentage P in [0,100] entered as a plain decimal with at most
four decimal places (P = N / 10000 with N ≤ 1000000), the preview shows a TDS amount equal to
round2(10000 * P / 100): it shows the N hundredths N / 100 with two decimals, and
round2(10000 * P / 100) = N / 100; for P = 10 it shows 1000.00. -/
theorem C4_preview_tds_amount (t : String) (N : Nat) (hN : N ≤ 1000000)
    (ht : decimalTextValue t = some ((N : ℚ) / 10000)) :
    previewTDSAmount t = some (fixedDigits 2 N) ∧
      (N : ℚ) / 100 = round2 (10000 * ((N : ℚ) / 10000) / 100) ∧
      previewTDSAmount "10" = some "1000.00" :=
  ⟨previewTDSAmount_of_decimal t N hN ht, (round2_hundredths N).symm, by decide!⟩

/-- C4, amended, at the percentage text `12.5`: the preview shows 1250.00. -/
theorem C4_preview_tds_amount_witness :
    (125000 ≤ 1000000) ∧ decimalTextValue "12.5" = some (((125000 : Nat) : ℚ) / 10000) ∧
      previewTDSAmount "12.5" = some (fixedDigits 2 125000) ∧
      fixedDigits 2 125000 = "1250.00" :=
  ⟨by decide, by decide!,
    (C4_preview_tds_amount "12.5" 125000 (by decide) (by decide!)).1, by decide!⟩

/-- C5, as stated, fails: for the percentage 0.00005 the preview shows the TDS amount 0.01 and
the net amount 10000.00, which add up to 10000.01, not to the gross; the net amount shown is
the rounded difference, not the gross less the rounded TDS amount (9999.99). -/
theorem C5_counterexample_preview_sum_exceeds_gross :
    decimalTextValue "0.00005" = some (5 / 100000) ∧
      (0 : ℚ) ≤ 5 / 100000 ∧ (5 / 100000 : ℚ) ≤ 100 ∧
      previewTDSAmount "0.00005" = some "0.01" ∧
      previewNetAmount "0.00005" = some "10000.00" ∧
      10000 - round2 (10000 * (5 / 100000) / 100) = 999999 / 100 := by
  decide!

/-- C5, amended: for every TDS percentage P in [0,100] entered as a plain decimal with at most
four decimal places (P = N / 10000 with N ≤ 1000000; advance 0, gross 10000), the net amount
shown in the preview equals G - round2(G * P / 100): it shows the 1000000 - N hundredths with
two decimals, next to the TDS amount of N hundredths, so the displayed TDS amount plus the
displayed net amount equals the gross 10000.00. -/
theorem C5_preview_net_amount (t : String) (N : Nat) (hN : N ≤ 1000000)
    (ht : decimalTextValue t = some ((N : ℚ) / 10000)) :
    previewNetAmount t = some (fixedDigits 2 (1000000 - N)) ∧
      previewTDSAmount t = some (fixedDigits 2 N) ∧
      (((1000000 - N : Nat) : ℚ)) / 100 = 10000 - round2 (10000 * ((N : ℚ) / 10000) / 100) ∧
      (N : ℚ) / 100 + (((1000000 - N : Nat) : ℚ)) / 100 = 10000 := by
  have hcast : (((1000000 - N : Nat) : ℚ)) = 1000000 - (N : ℚ) := by
    rw [Nat.cast_sub hN]
    norm_num
  refine ⟨previewNetAmount_of_decimal t N hN ht, previewTDSAmount_of_decimal t N hN ht, ?_, ?_⟩
  · rw [round2_hundredths, hcast]
    ring
  · rw [hcast]
    ring

/-- C5, amended, at the percentage text `7.25`: TDS 725.00 and net 9275.00. -/
theorem C5_preview_net_amount_witness :
    (72500 ≤ 1000000) ∧ decimalTextValue "7.25" = some (((72500 : Nat) : ℚ) / 10000) ∧
      previewNetAmount "7.25" = some (fixedDigits 2 (1000000 - 72500)) ∧
      fixedDigits 2 (1000000 - 72500) = "9275.00" ∧ fixedDigits 2 72500 = "725.00" :=
  ⟨by decide, by decide!,
    (C5_preview_net_amount "7.25" 72500 (by decide) (by decide!)).1, by decide!, by decide!⟩

end TDSConfig

/-! ## Update TDS Rate: validation and submission (C6) -/

namespace TDSConfig

/-- The requests of `handleSubmit`: none when `validateForm` finds an error, otherwise the one
`updateTDSConfig` body. -/
theorem handleSubmit_requests (s : State) (token : Option String) (today : String)
    (net : FetchOutcome) :
    (handleSubmit s token today net).requests =
      if (validateForm s).2 = false then []
      else [requestData token "updateTDSConfig"
        [("effectiveDate", JSValue.str s.formData.effectiveDate),
          ("tdsPercentage", JSValue.num (parseFloat s.formData.tdsPercentage))]] := by
  unfold handleSubmit
  by_cases h1 : (validateForm s).2 = false
  · simp [h1]
  rw [if_neg h1, if_neg h1]
  have hreq := callAPI_requests token "updateTDSConfig"
    [("effectiveDate", JSValue.str s.formData.effectiveDate),
      ("tdsPercentage", JSValue.num (parseFloat s.formData.tdsPercentage))] net
  unfold tdsAPI_update
  split
  · rename_i heq
    rw [heq] at hreq
    simp only at hreq
    split <;> simpa using hreq
  · rename_i heq
    rw [heq] at hreq
    simpa using hreq

/-- What `validateForm` accepts. -/
theorem validateForm_eq_true_iff (s : State) :
    (validateForm s).2 = true ↔
      (s.formData.effectiveDate ≠ "" ∧ s.formData.tdsPercentage ≠ "" ∧
        (stringToNumber s.formData.tdsPercentage).isNaN = false ∧
        (parseFloat s.formData.tdsPercentage).lt (JSNum.fin 0) = false ∧
        (parseFloat s.formData.tdsPercentage).gt (JSNum.fin 100) = false) := by
  unfold validateForm validationErrors
  by_cases hd : s.formData.effectiveDate = ""
  · simp [hd]
  by_cases hp : s.formData.tdsPercentage = ""
  · simp [hd, hp]
  simp only [hd, hp, if_false, Option.isNone_none, Bool.true_and, ne_eq, not_false_eq_true,
    true_and]
  by_cases hc : (stringToNumber s.formData.tdsPercentage).isNaN = true ∨
      (parseFloat s.formData.tdsPercentage).lt (JSNum.fin 0) = true ∨
      (parseFloat s.formData.tdsPercentage).gt (JSNum.fin 100) = true
  · rw [if_pos hc]
    simp only [Option.isNone_some, Bool.false_eq_true, false_iff, not_and, Bool.not_eq_false]
    intro h1 h2
    rcases hc with hc | hc | hc
    · simp [hc] at h1
    · simp [hc] at h2
    · exact hc
  · rw [if_neg hc]
    push_neg at hc
    simpa using hc

/-- A blank text, which the percentage's number input never yields, passes the validation:
`isNaN` coerces it to 0 while `parseFloat` reads NaN, on which both range checks are false. -/
theorem handleSubmit_sends_on_blank_text :
    (handleSubmit (pageWithPercentage " ") none "2024-06-01" successResponse).sends
        "updateTDSConfig" = true ∧
      isNumberInputValue (pageWithPercentage " ").formData.tdsPercentage = false ∧
      parseFloat (pageWithPercentage " ").formData.tdsPercentage = JSNum.nan ∧
      stringToNumber (pageWithPercentage " ").formData.tdsPercentage = JSNum.fin 0 := by
  decide!

/-- C6: for every percentage text of the TDS form, which is the value of a number input (and
for every other text that `Number` and `parseFloat` read alike), `handleSubmit` sends an
`updateTDSConfig` request if and only if the effective date is non-empty, the text is non-empty
and the number `p` it denotes satisfies `0 <= p <= 100` (0 and 100 included, NaN excluded); the
request then carries that date and `tdsPercentage = p`, and otherwise nothing is sent. -/
theorem C6_tds_sent_iff_in_range (s : State) (token : Option String) (today : String)
    (net : FetchOutcome)
    (hinput : isNumberInputValue s.formData.tdsPercentage = true ∨
      stringToNumber s.formData.tdsPercentage = parseFloat s.formData.tdsPercentage) :
    ((s.formData.effectiveDate ≠ "" ∧ s.formData.tdsPercentage ≠ "" ∧
        (JSNum.fin 0).le (parseFloat s.formData.tdsPercentage) = true ∧
        (parseFloat s.formData.tdsPercentage).le (JSNum.fin 100) = true) →
      (handleSubmit s token today net).requests =
        [requestData token "updateTDSConfig"
          [("effectiveDate", JSValue.str s.formData.effectiveDate),
            ("tdsPercentage", JSValue.num (parseFloat s.formData.tdsPercentage))]]) ∧
    (¬ (s.formData.effectiveDate ≠ "" ∧ s.formData.tdsPercentage ≠ "" ∧
        (JSNum.fin 0).le (parseFloat s.formData.tdsPercentage) = true ∧
        (parseFloat s.formData.tdsPercentage).le (JSNum.fin 100) = true) →
      (handleSubmit s token today net).requests = []) := by
  have hagree : s.formData.tdsPercentage = "" ∨
      stringToNumber s.formData.tdsPercentage = parseFloat s.formData.tdsPercentage := by
    rcases hinput with h | h
    · rcases numberInputValue_parses _ h with he | hp
      · exact Or.inl he
      · exact Or.inr hp.2
    · exact Or.inr h
  have hvalid : (validateForm s).2 = true ↔
      (s.formData.effectiveDate ≠ "" ∧ s.formData.tdsPercentage ≠ "" ∧
        (JSNum.fin 0).le (parseFloat s.formData.tdsPercentage) = true ∧
        (parseFloat s.formData.tdsPercentage).le (JSNum.fin 100) = true) := by
    rw [validateForm_eq_true_iff]
    rcases hagree with he | ha
    · simp [he]
    · rw [ha, JSNum.in_range_iff]
  rw [handleSubmit_requests]
  refine ⟨fun h => ?_, fun h => ?_⟩
  · rw [if_neg (by simp [hvalid.mpr h])]
  · rw [if_pos]
    cases hv : (validateForm s).2
    · rfl
    · exact absurd (hvalid.mp hv) h

/-- C6 at the upper bound: the percentage text `100` with a date is sent. -/
theorem C6_tds_sent_iff_in_range_witness :
    isNumberInputValue (pageWithPercentage "100").formData.tdsPercentage = true ∧
      parseFloat (pageWithPercentage "100").formData.tdsPercentage = JSNum.fin 100 ∧
      (handleSubmit (pageWithPercentage "100") none "2024-06-01" successResponse).requests =
        [requestData none "updateTDSConfig"
          [("effectiveDate", JSValue.str (pageWithPercentage "100").formData.effectiveDate),
            ("tdsPercentage",
              JSValue.num (parseFloat (pageWithPercentage "100").formData.tdsPercentage))]] :=
  ⟨by decide, by decide!,
    (C6_tds_sent_iff_in_range (pageWithPercentage "100") none "2024-06-01" successResponse
      (Or.inl (by decide))).1 (by decide!)⟩

end TDSConfig

/-! ## `callAPI`: the request body (C7) -/

/-- C7, as stated, fails: for the data object `{ action: 'logout' }` the body that
`callAPI('login', data)` sends has the action `logout`, not the action argument, because the
data is spread after `action` and `token`. -/
theorem C7_counterexample_data_overrides_action :
    (callAPI none "login" [("action", JSValue.str "logout")]
        (FetchOutcome.networkError "offline")).requests.map
      (fun body => (body.isAction "login", body.isAction "logout")) = [(false, true)] := by
  decide!

/-- C7, amended: `callAPI` sends the one body `{ action, token, ...data }`.  For every action
and every data object, every field of data appears in the body unchanged; the body's `action`
field equals the action argument whenever data has no field named `action`, and its `token`
field equals the stored token (`null` when none is stored) whenever data has no field named
`token`. -/
theorem C7_body_fields (token : Option String) (action : String) (data : JSObject)
    (net : FetchOutcome) :
    (callAPI token action data net).requests = [requestData token action data] ∧
      (∀ k, data.hasKey k = true → (requestData token action data).get k = data.get k) ∧
      (data.hasKey "action" = false →
        (requestData token action data).get "action" = JSValue.str action) ∧
      (data.hasKey "token" = false →
        (requestData token action data).get "token" =
          tokenValue token) := by
  refine ⟨callAPI_requests token action data net, fun k hk => ?_, fun h => ?_, fun h => ?_⟩
  · unfold JSObject.get requestData
    rw [JSObject.lookup_append]
    cases hl : JSObject.lookup data k with
    | some w => rfl
    | none =>
      rw [(JSObject.lookup_eq_none data k).mp hl] at hk
      exact absurd hk (by simp)
  · unfold JSObject.get
    rw [requestData_lookup_action token action data h]
    rfl
  · unfold JSObject.get
    rw [requestData_lookup_token token action data h]
    rfl

/-- C7, amended, at a concrete call: `getInvoiceById` with one data field and a stored
token. -/
theorem C7_body_fields_witness :
    JSObject.hasKey [("invoiceNumber", JSValue.str "INV-1")] "invoiceNumber" = true ∧
      JSObject.hasKey [("invoiceNumber", JSValue.str "INV-1")] "action" = false ∧
      JSObject.hasKey [("invoiceNumber", JSValue.str "INV-1")] "token" = false ∧
      (requestData (some "tok") "getInvoiceById"
          [("invoiceNumber", JSValue.str "INV-1")]).get "invoiceNumber" =
        JSObject.get [("invoiceNumber", JSValue.str "INV-1")] "invoiceNumber" ∧
      (requestData (some "tok") "getInvoiceById"
          [("invoiceNumber", JSValue.str "INV-1")]).get "action" =
        JSValue.str "getInvoiceById" ∧
      (requestData (some "tok") "getInvoiceById"
          [("invoiceNumber", JSValue.str "INV-1")]).get "token" = JSValue.str "tok" :=
  ⟨by decide!, by decide!, by decide!,
    (C7_body_fields (some "tok") "getInvoiceById" [("invoiceNumber", JSValue.str "INV-1")]
      successResponse).2.1 "invoiceNumber" (by decide!),
    (C7_body_fields (some "tok") "getInvoiceById" [("invoiceNumber", JSValue.str "INV-1")]
      successResponse).2.2.1 (by decide!),
    (C7_body_fields (some "tok") "getInvoiceById" [("invoiceNumber", JSValue.str "INV-1")]
      successResponse).2.2.2 (by decide!)⟩


/-! ## Record Payment: the body sent (C8) -/

namespace PaymentManagement

/-- C8, as stated, fails: in the `recordPayment` body sent for a valid form, `developerId`,
`invoiceNumbers`, `paymentDate`, `amount`, `paymentMode`, `transactionReference` and `remarks`
are not fields of the body itself (reading them gives `undefined`); the body's only
action-specific field is `paymentData`. -/
theorem C8_counterexample_fields_not_in_body :
    (handlePaymentSubmit (formWithAmount "1500.50" false) (some "tok")
        successResponse).requests.map
      (fun body =>
        [(body.get "developerId").isNullish, (body.get "invoiceNumbers").isNullish,
          (body.get "paymentDate").isNullish, (body.get "amount").isNullish,
          (body.get "paymentMode").isNullish, (body.get "transactionReference").isNullish,
          (body.get "remarks").isNullish, (body.get "paymentData").isNullish]) =
      [[true, true, true, true, true, true, true, false]] := by
  decide!

/-- C8, amended: the `recordPayment` request built by `handlePaymentSubmit` is the one body
`{ action: 'recordPayment', token, paymentData }`: it carries `developerId`, `invoiceNumbers`,
`paymentDate`, `amount`, `paymentMode`, `transactionReference` and `remarks` as the fields of
the object `paymentData`, its single action-specific field next to `action` and `token`, with
`amount` the parsed number and `invoiceNumbers` the selected invoice numbers. -/
theorem C8_record_payment_body (s : State) (token : Option String) (net : FetchOutcome)
    (hsent : (handlePaymentSubmit s token net).sends "recordPayment" = true) :
    ∃ body, (handlePaymentSubmit s token net).requests = [body] ∧
      body.get "action" = JSValue.str "recordPayment" ∧
      body.get "token" = tokenValue token ∧
      body.get "paymentData" =
        JSValue.obj
          [("developerId", JSValue.str s.selectedDeveloper),
            ("invoiceNumbers", JSValue.arr (s.selectedInvoices.map JSValue.str)),
            ("paymentDate", JSValue.str s.paymentFormData.paymentDate),
            ("amount", JSValue.num (parseFloat s.paymentFormData.amount)),
            ("paymentMode", JSValue.str s.paymentFormData.paymentMode),
            ("transactionReference", JSValue.str s.paymentFormData.transactionReference),
            ("remarks", JSValue.str s.paymentFormData.remarks)] ∧
      body.map (fun p => p.1) = ["action", "token", "paymentData"] := by
  unfold HandlerResult.sends at hsent
  rw [handlePaymentSubmit_requests] at hsent ⊢
  split at hsent
  · simp at hsent
  · rename_i hg
    rw [if_neg hg]
    refine ⟨_, rfl, ?_, ?_, ?_, ?_⟩
    · unfold JSObject.get
      rw [requestData_lookup_action _ _ _ (by simp [JSObject.hasKey])]
      rfl
    · unfold JSObject.get
      rw [requestData_lookup_token _ _ _ (by simp [JSObject.hasKey])]
      rfl
    · simp [JSObject.get, JSObject.lookup, requestData, paymentData]
    · simp [requestData]

/-- C8, amended, at a concrete form. -/
theorem C8_record_payment_body_witness :
    (handlePaymentSubmit (formWithAmount "1500.50" false) (some "tok") successResponse).sends
        "recordPayment" = true ∧
      ∃ body,
        (handlePaymentSubmit (formWithAmount "1500.50" false) (some "tok")
          successResponse).requests = [body] ∧
        body.get "action" = JSValue.str "recordPayment" :=
  ⟨by decide!,
    (C8_record_payment_body (formWithAmount "1500.50" false) (some "tok") successResponse
      (by decide!)).imp (fun _ h => ⟨h.1, h.2.1⟩)⟩

end PaymentManagement

/-! ## `callAPI`: one request and its outcome (C9) -/

/-- C9, as stated, fails: for an HTTP-OK response whose body is the JSON text `null`, which
decodes without error, `callAPI` does not return the decoded value but throws (reading
`result.success` on `null` is a TypeError, caught and rethrown). -/
theorem C9_counterexample_null_body_raises :
    (callAPI none "getInvoices" []
        (FetchOutcome.response true 200 (some JSValue.null))).raised = true ∧
      (callAPI none "getInvoices" []
        (FetchOutcome.response true 200 (some JSValue.null))).requests.length = 1 := by
  decide!

/-- C9, amended: `callAPI` performs exactly one request per call.  It returns the decoded
response unchanged for every HTTP-OK response whose body decodes to a value other than `null`
(whether its success flag is true or false), and it raises an error exactly when the transport
fails, the HTTP status is not OK, the body cannot be decoded as JSON, or the body decodes to
`null`. -/
theorem C9_one_request_and_outcome (token : Option String) (action : String) (data : JSObject)
    (net : FetchOutcome) :
    (callAPI token action data net).requests.length = 1 ∧
      (∀ status v, net = FetchOutcome.response true status (some v) → v.isNullish = false →
        (callAPI token action data net).result = Except.ok v) ∧
      ((callAPI token action data net).raised = true ↔
        ((∃ m, net = FetchOutcome.networkError m) ∨
          (∃ status json, net = FetchOutcome.response false status json) ∨
          (∃ status, net = FetchOutcome.response true status none) ∨
          (∃ status v, net = FetchOutcome.response true status (some v) ∧
            v.isNullish = true))) := by
  refine ⟨by rw [callAPI_requests]; rfl, ?_, ?_⟩
  · intro status v hnet hv
    subst hnet
    simp [callAPI, hv]
  · cases net with
    | networkError m => simp [callAPI, CallResult.raised]
    | response ok status json =>
      cases ok with
      | false => simp [callAPI, CallResult.raised]
      | true =>
        cases json with
        | none => simp [callAPI, CallResult.raised]
        | some v =>
          cases hv : v.isNullish
          · simp [callAPI, CallResult.raised, hv]
          · simp only [callAPI, CallResult.raised, hv]
            simp only [Bool.not_true, Bool.false_eq_true, if_false, if_true, true_iff]
            exact Or.inr (Or.inr (Or.inr ⟨status, v, rfl, hv⟩))

/-- C9, amended, at a concrete call: an HTTP-OK answer `{ success: false, error: ... }` is
returned unchanged. -/
theorem C9_one_request_and_outcome_witness :
    (JSValue.obj [("success", JSValue.bool false),
        ("error", JSValue.str "Invoice already exists")]).isNullish = false ∧
      (callAPI none "generateInvoice" []
          (FetchOutcome.response true 200
            (some (JSValue.obj [("success", JSValue.bool false),
              ("error", JSValue.str "Invoice already exists")])))).result =
        Except.ok (JSValue.obj [("success", JSValue.bool false),
          ("error", JSValue.str "Invoice already exists")]) :=
  ⟨by decide!,
    (C9_one_request_and_outcome none "generateInvoice" []
      (FetchOutcome.response true 200
        (some (JSValue.obj [("success", JSValue.bool false),
          ("error", JSValue.str "Invoice already exists")])))).2.1 200 _ rfl (by decide!)⟩

/-! ## Record Payment: the effect of a failed submission (C10) -/

namespace PaymentManagement

/-- A submission that one of the four guards rejects changes nothing and starts no reload. -/
theorem handlePaymentSubmit_rejected (s : State) (token : Option String) (net : FetchOutcome)
    (hg : s.selectedDeveloper = "" ∨ s.selectedInvoices.length = 0 ∨
      s.paymentFormData.amount = "" ∨
      (parseFloat s.paymentFormData.amount).le (JSNum.fin 0) = true ∨
      (parseFloat s.paymentFormData.amount).gt (getTotalBalance s) = true) :
    (handlePaymentSubmit s token net).state = s ∧
      (handlePaymentSubmit s token net).reload = false := by
  unfold handlePaymentSubmit
  by_cases h1 : s.selectedDeveloper = ""
  · simp [h1]
  by_cases h2 : s.selectedInvoices.length = 0
  · simp [h1, h2]
  by_cases h3 : s.paymentFormData.amount = "" ∨
      (parseFloat s.paymentFormData.amount).le (JSNum.fin 0) = true
  · rw [if_neg h1, if_neg h2, if_pos h3]
    simp
  by_cases h4 : (parseFloat s.paymentFormData.amount).gt (getTotalBalance s) = true
  · rw [if_neg h1, if_neg h2, if_neg h3, if_pos h4]
    simp
  · exfalso
    rcases hg with h | h | h | h | h
    · exact h1 h
    · exact h2 h
    · exact h3 (Or.inl h)
    · exact h3 (Or.inr h)
    · exact h4 h

/-- A submission that passes the guards and is not answered with success only resets
`submitting` and starts no reload. -/
theorem handlePaymentSubmit_unanswered (s : State) (token : Option String)
    (net : FetchOutcome)
    (hg : ¬ (s.selectedDeveloper = "" ∨ s.selectedInvoices.length = 0 ∨
      s.paymentFormData.amount = "" ∨
      (parseFloat s.paymentFormData.amount).le (JSNum.fin 0) = true ∨
      (parseFloat s.paymentFormData.amount).gt (getTotalBalance s) = true))
    (hns : net.answeredSuccess = false) :
    (handlePaymentSubmit s token net).state = { s with submitting := false } ∧
      (handlePaymentSubmit s token net).reload = false := by
  push_neg at hg
  obtain ⟨h1, h2, h3, h4, h5⟩ := hg
  unfold handlePaymentSubmit
  rw [if_neg h1, if_neg h2, if_neg (by simp [h3, h4]), if_neg h5]
  unfold paymentAPI_record callAPI
  cases net with
  | networkError m => simp
  | response ok status json =>
    cases ok with
    | false => simp
    | true =>
      cases json with
      | none => simp
      | some v =>
        cases hv : v.isNullish
        · have ht : (v.getProp "success").truthy = false := by
            simpa [FetchOutcome.answeredSuccess, hv] using hns
          simp [hv, ht]
        · simp [hv]

/-- A submission that local validation rejects returns before `setSubmitting` is reached, so
`submitting` keeps its value.  A state in which `submitting` is true has the submit button
disabled, so no submission starts from it. -/
theorem handlePaymentSubmit_rejected_keeps_submitting :
    (handlePaymentSubmit (formWithAmount "" true) none successResponse).requests.length = 0 ∧
      (handlePaymentSubmit (formWithAmount "" true) none successResponse).state.submitting
        = true ∧
      submitDisabled (formWithAmount "" true) = true := by
  decide!

/-- C10: whenever a payment submission fails (rejected by local validation, so that no request
is sent, or sent and answered with `success: false` or failed in transport, that is, not
answered by an HTTP-OK response with a truthy `success`), `handlePaymentSubmit` leaves the
payment list, the advances, the modal's open state, the selected developer, the selected
invoices and every payment form field unchanged and starts no reload, and `submitting` is false
afterwards: it is set to false when a request was sent, and a rejected submission leaves it as
it was, which is false for every submission the form can make (its submit button is disabled
while `submitting` is true). -/
theorem C10_failed_submission_frame (s : State) (token : Option String) (net : FetchOutcome)
    (hfail : (handlePaymentSubmit s token net).requests = [] ∨ net.answeredSuccess = false) :
    (handlePaymentSubmit s token net).state.payments = s.payments ∧
      (handlePaymentSubmit s token net).state.advances = s.advances ∧
      (handlePaymentSubmit s token net).state.showPaymentModal = s.showPaymentModal ∧
      (handlePaymentSubmit s token net).state.selectedDeveloper = s.selectedDeveloper ∧
      (handlePaymentSubmit s token net).state.selectedInvoices = s.selectedInvoices ∧
      (handlePaymentSubmit s token net).state.paymentFormData = s.paymentFormData ∧
      (handlePaymentSubmit s token net).reload = false ∧
      ((handlePaymentSubmit s token net).requests = [] →
        (handlePaymentSubmit s token net).state = s) ∧
      ((handlePaymentSubmit s token net).requests ≠ [] →
        (handlePaymentSubmit s token net).state = { s with submitting := false }) ∧
      (s.submitting = false → (handlePaymentSubmit s token net).state.submitting = false) ∧
      (submitDisabled s = false →
        (handlePaymentSubmit s token net).state.submitting = false) := by
  have hdis : submitDisabled s = false → s.submitting = false := by
    intro h
    unfold submitDisabled at h
    rw [Bool.or_eq_false_iff] at h
    exact h.1
  by_cases hg : s.selectedDeveloper = "" ∨ s.selectedInvoices.length = 0 ∨
      s.paymentFormData.amount = "" ∨
      (parseFloat s.paymentFormData.amount).le (JSNum.fin 0) = true ∨
      (parseFloat s.paymentFormData.amount).gt (getTotalBalance s) = true
  · obtain ⟨hst, hre⟩ := handlePaymentSubmit_rejected s token net hg
    have hreq : (handlePaymentSubmit s token net).requests = [] := by
      rw [handlePaymentSubmit_requests, if_pos hg]
    rw [hst, hre]
    exact ⟨rfl, rfl, rfl, rfl, rfl, rfl, rfl, fun _ => rfl, fun h => absurd hreq h,
      fun h => h, hdis⟩
  · have hreq : (handlePaymentSubmit s token net).requests ≠ [] := by
      rw [handlePaymentSubmit_requests, if_neg hg]
      simp
    have hns : net.answeredSuccess = false := hfail.resolve_left hreq
    obtain ⟨hst, hre⟩ := handlePaymentSubmit_unanswered s token net hg hns
    rw [hst, hre]
    exact ⟨rfl, rfl, rfl, rfl, rfl, rfl, rfl, fun h => absurd h hreq, fun _ => rfl,
      fun _ => rfl, fun _ => rfl⟩

/-- C10 at a concrete submission: a valid form answered with `success: false`. -/
theorem C10_failed_submission_frame_witness :
    ((handlePaymentSubmit (formWithAmount "1500.50" false) none
          (FetchOutcome.response true 200
            (some (JSValue.obj [("success", JSValue.bool false)])))).requests = [] ∨
        (FetchOutcome.response true 200
          (some (JSValue.obj [("success", JSValue.bool false)]))).answeredSuccess = false) ∧
      (handlePaymentSubmit (formWithAmount "1500.50" false) none
          (FetchOutcome.response true 200
            (some (JSValue.obj [("success", JSValue.bool false)])))).state.showPaymentModal =
        (formWithAmount "1500.50" false).showPaymentModal ∧
      (handlePaymentSubmit (formWithAmount "1500.50" false) none
          (FetchOutcome.response true 200
            (some (JSValue.obj [("success", JSValue.bool false)])))).state.submitting = false :=
  ⟨Or.inr (by decide!),
    (C10_failed_submission_frame (formWithAmount "1500.50" false) none
      (FetchOutcome.response true 200 (some (JSValue.obj [("success", JSValue.bool false)])))
      (Or.inr (by decide!))).2.2.1,
    (C10_failed_submission_frame (formWithAmount "1500.50" false) none
      (FetchOutcome.response true 200 (some (JSValue.obj [("success", JSValue.bool false)])))
      (Or.inr (by decide!))).2.2.2.2.2.2.2.2.2.2 (by decide!)⟩

end PaymentManagement

/-! ## Whole numbers are exact doubles -/

namespace JSNum

theorem scaled_one_of_nonpos (n : Nat) (e : Int) (he : e ≤ 0) :
    scaled n 1 e = (n * 2 ^ (-e).toNat, 1) := by
  unfold scaled
  split
  · rename_i h0
    have : e = 0 := le_antisymm he h0
    subst this
    simp
  · rfl

theorem roundPos_nat (n : Nat) (h1 : 1 ≤ n) (hn : n < 2 ^ 53) : roundPos n 1 = some (n : ℚ) := by
  have hlog : log2 n < 53 := by
    obtain ⟨hlo, -⟩ := log2_spec n h1
    exact (Nat.pow_lt_pow_iff_right (by norm_num)).mp (lt_of_le_of_lt hlo hn)
  have hlog1 : log2 1 = 0 := by decide
  have he : binExponent n 1 ≤ 0 := by
    unfold binExponent
    simp only [hlog1]
    apply max_le
    · split <;> omega
    · omega
  have hsig : significand n 1 (binExponent n 1) = n * 2 ^ (-(binExponent n 1)).toNat := by
    unfold significand
    simp [scaled_one_of_nonpos n _ he, Nat.mod_one]
  unfold roundPos
  simp only
  rw [if_neg (by omega), hsig, dyadic_eq]
  congr 1
  obtain ⟨k, hk⟩ := Int.eq_ofNat_of_zero_le (by omega : 0 ≤ -(binExponent n 1))
  have hek : binExponent n 1 = -(k : Int) := by omega
  rw [hek]
  simp only [neg_neg, Int.toNat_ofNat, Nat.cast_mul, Nat.cast_pow, Nat.cast_ofNat, zpow_neg,
    zpow_natCast]
  field_simp

/-- A whole number below `2 ^ 53` is a double: rounding leaves it as it is. -/
theorem roundDouble_natCast (n : Nat) (hn : n < 2 ^ 53) : roundDouble (n : ℚ) = fin (n : ℚ) := by
  unfold roundDouble
  by_cases hz : n = 0
  · subst hz
    simp
  · have hpos : (0 : ℚ) < (n : ℚ) := by exact_mod_cast Nat.pos_of_ne_zero hz
    rw [if_neg (by exact_mod_cast hz), if_pos hpos]
    simp only [Rat.num_natCast, Int.toNat_ofNat, Rat.den_natCast]
    rw [roundPos_nat n (by omega) hn]

/-- The sum of two whole numbers whose total is below `2 ^ 53` is exact. -/
theorem add_natCast (a b : Nat) (h : a + b < 2 ^ 53) :
    (fin (a : ℚ)).add (fin (b : ℚ)) = fin ((a + b : Nat) : ℚ) := by
  show roundDouble ((a : ℚ) + (b : ℚ)) = _
  rw [← Nat.cast_add]
  exact roundDouble_natCast (a + b) h

end JSNum

theorem sumNumbers_natCast_from (ns : List Nat) (acc : Nat) (h : acc + ns.sum < 2 ^ 53) :
    (ns.map (fun (n : Nat) => JSNum.fin (n : ℚ))).foldl JSNum.add (JSNum.fin (acc : ℚ)) =
      JSNum.fin ((acc + ns.sum : Nat) : ℚ) := by
  induction ns generalizing acc with
  | nil => simp
  | cons n ns ih =>
    simp only [List.map_cons, List.foldl_cons, List.sum_cons] at h ⊢
    rw [JSNum.add_natCast acc n (by omega), ih (acc + n) (by omega)]
    congr 2
    omega

/-- The running sum of whole numbers whose total is below `2 ^ 53` is their exact sum. -/
theorem sumNumbers_natCast (ns : List Nat) (h : ns.sum < 2 ^ 53) :
    sumNumbers (ns.map (fun (n : Nat) => JSNum.fin (n : ℚ))) = JSNum.fin ((ns.sum : Nat) : ℚ) := by
  have := sumNumbers_natCast_from ns 0 (by simpa using h)
  simpa [sumNumbers] using this

/-- The rounding error of a running sum of non-negative doubles: started from `acc`, it ends
within one rounding (`2 ^ L / 2 ^ 53`) per addition of the exact sum, as long as the exact sum
with that margin stays below `2 ^ L`. -/
theorem sumNumbers_err_from (L : Nat) (hL : L ≤ 1000) (qs : List ℚ) :
    ∀ acc : ℚ, 0 ≤ acc → (∀ q ∈ qs, 0 ≤ q) →
      acc + qs.sum + (qs.length : ℚ) * ((2 : ℚ) ^ L / 2 ^ 53) < 2 ^ L →
      ∃ p : ℚ,
        (qs.map JSNum.fin).foldl JSNum.add (JSNum.fin acc) = JSNum.fin p ∧ 0 ≤ p ∧
          |p - (acc + qs.sum)| ≤ (qs.length : ℚ) * ((2 : ℚ) ^ L / 2 ^ 53) := by
  have heps : (0 : ℚ) < (2 : ℚ) ^ L / 2 ^ 53 := by positivity
  induction qs with
  | nil =>
    intro acc hacc _ _
    exact ⟨acc, rfl, hacc, by simp⟩
  | cons q rest ih =>
    intro acc hacc hnn hlt
    have hq : 0 ≤ q := hnn q (List.mem_cons_self _ _)
    have hrest : ∀ x ∈ rest, 0 ≤ x := fun x hx => hnn x (List.mem_cons_of_mem _ hx)
    have hrsum : 0 ≤ rest.sum := List.sum_nonneg hrest
    have hlen : (0 : ℚ) ≤ (rest.length : ℚ) := Nat.cast_nonneg _
    simp only [List.sum_cons, List.length_cons, Nat.cast_add, Nat.cast_one] at hlt
    have hstep : acc + q < 2 ^ L := by nlinarith
    obtain ⟨r, hr, hr0, hrerr⟩ := JSNum.roundDouble_err (acc + q) L (by linarith) hstep hL
    have hrle : r ≤ acc + q + (2 : ℚ) ^ L / 2 ^ 53 := by
      have := (abs_le.1 hrerr).2
      linarith
    obtain ⟨p, hp, hp0, hperr⟩ := ih r hr0 hrest (by nlinarith)
    refine ⟨p, ?_, hp0, ?_⟩
    · rw [List.map_cons, List.foldl_cons]
      show (rest.map JSNum.fin).foldl JSNum.add (JSNum.roundDouble (acc + q)) = _
      rw [hr, hp]
    · simp only [List.sum_cons, List.length_cons, Nat.cast_add, Nat.cast_one]
      have h1 : p - (acc + (q + rest.sum)) = (p - (r + rest.sum)) + (r - (acc + q)) := by ring
      rw [h1]
      calc |p - (r + rest.sum) + (r - (acc + q))|
          ≤ |p - (r + rest.sum)| + |r - (acc + q)| := abs_add _ _
        _ ≤ (rest.length : ℚ) * ((2 : ℚ) ^ L / 2 ^ 53) + (2 : ℚ) ^ L / 2 ^ 53 :=
          add_le_add hperr hrerr
        _ = ((rest.length : ℚ) + 1) * ((2 : ℚ) ^ L / 2 ^ 53) := by ring

/-- The rounding error of `sumNumbers` on non-negative doubles. -/
theorem sumNumbers_err (L : Nat) (hL : L ≤ 1000) (qs : List ℚ) (hnn : ∀ q ∈ qs, 0 ≤ q)
    (hlt : qs.sum + (qs.length : ℚ) * ((2 : ℚ) ^ L / 2 ^ 53) < 2 ^ L) :
    ∃ p : ℚ,
      sumNumbers (qs.map JSNum.fin) = JSNum.fin p ∧
        |p - qs.sum| ≤ (qs.length : ℚ) * ((2 : ℚ) ^ L / 2 ^ 53) := by
  obtain ⟨p, hp, -, herr⟩ := sumNumbers_err_from L hL qs 0 le_rfl hnn (by simpa using hlt)
  exact ⟨p, hp, by simpa using herr⟩

/-! ## Invoice Management: the two totals (C11) -/

namespace InvoiceManagement

/-- A `reduce` that adds the parsed field or 0 is the running sum of the parsed-or-zero
values. -/
theorem reduce_parsed_eq_sumNumbers (field : String) (invoices : List JSValue) :
    invoices.foldl
        (fun sum inv => sum.add (JSValue.parseFloat (inv.getProp field)).orZero)
        (JSNum.fin 0) =
      sumNumbers (invoices.map (fun inv => parsedOrZero (inv.getProp field))) := by
  unfold sumNumbers
  rw [List.foldl_map]
  congr 1
  funext sum inv
  rw [JSNum.orZero_eq]
  rfl

theorem parsedOrZero_natCast_map (field : String) (invoices : List JSValue) (ns : List Nat)
    (h : invoices.map (fun inv => JSValue.parseFloat (inv.getProp field)) =
      ns.map (fun (n : Nat) => JSNum.fin (n : ℚ))) :
    invoices.map (fun inv => parsedOrZero (inv.getProp field)) =
      ns.map (fun (n : Nat) => JSNum.fin (n : ℚ)) := by
  have h1 : invoices.map (fun inv => parsedOrZero (inv.getProp field)) =
      (invoices.map (fun inv => JSValue.parseFloat (inv.getProp field))).map
        (fun x => if x = JSNum.nan then JSNum.fin 0 else x) := by
    rw [List.map_map]
    rfl
  rw [h1, h, List.map_map]
  apply List.map_congr_left
  intro n _
  simp

/-- C11, as stated, fails: for three invoices with the balances 0.1, 0.2 and 0.3 (the doubles
nearest to them) the Outstanding Balance is the double 0.6000000000000001, which is more than
the sum of the three Balance_Amount values. -/
theorem C11_counterexample_rounded_total :
    totalBalance
        [JSValue.obj [("Balance_Amount", JSValue.num (JSNum.roundDouble (1 / 10)))],
          JSValue.obj [("Balance_Amount", JSValue.num (JSNum.roundDouble (2 / 10)))],
          JSValue.obj [("Balance_Amount", JSValue.num (JSNum.roundDouble (3 / 10)))]] =
        JSNum.fin (1351079888211149 / 2251799813685248) ∧
      [JSValue.obj [("Balance_Amount", JSValue.num (JSNum.roundDouble (1 / 10)))],
          JSValue.obj [("Balance_Amount", JSValue.num (JSNum.roundDouble (2 / 10)))],
          JSValue.obj [("Balance_Amount", JSValue.num (JSNum.roundDouble (3 / 10)))]].map
          (fun inv => parsedOrZero (inv.getProp "Balance_Amount")) =
        [JSNum.fin (3602879701896397 / 36028797018963968),
          JSNum.fin (3602879701896397 / 18014398509481984),
          JSNum.fin (5404319552844595 / 18014398509481984)] ∧
      (3602879701896397 / 36028797018963968 + 3602879701896397 / 18014398509481984 +
          5404319552844595 / 18014398509481984 : ℚ) <
        1351079888211149 / 2251799813685248 := by
  decide!

/-- C11, amended: for every list of invoices, the Outstanding Balance of Invoice Management is
the running sum, in list order and in the client's double arithmetic, of the invoices'
Balance_Amount values, and its Total Invoiced that of their Net_Amount values, each value being
the parsed field and a missing or non-numeric field counting as 0.  For whole-number amounts
with a total below 2^53 it is the exact sum; for non-negative amounts it is within one rounding
per invoice (`2 ^ L / 2 ^ 53` each, for sums below `2 ^ L`) of the exact sum.  For invoices
with balances 0, 2000 and 200 the outstanding balance is 2200. -/
theorem C11_invoice_totals (invoices : List JSValue) :
    totalBalance invoices =
        sumNumbers (invoices.map (fun inv => parsedOrZero (inv.getProp "Balance_Amount"))) ∧
      totalInvoiceAmount invoices =
        sumNumbers (invoices.map (fun inv => parsedOrZero (inv.getProp "Net_Amount"))) ∧
      (∀ v, JSValue.parseFloat v = JSNum.nan → parsedOrZero v = JSNum.fin 0) ∧
      (∀ inv : JSValue, inv.getProp "Balance_Amount" = JSValue.undefined →
        parsedOrZero (inv.getProp "Balance_Amount") = JSNum.fin 0) ∧
      (∀ ns : List Nat, ns.sum < 2 ^ 53 →
        invoices.map (fun inv => JSValue.parseFloat (inv.getProp "Balance_Amount")) =
          ns.map (fun (n : Nat) => JSNum.fin (n : ℚ)) →
        totalBalance invoices = JSNum.fin ((ns.sum : Nat) : ℚ)) ∧
      (∀ ns : List Nat, ns.sum < 2 ^ 53 →
        invoices.map (fun inv => JSValue.parseFloat (inv.getProp "Net_Amount")) =
          ns.map (fun (n : Nat) => JSNum.fin (n : ℚ)) →
        totalInvoiceAmount invoices = JSNum.fin ((ns.sum : Nat) : ℚ)) ∧
      (∀ (qs : List ℚ) (L : Nat), L ≤ 1000 → (∀ q ∈ qs, 0 ≤ q) →
        invoices.map (fun inv => parsedOrZero (inv.getProp "Balance_Amount")) =
          qs.map JSNum.fin →
        qs.sum + (qs.length : ℚ) * ((2 : ℚ) ^ L / 2 ^ 53) < 2 ^ L →
        ∃ p : ℚ, totalBalance invoices = JSNum.fin p ∧
          |p - qs.sum| ≤ (qs.length : ℚ) * ((2 : ℚ) ^ L / 2 ^ 53)) ∧
      (∀ (qs : List ℚ) (L : Nat), L ≤ 1000 → (∀ q ∈ qs, 0 ≤ q) →
        invoices.map (fun inv => parsedOrZero (inv.getProp "Net_Amount")) =
          qs.map JSNum.fin →
        qs.sum + (qs.length : ℚ) * ((2 : ℚ) ^ L / 2 ^ 53) < 2 ^ L →
        ∃ p : ℚ, totalInvoiceAmount invoices = JSNum.fin p ∧
          |p - qs.sum| ≤ (qs.length : ℚ) * ((2 : ℚ) ^ L / 2 ^ 53)) ∧
      totalBalance
          [JSValue.obj [("Net_Amount", JSValue.num (JSNum.fin 1000)),
              ("Balance_Amount", JSValue.num (JSNum.fin 0))],
            JSValue.obj [("Net_Amount", JSValue.num (JSNum.fin 2000)),
              ("Balance_Amount", JSValue.num (JSNum.fin 2000))],
            JSValue.obj [("Net_Amount", JSValue.num (JSNum.fin 500)),
              ("Balance_Amount", JSValue.num (JSNum.fin 200))]] = JSNum.fin 2200 := by
  refine ⟨reduce_parsed_eq_sumNumbers "Balance_Amount" invoices,
    reduce_parsed_eq_sumNumbers "Net_Amount" invoices, ?_, ?_, ?_, ?_, ?_, ?_, by decide!⟩
  · intro v hv
    simp [parsedOrZero, hv]
  · intro inv h
    rw [h]
    rfl
  · intro ns hsum hmap
    unfold totalBalance
    rw [reduce_parsed_eq_sumNumbers, parsedOrZero_natCast_map _ _ ns hmap]
    exact sumNumbers_natCast ns hsum
  · intro ns hsum hmap
    unfold totalInvoiceAmount
    rw [reduce_parsed_eq_sumNumbers, parsedOrZero_natCast_map _ _ ns hmap]
    exact sumNumbers_natCast ns hsum
  · intro qs L hL hnn hmap hlt
    unfold totalBalance
    rw [reduce_parsed_eq_sumNumbers, hmap]
    exact sumNumbers_err L hL qs hnn hlt
  · intro qs L hL hnn hmap hlt
    unfold totalInvoiceAmount
    rw [reduce_parsed_eq_sumNumbers, hmap]
    exact sumNumbers_err L hL qs hnn hlt

/-- C11, amended, at a concrete list: an invoice without a balance, one with the text `abc` and one with
the text `1500` give the outstanding balance 1500. -/
theorem C11_invoice_totals_witness :
    JSValue.parseFloat (JSValue.str "abc") = JSNum.nan ∧
      parsedOrZero (JSValue.str "abc") = JSNum.fin 0 ∧
      totalBalance
          [JSValue.obj [("Invoice_Number", JSValue.str "INV-1")],
            JSValue.obj [("Balance_Amount", JSValue.str "abc")],
            JSValue.obj [("Balance_Amount", JSValue.str "1500")]] = JSNum.fin 1500 :=
  ⟨by decide!,
    (C11_invoice_totals []).2.2.1 (JSValue.str "abc") (by decide!), by decide!⟩

end InvoiceManagement

/-! ## Client dashboard: the paid amount (C12) -/

namespace ClientDashboard

/-- C12, as stated, fails: for the billing summary with totalNet 0.11 and totalBalance 0.04 the
paid amount is the double 0.07, and Amount Paid plus Balance Due is 0.11000000000000001, not
the Net Payable 0.11, neither in the client's double arithmetic nor exactly. -/
theorem C12_counterexample_paid_plus_balance :
    (paidAmount
        (some { totalNet := JSValue.num (JSNum.roundDouble (11 / 100)),
                totalBalance := JSValue.num (JSNum.roundDouble (4 / 100)) })).add
        (balanceDue
          (some { totalNet := JSValue.num (JSNum.roundDouble (11 / 100)),
                  totalBalance := JSValue.num (JSNum.roundDouble (4 / 100)) })).toNumber ≠
      (netPayable
        (some { totalNet := JSValue.num (JSNum.roundDouble (11 / 100)),
                totalBalance := JSValue.num (JSNum.roundDouble (4 / 100)) })).toNumber ∧
      paidAmount
        (some { totalNet := JSValue.num (JSNum.roundDouble (11 / 100)),
                totalBalance := JSValue.num (JSNum.roundDouble (4 / 100)) }) =
      JSNum.fin (1261007895663739 / 18014398509481984) ∧
      JSNum.roundDouble (11 / 100) = JSNum.fin (7926335344172073 / 72057594037927936) ∧
      JSNum.roundDouble (4 / 100) = JSNum.fin (5764607523034235 / 144115188075855872) ∧
      (1261007895663739 / 18014398509481984 + 5764607523034235 / 144115188075855872 : ℚ) ≠
        7926335344172073 / 72057594037927936 := by
  decide!

/-- C12, amended: on the client dashboard paidAmount is totalNet - totalBalance computed in
double arithmetic, a missing totalNet or totalBalance (or a missing billing summary) treated
as 0.  For finite totals Amount Paid plus Balance Due equals Net Payable exactly whenever the
difference is itself a double, and otherwise up to the rounding of that one subtraction
(at most `2 ^ L / 2 ^ 53` for `0 ≤ totalNet - totalBalance < 2 ^ L`). -/
theorem C12_paid_amount (b : Option Billing) (n bal : ℚ)
    (hn : (netPayable b).toNumber = JSNum.fin n)
    (hb : (balanceDue b).toNumber = JSNum.fin bal) :
    paidAmount b = JSNum.roundDouble (n - bal) ∧
      (JSNum.roundDouble (n - bal) = JSNum.fin (n - bal) →
        ∃ p : ℚ, paidAmount b = JSNum.fin p ∧ p + bal = n) ∧
      (∀ L : Nat, L ≤ 1000 → 0 ≤ n - bal → n - bal < 2 ^ L →
        ∃ p : ℚ, paidAmount b = JSNum.fin p ∧ |p + bal - n| ≤ (2 : ℚ) ^ L / 2 ^ 53) ∧
      netPayable none = JSValue.num (JSNum.fin 0) ∧
      balanceDue none = JSValue.num (JSNum.fin 0) ∧
      paidAmount none = JSNum.fin 0 ∧
      paidAmount (some { totalNet := JSValue.undefined, totalBalance := JSValue.undefined })
        = JSNum.fin 0 := by
  have hpaid : paidAmount b = JSNum.roundDouble (n - bal) := by
    unfold paidAmount
    rw [hn, hb]
    show JSNum.roundDouble (n + -bal) = _
    rw [← sub_eq_add_neg]
  refine ⟨hpaid, fun hex => ⟨n - bal, by rw [hpaid, hex], by ring⟩, ?_, rfl, rfl, by decide!,
    by decide!⟩
  intro L hL h0 hlt
  obtain ⟨p, hp, -, hperr⟩ := JSNum.roundDouble_err (n - bal) L h0 hlt hL
  refine ⟨p, by rw [hpaid, hp], ?_⟩
  have : p + bal - n = p - (n - bal) := by ring
  rw [this]
  exact hperr

/-- C12, amended, at a concrete summary: net 8000 and balance 3000 give the paid amount
5000. -/
theorem C12_paid_amount_witness :
    (netPayable
        (some { totalNet := JSValue.num (JSNum.fin 8000),
                totalBalance := JSValue.num (JSNum.fin 3000) })).toNumber = JSNum.fin 8000 ∧
      (balanceDue
        (some { totalNet := JSValue.num (JSNum.fin 8000),
                totalBalance := JSValue.num (JSNum.fin 3000) })).toNumber = JSNum.fin 3000 ∧
      JSNum.roundDouble (8000 - 3000) = JSNum.fin (8000 - 3000) ∧
      ∃ p : ℚ,
        paidAmount
          (some { totalNet := JSValue.num (JSNum.fin 8000),
                  totalBalance := JSValue.num (JSNum.fin 3000) }) = JSNum.fin p ∧
        p + 3000 = 8000 :=
  ⟨by decide!, by decide!, by decide!,
    (C12_paid_amount
      (some { totalNet := JSValue.num (JSNum.fin 8000),
              totalBalance := JSValue.num (JSNum.fin 3000) }) 8000 3000
      (by decide!) (by decide!)).2.1 (by decide!)⟩

end ClientDashboard

/-! ## Money formatting and the password rule (C13, C14) -/

/-- C13, evaluated on the code: for a missing amount (undefined, null, the empty string, NaN)
formatCurrency returns the literal of its early return, whose characters are U+00E2, U+201A,
U+00B9 and `0.00`; for the Number 0 it returns what the Intl formatter returns, and that
literal is not the formatter's zero display (U+20B9 and `0.00`). -/
theorem C13_missing_amount_literal (format : JSValue → String) :
    formatCurrency format JSValue.undefined = "â‚¹0.00" ∧
      formatCurrency format JSValue.null = "â‚¹0.00" ∧
      formatCurrency format (JSValue.str "") = "â‚¹0.00" ∧
      formatCurrency format (JSValue.num JSNum.nan) = "â‚¹0.00" ∧
      formatCurrency format (JSValue.num (JSNum.fin 0)) = format (JSValue.num (JSNum.fin 0)) ∧
      "â‚¹0.00".data.map Char.toNat = [0xE2, 0x201A, 0xB9, 48, 46, 48, 48] ∧
      intlZeroDisplay.data.map Char.toNat = [0x20B9, 48, 46, 48, 48] ∧
      "â‚¹0.00" ≠ intlZeroDisplay := by
  refine ⟨rfl, rfl, rfl, rfl, ?_, by decide, by decide, by decide⟩
  simp [formatCurrency, JSValue.truthy, JSNum.truthy]

/-- C14: validatePassword returns valid = true, with the message "Strong password", if and
only if the password has at least 8 characters (`length`, counted in UTF-16 code units, which
is the number of characters for a password inside the Basic Multilingual Plane) and contains
one of `A`..`Z`, one of `a`..`z` and one digit; otherwise it returns valid = false with the
message of the first failed check in the order length, uppercase, lowercase, digit. -/
theorem C14_validatePassword (password : String) :
    ((validatePassword password).valid = true ↔
        8 ≤ utf16Length password ∧
          (∃ c ∈ password.data, 65 ≤ c.toNat ∧ c.toNat ≤ 90) ∧
          (∃ c ∈ password.data, 97 ≤ c.toNat ∧ c.toNat ≤ 122) ∧
          (∃ c ∈ password.data, 48 ≤ c.toNat ∧ c.toNat ≤ 57)) ∧
      ((validatePassword password).valid = true →
        (validatePassword password).message = "Strong password") ∧
      (utf16Length password < 8 →
        validatePassword password =
          { valid := false, message := "Password must be at least 8 characters" }) ∧
      (8 ≤ utf16Length password → (¬ ∃ c ∈ password.data, 65 ≤ c.toNat ∧ c.toNat ≤ 90) →
        validatePassword password =
          { valid := false,
            message := "Password must contain at least one uppercase letter" }) ∧
      (8 ≤ utf16Length password → (∃ c ∈ password.data, 65 ≤ c.toNat ∧ c.toNat ≤ 90) →
        (¬ ∃ c ∈ password.data, 97 ≤ c.toNat ∧ c.toNat ≤ 122) →
        validatePassword password =
          { valid := false,
            message := "Password must contain at least one lowercase letter" }) ∧
      (8 ≤ utf16Length password → (∃ c ∈ password.data, 65 ≤ c.toNat ∧ c.toNat ≤ 90) →
        (∃ c ∈ password.data, 97 ≤ c.toNat ∧ c.toNat ≤ 122) →
        (¬ ∃ c ∈ password.data, 48 ≤ c.toNat ∧ c.toNat ≤ 57) →
        validatePassword password =
          { valid := false, message := "Password must contain at least one number" }) ∧
      ((∀ c ∈ password.data, c.toNat < 0x10000) → utf16Length password = password.length) := by
  have hU : hasUpperCase password = true ↔ ∃ c ∈ password.data, 65 ≤ c.toNat ∧ c.toNat ≤ 90 := by
    simp [hasUpperCase, List.any_eq_true]
  have hL : hasLowerCase password = true ↔ ∃ c ∈ password.data, 97 ≤ c.toNat ∧ c.toNat ≤ 122 := by
    simp [hasLowerCase, List.any_eq_true]
  have hN : hasNumber password = true ↔ ∃ c ∈ password.data, 48 ≤ c.toNat ∧ c.toNat ≤ 57 := by
    simp [hasNumber, List.any_eq_true]
  rw [← hU, ← hL, ← hN]
  refine ⟨?_, ?_, ?_, ?_, ?_, ?_, ?_⟩
  · unfold validatePassword
    by_cases h1 : utf16Length password < 8
    · simp [h1]
    · by_cases h2 : hasUpperCase password = true <;> by_cases h3 : hasLowerCase password = true <;>
        by_cases h4 : hasNumber password = true <;> simp [h1, h2, h3, h4]
      omega
  · unfold validatePassword
    by_cases h1 : utf16Length password < 8
    · simp [h1]
    · by_cases h2 : hasUpperCase password = true <;> by_cases h3 : hasLowerCase password = true <;>
        by_cases h4 : hasNumber password = true <;> simp [h1, h2, h3, h4]
  · intro h1
    simp [validatePassword, h1]
  · intro h1 h2
    have h1n : ¬ utf16Length password < 8 := by omega
    simp [validatePassword, h1n, h2]
  · intro h1 h2 h3
    have h1n : ¬ utf16Length password < 8 := by omega
    simp [validatePassword, h1n, h2, h3]
  · intro h1 h2 h3 h4
    have h1n : ¬ utf16Length password < 8 := by omega
    simp [validatePassword, h1n, h2, h3, h4]
  · intro h
    unfold utf16Length
    rw [show password.length = password.data.length from rfl]
    suffices H : ∀ (l : List Char) (n : Nat), (∀ c ∈ l, c.toNat < 0x10000) →
        l.foldl (fun n c => n + (if c.toNat < 0x10000 then 1 else 2)) n = n + l.length by
      simpa using H password.data 0 h
    intro l
    induction l with
    | nil => intro n _; simp
    | cons c cs ih =>
      intro n hc
      have hc0 : c.toNat < 0x10000 := hc c (List.mem_cons_self _ _)
      rw [List.foldl_cons, ih _ (fun d hd => hc d (List.mem_cons_of_mem _ hd))]
      simp [hc0]
      omega

/-- C14 at a concrete password: `Passw0rd` is accepted as strong. -/
theorem C14_validatePassword_witness :
    (validatePassword "Passw0rd").valid = true ∧
      (validatePassword "Passw0rd").message = "Strong password" :=
  ⟨by decide, (C14_validatePassword "Passw0rd").2.1 (by decide)⟩

/-! ## PDF paging: the number of pages (C15) -/

namespace InvoicePDFGenerator

/-- The paging loop on heights whose subtractions are exact: started at `heightLeft = h - j * H`
with `m` further positive residues ahead, it ends within `m` iterations and adds `m` pages. -/
theorem pagingLoop_exact_length (h H : ℚ) :
    ∀ (m j fuel : Nat) (positions : List JSNum),
      m ≤ fuel →
      (∀ k : Nat, k < m → 0 < h - ((j + k : Nat) : ℚ) * H) →
      h - ((j + m : Nat) : ℚ) * H ≤ 0 →
      (∀ k : Nat, k < m →
        (JSNum.fin (h - ((j + k : Nat) : ℚ) * H)).sub (JSNum.fin H) =
          JSNum.fin (h - ((j + k + 1 : Nat) : ℚ) * H)) →
      ∃ ps : List JSNum,
        pagingLoop (JSNum.fin h) (JSNum.fin H) fuel (JSNum.fin (h - ((j : Nat) : ℚ) * H))
            positions = some ps ∧
          ps.length = positions.length + m := by
  intro m
  induction m with
  | zero =>
    intro j fuel positions _ _ hle _
    have hle0 : ¬ 0 < h - ((j : Nat) : ℚ) * H := by simpa using hle
    refine ⟨positions, ?_, by simp⟩
    cases fuel <;> simp [pagingLoop, JSNum.gt, JSNum.lt, hle0]
  | succ m ih =>
    intro j fuel positions hfuel hpos hle hexact
    obtain ⟨f, rfl⟩ : ∃ f, fuel = f + 1 := ⟨fuel - 1, by omega⟩
    have h0 : 0 < h - ((j : Nat) : ℚ) * H := by simpa using hpos 0 (Nat.succ_pos m)
    have e0 : (JSNum.fin (h - ((j : Nat) : ℚ) * H)).sub (JSNum.fin H) =
        JSNum.fin (h - ((j + 1 : Nat) : ℚ) * H) := by simpa using hexact 0 (Nat.succ_pos m)
    obtain ⟨ps, hps, hlen⟩ :=
      ih (j + 1) f (positions ++ [(JSNum.fin (h - ((j : Nat) : ℚ) * H)).sub (JSNum.fin h)])
        (by omega)
        (fun k hk => by
          have := hpos (k + 1) (by omega)
          rwa [show j + (k + 1) = j + 1 + k by omega] at this)
        (by rwa [show j + (m + 1) = j + 1 + m by omega] at hle)
        (fun k hk => by
          have := hexact (k + 1) (by omega)
          rwa [show j + (k + 1) = j + 1 + k by omega] at this)
    refine ⟨ps, ?_, ?_⟩
    · rw [pagingLoop]
      simp only [JSNum.gt, JSNum.lt, h0, decide_True, if_true]
      rw [e0]
      exact hps
    · rw [hlen]
      simp
      omega

/-- C15, as stated, fails: for the image height 0.7 and the page height 0.1 (the doubles
nearest to them) the loop ends, having placed the image on 8 pages, while the ceiling of
`h / H` is 7: the sixth residue is the double 2.7755575615628914e-17, not 0. -/
theorem C15_counterexample_extra_page :
    (generatePDFPages 100 (JSNum.roundDouble (7 / 10)) (JSNum.roundDouble (1 / 10))).map
        List.length = some 8 ∧
      JSNum.roundDouble (7 / 10) = JSNum.fin (3152519739159347 / 4503599627370496) ∧
      JSNum.roundDouble (1 / 10) = JSNum.fin (3602879701896397 / 36028797018963968) ∧
      ⌈(3152519739159347 / 4503599627370496 : ℚ) / (3602879701896397 / 36028797018963968)⌉₊
        = 7 := by
  refine ⟨by decide!, by decide!, by decide!, ?_⟩
  rw [Nat.ceil_eq_iff (by norm_num)]
  norm_num

/-- C15, amended: for every image height `h > 0` and page height `H > 0` for which the
subtractions `heightLeft -= pdfHeight` of the loop are exact in double arithmetic (whole
numbers, for instance), the paging loop terminates, within `ceil(h / H)` iterations, and the
image is placed on exactly `ceil(h / H)` pages: exactly one page when `h ≤ H`. -/
theorem C15_page_count (h H : ℚ) (hh : 0 < h) (hH : 0 < H)
    (hexact : ∀ k : Nat, k < ⌈h / H⌉₊ →
      (JSNum.fin (h - ((k : Nat) : ℚ) * H)).sub (JSNum.fin H) =
        JSNum.fin (h - ((k + 1 : Nat) : ℚ) * H))
    (fuel : Nat) (hfuel : ⌈h / H⌉₊ ≤ fuel) :
    ∃ positions : List JSNum,
      generatePDFPages fuel (JSNum.fin h) (JSNum.fin H) = some positions ∧
        positions.length = ⌈h / H⌉₊ ∧ (h ≤ H → positions.length = 1) := by
  have hn : 0 < ⌈h / H⌉₊ := Nat.ceil_pos.2 (div_pos hh hH)
  have hceil : h / H ≤ (⌈h / H⌉₊ : ℚ) := Nat.le_ceil _
  have hlast : h - ((1 + (⌈h / H⌉₊ - 1) : Nat) : ℚ) * H ≤ 0 := by
    rw [show 1 + (⌈h / H⌉₊ - 1) = ⌈h / H⌉₊ by omega]
    have := (div_le_iff₀ hH).1 hceil
    linarith
  have hbefore : ∀ k : Nat, k < ⌈h / H⌉₊ - 1 → 0 < h - ((1 + k : Nat) : ℚ) * H := by
    intro k hk
    have hlt : ((1 + k : Nat) : ℚ) < h / H := Nat.lt_ceil.1 (by omega)
    have := (lt_div_iff₀ hH).1 hlt
    linarith
  have e0 : (JSNum.fin h).sub (JSNum.fin H) = JSNum.fin (h - ((1 : Nat) : ℚ) * H) := by
    simpa using hexact 0 hn
  obtain ⟨ps, hps, hlen⟩ :=
    pagingLoop_exact_length h H (⌈h / H⌉₊ - 1) 1 fuel [JSNum.fin 0] (by omega) hbefore hlast
      (fun k hk => by
        have := hexact (1 + k) (by omega)
        exact this)
  have hlen2 : ps.length = ⌈h / H⌉₊ := by
    rw [hlen]
    simp
    omega
  refine ⟨ps, ?_, hlen2, ?_⟩
  · unfold generatePDFPages
    rw [e0]
    exact hps
  · intro hle
    rw [hlen2]
    have h1 : h / H ≤ ((1 : Nat) : ℚ) := by
      rw [div_le_iff₀ hH]
      simpa using hle
    have := Nat.ceil_le.2 h1
    omega

/-- C15, amended, at a concrete paging: an image of height 7 on pages of height 2 is placed on
`ceil(7 / 2)` pages, which are 4. -/
theorem C15_page_count_witness :
    (0 : ℚ) < 7 ∧ (0 : ℚ) < 2 ∧ ⌈(7 : ℚ) / 2⌉₊ = 4 ∧
      ∃ positions : List JSNum,
        generatePDFPages 4 (JSNum.fin 7) (JSNum.fin 2) = some positions ∧
          positions.length = ⌈(7 : ℚ) / 2⌉₊ ∧ ((7 : ℚ) ≤ 2 → positions.length = 1) :=
  have hc : ⌈(7 : ℚ) / 2⌉₊ = 4 := by
    rw [Nat.ceil_eq_iff (by norm_num)]
    norm_num
  ⟨by norm_num, by norm_num, hc,
    C15_page_count 7 2 (by norm_num) (by norm_num)
      (fun k hk => by
        rw [hc] at hk
        interval_cases k <;> decide!)
      4 (by rw [hc])⟩

end InvoicePDFGenerator

/-! ## The unpaid invoices of a developer (C16) -/

/-- A request that is answered with a truthy `success` returns the decoded answer. -/
theorem callAPI_answeredSuccess (token : Option String) (action : String) (data : JSObject)
    (net : FetchOutcome) (hnet : net.answeredSuccess = true) :
    ∃ response : JSValue,
      (callAPI token action data net).result = Except.ok response ∧
        (response.getProp "success").truthy = true := by
  cases net with
  | networkError m => simp [FetchOutcome.answeredSuccess] at hnet
  | response ok status json =>
    cases ok with
    | false => simp [FetchOutcome.answeredSuccess] at hnet
    | true =>
      cases json with
      | none => simp [FetchOutcome.answeredSuccess] at hnet
      | some v =>
        simp only [FetchOutcome.answeredSuccess, Bool.and_eq_true, Bool.not_eq_true'] at hnet
        exact ⟨v, by simp [callAPI, hnet.1], hnet.2⟩

namespace PaymentManagement

/-- After a successful answer `unpaidInvoices` is the filtered list of the answer. -/
theorem fetchUnpaidInvoices_success (s : State) (developerId : String) (token : Option String)
    (net : FetchOutcome) (data : List Invoice) (hnet : net.answeredSuccess = true) :
    (fetchUnpaidInvoices s developerId token net data).state.unpaidInvoices =
      data.filter (fun inv => (JSValue.parseFloat inv.Balance_Amount).gt (JSNum.fin 0)) := by
  obtain ⟨response, hres, hsucc⟩ :=
    callAPI_answeredSuccess token "getInvoices"
      [("filters",
        JSValue.obj
          [("filters",
            JSValue.obj
              [("developerId", JSValue.str developerId), ("unpaidOnly", JSValue.bool true)])])]
      net hnet
  unfold fetchUnpaidInvoices invoiceAPI_getAll
  generalize callAPI token "getInvoices" _ net = r at hres
  obtain ⟨reqs, ts, res⟩ := r
  simp only at hres
  subst hres
  simp [hsucc]

/-- C16: after fetchUnpaidInvoices succeeds, unpaidInvoices is exactly the sub-list, in
returned order, of the returned invoices whose Balance_Amount parses (parseFloat) to a number
greater than 0; an invoice whose balance is zero, negative, missing (undefined or null) or
not numeric (NaN) is not in it. -/
theorem C16_unpaid_invoices (s : State) (developerId : String) (token : Option String)
    (net : FetchOutcome) (data : List Invoice) (hnet : net.answeredSuccess = true) :
    (fetchUnpaidInvoices s developerId token net data).state.unpaidInvoices =
        data.filter (fun inv => (JSValue.parseFloat inv.Balance_Amount).gt (JSNum.fin 0)) ∧
      List.Sublist (fetchUnpaidInvoices s developerId token net data).state.unpaidInvoices
        data ∧
      (∀ inv : Invoice,
        inv ∈ (fetchUnpaidInvoices s developerId token net data).state.unpaidInvoices ↔
          inv ∈ data ∧
            (JSValue.parseFloat inv.Balance_Amount = JSNum.posInf ∨
              ∃ q : ℚ, JSValue.parseFloat inv.Balance_Amount = JSNum.fin q ∧ 0 < q)) ∧
      (∀ inv : Invoice,
        inv ∈ (fetchUnpaidInvoices s developerId token net data).state.unpaidInvoices →
          JSValue.parseFloat inv.Balance_Amount ≠ JSNum.nan ∧
            (∀ q : ℚ, q ≤ 0 → JSValue.parseFloat inv.Balance_Amount ≠ JSNum.fin q) ∧
            inv.Balance_Amount.isNullish = false) := by
  have hgt : ∀ x : JSNum, x.gt (JSNum.fin 0) = true ↔
      (x = JSNum.posInf ∨ ∃ q : ℚ, x = JSNum.fin q ∧ 0 < q) := by
    intro x
    cases x <;> simp [JSNum.gt, JSNum.lt]
  rw [fetchUnpaidInvoices_success s developerId token net data hnet]
  refine ⟨rfl, List.filter_sublist _, ?_, ?_⟩
  · intro inv
    rw [List.mem_filter, hgt]
  · intro inv hinv
    rw [List.mem_filter, hgt] at hinv
    refine ⟨?_, ?_, ?_⟩
    · rcases hinv.2 with h | ⟨q, h, -⟩ <;> simp [h]
    · intro q hq
      rcases hinv.2 with h | ⟨q2, h, hpos⟩
      · simp [h]
      · rw [h]
        intro heq
        injection heq with heq
        rw [heq] at hpos
        exact absurd hpos (not_lt.2 hq)
    · have hu : JSValue.parseFloat JSValue.undefined = JSNum.nan := by decide!
      have hn : JSValue.parseFloat JSValue.null = JSNum.nan := by decide!
      cases hb : inv.Balance_Amount <;> first
        | rfl
        | (exfalso
           rcases hinv.2 with h | ⟨q, h, -⟩ <;> rw [hb] at h <;>
             first
               | (rw [hu] at h; exact JSNum.noConfusion h)
               | (rw [hn] at h; exact JSNum.noConfusion h))

/-- C16 at a concrete answer: of the invoices with balances 0, "2000", absent and -5 only the
second is offered. -/
theorem C16_unpaid_invoices_witness :
    successResponse.answeredSuccess = true ∧
      ((fetchUnpaidInvoices (formWithAmount "" false) "DEV001" (some "t") successResponse
          [{ Invoice_Number := "INV-1", Balance_Amount := JSValue.num (JSNum.fin 0) },
            { Invoice_Number := "INV-2", Balance_Amount := JSValue.str "2000" },
            { Invoice_Number := "INV-3", Balance_Amount := JSValue.undefined },
            { Invoice_Number := "INV-4", Balance_Amount := JSValue.num (JSNum.fin (-5)) }]
          ).state.unpaidInvoices.map (fun inv => inv.Invoice_Number)) = ["INV-2"] :=
  ⟨by decide,
    by
      rw [(C16_unpaid_invoices (formWithAmount "" false) "DEV001" (some "t") successResponse
        [{ Invoice_Number := "INV-1", Balance_Amount := JSValue.num (JSNum.fin 0) },
          { Invoice_Number := "INV-2", Balance_Amount := JSValue.str "2000" },
          { Invoice_Number := "INV-3", Balance_Amount := JSValue.undefined },
          { Invoice_Number := "INV-4", Balance_Amount := JSValue.num (JSNum.fin (-5)) }]
        (by decide)).1]
      decide!⟩

end PaymentManagement

/-! ## The TDS history table (C17) -/

namespace TDSConfig

/-- From row `index + 1` on every badge is `Historical`. -/
theorem historyBadgesFrom_succ (index : Nat) (rows : List JSValue) :
    historyBadgesFrom (index + 1) rows = List.replicate rows.length "Historical" := by
  induction rows generalizing index with
  | nil => rfl
  | cons r rest ih => simp [historyBadgesFrom, ih, List.replicate_succ]

/-- C17, as stated, fails: for the history whose first row takes effect on 2024-01-01 and whose
second row takes effect on 2024-06-01, the row marked Active is the first row, and it is not
the most recent rate: the second row, marked Historical, has the later effective date. -/
theorem C17_counterexample_active_not_latest :
    historyBadges [historyRow "2024-01-01" 10, historyRow "2024-06-01" 8] =
        ["Active", "Historical"] ∧
      effectiveDate (historyRow "2024-01-01" 10) < effectiveDate (historyRow "2024-06-01" 8) := by
  refine ⟨rfl, ?_⟩
  show "2024-01-01" < "2024-06-01"
  rw [String.lt_iff_toList_lt]
  decide

/-- C17, amended: for every non-empty history list the first row, and only it, is marked
Active and every other row is marked Historical; the row marked Active is the most recent rate
whenever the list is ordered newest-first by effective date, as the server presents it. -/
theorem C17_history_badges (config : JSValue) (rest : List JSValue) :
    historyBadges (config :: rest) = "Active" :: List.replicate rest.length "Historical" ∧
      (historyBadges (config :: rest)).count "Active" = 1 ∧
      (List.Pairwise (fun a b => effectiveDate b ≤ effectiveDate a) (config :: rest) →
        ∀ row ∈ config :: rest, effectiveDate row ≤ effectiveDate config) := by
  have hb : historyBadges (config :: rest) =
      "Active" :: List.replicate rest.length "Historical" := by
    simp [historyBadges, historyBadgesFrom, historyBadgesFrom_succ]
  refine ⟨hb, ?_, ?_⟩
  · rw [hb, List.count_cons_self, List.count_replicate]
    simp
  · intro hp row hrow
    rcases List.mem_cons.1 hrow with h | h
    · rw [h]
    · exact (List.pairwise_cons.1 hp).1 row h

/-- C17, amended, at a concrete history ordered newest-first: the row of 2024-06-01 is marked
Active and no row has a later effective date. -/
theorem C17_history_badges_witness :
    List.Pairwise (fun a b => effectiveDate b ≤ effectiveDate a)
        [historyRow "2024-06-01" 8, historyRow "2024-01-01" 10] ∧
      ∀ row ∈ [historyRow "2024-06-01" 8, historyRow "2024-01-01" 10],
        effectiveDate row ≤ effectiveDate (historyRow "2024-06-01" 8) :=
  have hp : List.Pairwise (fun a b => effectiveDate b ≤ effectiveDate a)
      [historyRow "2024-06-01" 8, historyRow "2024-01-01" 10] := by
    refine List.pairwise_cons.2 ⟨?_, List.pairwise_singleton _ _⟩
    intro b hb
    rw [List.mem_singleton] at hb
    rw [hb]
    show "2024-01-01" ≤ "2024-06-01"
    rw [String.le_iff_toList_le]
    decide
  ⟨hp, (C17_history_badges (historyRow "2024-06-01" 8) [historyRow "2024-01-01" 10]).2.2 hp⟩

end TDSConfig

/-! ## The billing rules of the remote system (C18, C19, C20) -/

namespace BillingRules

/-- The fold of `laterRate` ends on an entry of the list that no entry of the list is later
than. -/
theorem foldl_laterRate_spec (es : List TDSRate) (e : TDSRate) :
    es.foldl laterRate e ∈ e :: es ∧
      ∀ x ∈ e :: es, x.effectiveDate.ordinal ≤ (es.foldl laterRate e).effectiveDate.ordinal := by
  induction es generalizing e with
  | nil => simp
  | cons y ys ih =>
    obtain ⟨hmem, hmax⟩ := ih (laterRate e y)
    have hl : laterRate e y = e ∨ laterRate e y = y := by
      unfold laterRate
      split
      · exact Or.inr rfl
      · exact Or.inl rfl
    have hle : e.effectiveDate.ordinal ≤ (laterRate e y).effectiveDate.ordinal ∧
        y.effectiveDate.ordinal ≤ (laterRate e y).effectiveDate.ordinal := by
      unfold laterRate
      split <;> constructor <;> omega
    have htop := hmax (laterRate e y) (List.mem_cons_self _ _)
    refine ⟨?_, ?_⟩
    · rw [List.foldl_cons]
      rcases List.mem_cons.1 hmem with h | h
      · rw [h]
        rcases hl with h2 | h2 <;> rw [h2] <;> simp
      · exact List.mem_cons_of_mem _ (List.mem_cons_of_mem _ h)
    · intro x hx
      rw [List.foldl_cons]
      rcases List.mem_cons.1 hx with h | h
      · rw [h]
        exact le_trans hle.1 htop
      · rcases List.mem_cons.1 h with h2 | h2
        · rw [h2]
          exact le_trans hle.2 htop
        · exact hmax x (List.mem_cons_of_mem _ h2)

/-- C18: resolveRate(history, onDate) returns the percentage of a history entry with the
greatest effective date that is not after onDate, whenever the history has an entry that is
not after onDate, and fails otherwise; for the history with 10 from 2024-01-01 and 8 from
2024-06-01 it returns 10 for 2024-03-15 and 8 for 2024-07-01. -/
theorem C18_resolveRate (history : List TDSRate) (onDate : Date) :
    ((∃ e ∈ history, e.effectiveDate.ordinal ≤ onDate.ordinal) →
        ∃ e ∈ history,
          resolveRate history onDate = Except.ok e.percentage ∧
            e.effectiveDate.ordinal ≤ onDate.ordinal ∧
            ∀ x ∈ history, x.effectiveDate.ordinal ≤ onDate.ordinal →
              x.effectiveDate.ordinal ≤ e.effectiveDate.ordinal) ∧
      ((¬ ∃ e ∈ history, e.effectiveDate.ordinal ≤ onDate.ordinal) →
        resolveRate history onDate = Except.error ResolveError.noApplicableRate) ∧
      resolveRate
          [{ effectiveDate := { year := 2024, month := 1, day := 1 }, percentage := 10 },
            { effectiveDate := { year := 2024, month := 6, day := 1 }, percentage := 8 }]
          { year := 2024, month := 3, day := 15 } = Except.ok 10 ∧
      resolveRate
          [{ effectiveDate := { year := 2024, month := 1, day := 1 }, percentage := 10 },
            { effectiveDate := { year := 2024, month := 6, day := 1 }, percentage := 8 }]
          { year := 2024, month := 7, day := 1 } = Except.ok 8 := by
  refine ⟨?_, ?_, ?_, ?_⟩
  · rintro ⟨e0, he0, hle0⟩
    have hmem0 : e0 ∈ history.filter (fun e => e.effectiveDate.ordinal ≤ onDate.ordinal) := by
      simp [List.mem_filter, he0, hle0]
    unfold resolveRate
    cases hf : history.filter (fun e => e.effectiveDate.ordinal ≤ onDate.ordinal) with
    | nil => rw [hf] at hmem0; simp at hmem0
    | cons e es =>
      obtain ⟨hmem, hmax⟩ := foldl_laterRate_spec es e
      have hin : es.foldl laterRate e ∈
          history.filter (fun e => e.effectiveDate.ordinal ≤ onDate.ordinal) := by
        rw [hf]
        exact hmem
      rw [List.mem_filter] at hin
      refine ⟨es.foldl laterRate e, hin.1, rfl, by simpa using hin.2, ?_⟩
      intro x hx hxle
      apply hmax
      rw [← hf, List.mem_filter]
      exact ⟨hx, by simpa using hxle⟩
  · intro hnone
    unfold resolveRate
    cases hf : history.filter (fun e => e.effectiveDate.ordinal ≤ onDate.ordinal) with
    | nil => rfl
    | cons e es =>
      exfalso
      have hin : e ∈ history.filter (fun e => e.effectiveDate.ordinal ≤ onDate.ordinal) := by
        rw [hf]
        exact List.mem_cons_self _ _
      rw [List.mem_filter] at hin
      exact hnone ⟨e, hin.1, by simpa using hin.2⟩
  · simp [resolveRate, Date.ordinal, laterRate]
  · simp [resolveRate, Date.ordinal, laterRate]

/-- C18 at the history of the example: for 2024-07-01 an entry is found, none later. -/
theorem C18_resolveRate_witness :
    ∃ e ∈ [({ effectiveDate := { year := 2024, month := 1, day := 1 }, percentage := 10 } :
              TDSRate),
            { effectiveDate := { year := 2024, month := 6, day := 1 }, percentage := 8 }],
      resolveRate
          [{ effectiveDate := { year := 2024, month := 1, day := 1 }, percentage := 10 },
            { effectiveDate := { year := 2024, month := 6, day := 1 }, percentage := 8 }]
          { year := 2024, month := 7, day := 1 } = Except.ok e.percentage ∧
        e.effectiveDate.ordinal ≤ Date.ordinal { year := 2024, month := 7, day := 1 } ∧
        ∀ x ∈ [({ effectiveDate := { year := 2024, month := 1, day := 1 }, percentage := 10 } :
                  TDSRate),
                { effectiveDate := { year := 2024, month := 6, day := 1 }, percentage := 8 }],
          x.effectiveDate.ordinal ≤ Date.ordinal { year := 2024, month := 7, day := 1 } →
            x.effectiveDate.ordinal ≤ e.effectiveDate.ordinal :=
  (C18_resolveRate
    [{ effectiveDate := { year := 2024, month := 1, day := 1 }, percentage := 10 },
      { effectiveDate := { year := 2024, month := 6, day := 1 }, percentage := 8 }]
    { year := 2024, month := 7, day := 1 }).1
    ⟨{ effectiveDate := { year := 2024, month := 1, day := 1 }, percentage := 10 },
      List.mem_cons_self _ _, by decide⟩

/-- C19: applying a payment succeeds exactly when the amount does not exceed the balance, and
then lowers balanceAmount by the amount, so never increases it; deleting a payment succeeds
exactly when the balance would not pass the net amount, and then adds the payment's amount
back to balanceAmount, so never decreases it. -/
theorem C19_payment_monotone (invoice : Invoice) (amount : NNRat) :
    ((amount : ℚ) ≤ invoice.balanceAmount →
        ∃ updated : Invoice,
          applyPayment invoice amount = Except.ok updated ∧
            updated.balanceAmount = invoice.balanceAmount - (amount : ℚ) ∧
            updated.balanceAmount ≤ invoice.balanceAmount) ∧
      (invoice.balanceAmount < (amount : ℚ) →
        applyPayment invoice amount = Except.error PaymentError.exceedsBalance) ∧
      (invoice.balanceAmount + (amount : ℚ) ≤ invoice.netAmount →
        ∃ updated : Invoice,
          deletePayment invoice amount = Except.ok updated ∧
            updated.balanceAmount = invoice.balanceAmount + (amount : ℚ) ∧
            invoice.balanceAmount ≤ updated.balanceAmount) ∧
      (invoice.netAmount < invoice.balanceAmount + (amount : ℚ) →
        deletePayment invoice amount = Except.error PaymentError.aboveNetAmount) := by
  have h0 : (0 : ℚ) ≤ (amount : ℚ) := amount.2
  refine ⟨?_, ?_, ?_, ?_⟩
  · intro h
    refine ⟨_, by rw [applyPayment, if_neg (not_lt.2 h)], rfl, ?_⟩
    show invoice.balanceAmount - (amount : ℚ) ≤ invoice.balanceAmount
    linarith
  · intro h
    rw [applyPayment, if_pos h]
  · intro h
    refine ⟨_, by rw [deletePayment, if_neg (not_lt.2 h)], rfl, ?_⟩
    show invoice.balanceAmount ≤ invoice.balanceAmount + (amount : ℚ)
    linarith
  · intro h
    rw [deletePayment, if_pos h]

/-- C19 at the scenario of the specification: on an invoice of net 8000 with balance 3000,
partially paid, deleting a payment of 2000 gives the balance 5000. -/
theorem C19_payment_monotone_witness :
    ∃ updated : Invoice,
      deletePayment
          { grossAmount := 10000, tdsAmount := 1000, advanceAdjusted := 1000,
            netAmount := 8000, balanceAmount := 3000, status := InvoiceStatus.partiallyPaid }
          2000 = Except.ok updated ∧
        updated.balanceAmount = 3000 + ((2000 : NNRat) : ℚ) ∧
        (3000 : ℚ) ≤ updated.balanceAmount :=
  (C19_payment_monotone
    { grossAmount := 10000, tdsAmount := 1000, advanceAdjusted := 1000,
      netAmount := 8000, balanceAmount := 3000, status := InvoiceStatus.partiallyPaid }
    2000).2.2.1 (by norm_num)

/-- The three payment classes count every invoice once. -/
theorem countP_classes (invoices : List Invoice) :
    invoices.countP (fun i => classify i = PaymentClass.fullyPaid) +
        invoices.countP (fun i => classify i = PaymentClass.partiallyPaid) +
        invoices.countP (fun i => classify i = PaymentClass.unpaid) = invoices.length ∧
      invoices.countP (fun i => classify i = PaymentClass.partiallyPaid) +
        invoices.countP (fun i => classify i = PaymentClass.unpaid) =
          invoices.countP (fun i => classify i ≠ PaymentClass.fullyPaid) := by
  induction invoices with
  | nil => simp
  | cons i rest ih =>
    simp only [List.countP_cons, List.length_cons]
    cases hc : classify i <;> simp at ih ⊢ <;> omega

end BillingRules

namespace AdminDashboard

/-- C20: for every invoice set, fullyPaidCount + partiallyPaidCount + unpaidCount of the
aggregate equals the number of invoices, so partiallyPaidCount + unpaidCount is the number of
invoices that are not fully paid; the dashboard's "pending" figure is the sum of the two counts
it receives.  For the invoices (net 1000, balance 0), (2000, 2000), (500, 200) the counts are
1, 1 and 1 and the balance payable is 2200. -/
theorem C20_partition (invoices : List BillingRules.Invoice) :
    (BillingRules.aggregate invoices).fullyPaidCount +
        (BillingRules.aggregate invoices).partiallyPaidCount +
        (BillingRules.aggregate invoices).unpaidCount = invoices.length ∧
      (BillingRules.aggregate invoices).partiallyPaidCount +
        (BillingRules.aggregate invoices).unpaidCount =
          invoices.countP
            (fun i => BillingRules.classify i ≠ BillingRules.PaymentClass.fullyPaid) ∧
      (invoices.length < 2 ^ 53 →
        pendingCount
            (some (JSNum.fin (((BillingRules.aggregate invoices).partiallyPaidCount : Nat) : ℚ)))
            (some (JSNum.fin (((BillingRules.aggregate invoices).unpaidCount : Nat) : ℚ))) =
          JSNum.fin
            ((invoices.countP
              (fun i => BillingRules.classify i ≠ BillingRules.PaymentClass.fullyPaid) : Nat) :
              ℚ)) ∧
      pendingCount none none = JSNum.fin 0 ∧
      (BillingRules.aggregate
          [BillingRules.invoiceOf 1000 0, BillingRules.invoiceOf 2000 2000,
            BillingRules.invoiceOf 500 200]).fullyPaidCount = 1 ∧
      (BillingRules.aggregate
          [BillingRules.invoiceOf 1000 0, BillingRules.invoiceOf 2000 2000,
            BillingRules.invoiceOf 500 200]).partiallyPaidCount = 1 ∧
      (BillingRules.aggregate
          [BillingRules.invoiceOf 1000 0, BillingRules.invoiceOf 2000 2000,
            BillingRules.invoiceOf 500 200]).unpaidCount = 1 ∧
      (BillingRules.aggregate
          [BillingRules.invoiceOf 1000 0, BillingRules.invoiceOf 2000 2000,
            BillingRules.invoiceOf 500 200]).balancePayable = 2200 := by
  obtain ⟨hsum, hpending⟩ := BillingRules.countP_classes invoices
  refine ⟨hsum, hpending, ?_, by decide!, by decide!, by decide!, by decide!, by decide!⟩
  intro hlen
  have hp : (BillingRules.aggregate invoices).partiallyPaidCount +
      (BillingRules.aggregate invoices).unpaidCount < 2 ^ 53 := by
    have : (BillingRules.aggregate invoices).fullyPaidCount +
        (BillingRules.aggregate invoices).partiallyPaidCount +
        (BillingRules.aggregate invoices).unpaidCount = invoices.length := hsum
    omega
  have hor : ∀ n : Nat, (JSNum.fin (n : ℚ)).orZero = JSNum.fin (n : ℚ) := by
    intro n
    unfold JSNum.orZero JSNum.truthy
    by_cases hn : (n : ℚ) = 0
    · simp [hn]
    · simp [hn]
  unfold pendingCount
  simp only [Option.getD_some]
  rw [hor, hor, JSNum.add_natCast _ _ hp]
  have : (BillingRules.aggregate invoices).partiallyPaidCount +
      (BillingRules.aggregate invoices).unpaidCount =
        invoices.countP
          (fun i => BillingRules.classify i ≠ BillingRules.PaymentClass.fullyPaid) := hpending
  rw [this]

/-- C20 at the invoices of the scenario: the pending figure is 2. -/
theorem C20_partition_witness :
    pendingCount
        (some (JSNum.fin (((BillingRules.aggregate
          [BillingRules.invoiceOf 1000 0, BillingRules.invoiceOf 2000 2000,
            BillingRules.invoiceOf 500 200]).partiallyPaidCount : Nat) : ℚ)))
        (some (JSNum.fin (((BillingRules.aggregate
          [BillingRules.invoiceOf 1000 0, BillingRules.invoiceOf 2000 2000,
            BillingRules.invoiceOf 500 200]).unpaidCount : Nat) : ℚ))) =
      JSNum.fin
        (([BillingRules.invoiceOf 1000 0, BillingRules.invoiceOf 2000 2000,
            BillingRules.invoiceOf 500 200].countP
          (fun i => BillingRules.classify i ≠ BillingRules.PaymentClass.fullyPaid) : Nat) : ℚ) :=
  (C20_partition
    [BillingRules.invoiceOf 1000 0, BillingRules.invoiceOf 2000 2000,
      BillingRules.invoiceOf 500 200]).2.2.1 (by norm_num)

end AdminDashboard

/-! ## The status buttons of the invoice detail view (C21) -/

namespace InvoiceManagement

/-- The requests of `handleUpdateStatus`: the one `updateInvoiceStatus` request when the
dialog was confirmed, none otherwise. -/
theorem handleUpdateStatus_requests (s : State) (invoiceNumber : JSValue) (newStatus : String)
    (confirmed : Bool) (token : Option String) (net : FetchOutcome) :
    (handleUpdateStatus s invoiceNumber newStatus confirmed token net).requests =
      if confirmed then
        [requestData token "updateInvoiceStatus"
          [("invoiceNumber", invoiceNumber), ("status", JSValue.str newStatus)]]
      else [] := by
  unfold handleUpdateStatus
  cases confirmed with
  | false => simp
  | true =>
    simp only [Bool.not_true, Bool.false_eq_true, if_false, if_true]
    have hreq := callAPI_requests token "updateInvoiceStatus"
      [("invoiceNumber", invoiceNumber), ("status", JSValue.str newStatus)] net
    unfold invoiceAPI_updateStatus
    split
    · rename_i heq
      rw [heq] at hreq
      simp only at hreq
      split <;> simpa using hreq
    · rename_i heq
      rw [heq] at hreq
      simpa using hreq

/-- The `status` field of an `updateInvoiceStatus` request body. -/
theorem updateStatus_body_status (token : Option String) (invoiceNumber : JSValue)
    (newStatus : String) :
    JSObject.get
        (requestData token "updateInvoiceStatus"
          [("invoiceNumber", invoiceNumber), ("status", JSValue.str newStatus)]) "status" =
      JSValue.str newStatus := by
  unfold JSObject.get requestData
  rw [JSObject.lookup_append]
  simp [JSObject.lookup]

/-- C21: in the invoice detail view "Mark as Paid" is offered exactly when the invoice's
Balance_Amount parses to 0 and its Status is not "Paid", and "Mark as Sent" exactly when its
Status is "Generated".  A click on an offered button, once confirmed, sends the one
updateInvoiceStatus request with the button's status; hence every request of the view with
status "Paid" is for an invoice whose balance parses to 0, and every one with status "Sent" for
an invoice whose Status is "Generated". -/
theorem C21_detail_actions (s : State) (action : DetailAction) (confirmed : Bool)
    (token : Option String) (net : FetchOutcome) :
    (DetailAction.markAsPaid ∈ detailActions s.selectedInvoice ↔
        JSValue.parseFloat (s.selectedInvoice.getProp "Balance_Amount") = JSNum.fin 0 ∧
          (s.selectedInvoice.getProp "Status").strictEqualsStr "Paid" = false) ∧
      (DetailAction.markAsSent ∈ detailActions s.selectedInvoice ↔
        (s.selectedInvoice.getProp "Status").strictEqualsStr "Generated" = true) ∧
      (∀ body ∈ (clickDetailAction s action confirmed token net).requests,
        body.isAction "updateInvoiceStatus" = true ∧
          ((body.get "status").strictEqualsStr "Paid" = true →
            JSValue.parseFloat (s.selectedInvoice.getProp "Balance_Amount") = JSNum.fin 0 ∧
              (s.selectedInvoice.getProp "Status").strictEqualsStr "Paid" = false) ∧
          ((body.get "status").strictEqualsStr "Sent" = true →
            (s.selectedInvoice.getProp "Status").strictEqualsStr "Generated" = true)) ∧
      (action ∈ detailActions s.selectedInvoice → confirmed = true →
        (clickDetailAction s action confirmed token net).requests =
          [requestData token "updateInvoiceStatus"
            [("invoiceNumber", s.selectedInvoice.getProp "Invoice_Number"),
              ("status", JSValue.str action.status)]]) ∧
      ((action ∉ detailActions s.selectedInvoice ∨ confirmed = false) →
        (clickDetailAction s action confirmed token net).requests = []) := by
  have hpaid : DetailAction.markAsPaid ∈ detailActions s.selectedInvoice ↔
      JSValue.parseFloat (s.selectedInvoice.getProp "Balance_Amount") = JSNum.fin 0 ∧
        (s.selectedInvoice.getProp "Status").strictEqualsStr "Paid" = false := by
    unfold detailActions markAsPaidOffered
    by_cases h1 : markAsSentOffered s.selectedInvoice = true <;>
      by_cases h2 : JSValue.parseFloat (s.selectedInvoice.getProp "Balance_Amount") =
        JSNum.fin 0 <;>
      cases h3 : (s.selectedInvoice.getProp "Status").strictEqualsStr "Paid" <;>
      simp [h1, h2]
  have hsent : DetailAction.markAsSent ∈ detailActions s.selectedInvoice ↔
      (s.selectedInvoice.getProp "Status").strictEqualsStr "Generated" = true := by
    unfold detailActions markAsSentOffered
    by_cases h1 : (s.selectedInvoice.getProp "Status").strictEqualsStr "Generated" = true <;>
      by_cases h2 : markAsPaidOffered s.selectedInvoice = true <;> simp [h1, h2]
  have hreqs : (clickDetailAction s action confirmed token net).requests =
      if action ∈ detailActions s.selectedInvoice ∧ confirmed = true then
        [requestData token "updateInvoiceStatus"
          [("invoiceNumber", s.selectedInvoice.getProp "Invoice_Number"),
            ("status", JSValue.str action.status)]]
      else [] := by
    unfold clickDetailAction
    by_cases h : action ∈ detailActions s.selectedInvoice
    · rw [if_pos h, handleUpdateStatus_requests]
      cases confirmed <;> simp [h]
    · rw [if_neg h]
      simp [h]
  refine ⟨hpaid, hsent, ?_, ?_, ?_⟩
  · intro body hbody
    rw [hreqs] at hbody
    by_cases h : action ∈ detailActions s.selectedInvoice ∧ confirmed = true
    · rw [if_pos h, List.mem_singleton] at hbody
      subst hbody
      refine ⟨requestData_isAction _ _ _ (by simp [JSObject.hasKey]), ?_, ?_⟩
      · rw [updateStatus_body_status]
        intro hst
        cases action with
        | markAsSent => simp [JSValue.strictEqualsStr, DetailAction.status] at hst
        | markAsPaid => exact hpaid.1 h.1
      · rw [updateStatus_body_status]
        intro hst
        cases action with
        | markAsSent => exact hsent.1 h.1
        | markAsPaid => simp [JSValue.strictEqualsStr, DetailAction.status] at hst
    · rw [if_neg h] at hbody
      simp at hbody
  · intro h hc
    rw [hreqs, if_pos ⟨h, hc⟩]
  · intro h
    rw [hreqs, if_neg]
    rintro ⟨h1, h2⟩
    rcases h with h | h
    · exact h h1
    · rw [h] at h2
      exact Bool.noConfusion h2

/-- C21 at a concrete invoice: for the generated invoice `INV-7` with balance 0 both buttons
are offered, and a confirmed click on "Mark as Paid" sends the request for `INV-7` with status
"Paid". -/
theorem C21_detail_actions_witness :
    DetailAction.markAsPaid ∈
        detailActions
          ({ pageWithCR "Billed" "0" with
            selectedInvoice :=
              JSValue.obj
                [("Invoice_Number", JSValue.str "INV-7"), ("Status", JSValue.str "Generated"),
                  ("Balance_Amount", JSValue.num (JSNum.fin 0))] } : State).selectedInvoice ∧
      (clickDetailAction
          { pageWithCR "Billed" "0" with
            selectedInvoice :=
              JSValue.obj
                [("Invoice_Number", JSValue.str "INV-7"), ("Status", JSValue.str "Generated"),
                  ("Balance_Amount", JSValue.num (JSNum.fin 0))] }
          DetailAction.markAsPaid true (some "t") successResponse).requests =
        [requestData (some "t") "updateInvoiceStatus"
          [("invoiceNumber",
              (({ pageWithCR "Billed" "0" with
                selectedInvoice :=
                  JSValue.obj
                    [("Invoice_Number", JSValue.str "INV-7"),
                      ("Status", JSValue.str "Generated"),
                      ("Balance_Amount", JSValue.num (JSNum.fin 0))] } :
                State).selectedInvoice.getProp "Invoice_Number")),
            ("status", JSValue.str DetailAction.markAsPaid.status)]] :=
  ⟨by decide!,
    (C21_detail_actions
      { pageWithCR "Billed" "0" with
        selectedInvoice :=
          JSValue.obj
            [("Invoice_Number", JSValue.str "INV-7"), ("Status", JSValue.str "Generated"),
              ("Balance_Amount", JSValue.num (JSNum.fin 0))] }
      DetailAction.markAsPaid true (some "t") successResponse).2.2.2.1 (by decide!) rfl⟩

end InvoiceManagement

/-! ## The invoice list filters (C22) -/

/-- The method `includes` finds exactly the contiguous runs. -/
theorem includes_iff (text search : String) :
    includes text search = true ↔ search.data <:+: text.data := by
  unfold includes
  rw [List.any_eq_true, List.infix_iff_prefix_suffix]
  constructor
  · rintro ⟨t, ht, hp⟩
    exact ⟨t, List.isPrefixOf_iff_prefix.1 hp, (List.mem_tails _ _).1 ht⟩
  · rintro ⟨t, hp, ht⟩
    exact ⟨t, (List.mem_tails _ _).2 ht, List.isPrefixOf_iff_prefix.2 hp⟩

/-- A text trims to the empty text exactly when it is blank: all white space. -/
theorem trim_eq_empty_iff (s : String) :
    trim s = "" ↔ ∀ c ∈ s.data, isWhiteSpace c = true := by
  unfold trim
  rw [String.ext_iff]
  show ((s.data.dropWhile isWhiteSpace).reverse.dropWhile isWhiteSpace).reverse = [] ↔ _
  rw [List.reverse_eq_nil_iff, List.dropWhile_eq_nil_iff]
  constructor
  · intro h
    have hnil : s.data.dropWhile isWhiteSpace = [] := by
      cases hd : s.data.dropWhile isWhiteSpace with
      | nil => rfl
      | cons x xs =>
        exfalso
        have hx : isWhiteSpace x = true := h x (by rw [hd]; simp)
        have hhead := List.head_dropWhile_not isWhiteSpace s.data (by rw [hd]; simp)
        simp [hd] at hhead
        rw [hhead] at hx
        exact Bool.noConfusion hx
    exact List.dropWhile_eq_nil_iff.1 hnil
  · intro h c hc
    rw [List.dropWhile_eq_nil_iff.2 h] at hc
    simp at hc

namespace InvoiceManagement

/-- The search predicate, read on the texts. -/
theorem matchesSearch_iff (toLowerCase : String → String) (searchTerm : String)
    (inv : InvoiceRow) :
    matchesSearch toLowerCase searchTerm inv = true ↔
      ((∃ n : String, inv.Invoice_Number = some n ∧
          (toLowerCase searchTerm).data <:+: (toLowerCase n).data) ∨
        (∃ c : String, inv.CR_Number = some c ∧
          (toLowerCase searchTerm).data <:+: (toLowerCase c).data)) := by
  unfold matchesSearch
  rw [Bool.or_eq_true]
  apply or_congr
  · cases inv.Invoice_Number with
    | none => simp
    | some n => simp [includes_iff]
  · cases inv.CR_Number with
    | none => simp
    | some c => simp [includes_iff]

/-- The function `applyFilters` is one filter of the list. -/
theorem applyFilters_eq_filter (toLowerCase : String → String) (invoices : List InvoiceRow)
    (searchTerm statusFilter : String) :
    applyFilters toLowerCase invoices searchTerm statusFilter =
      invoices.filter
        (fun inv =>
          (decide (trim searchTerm = "") || matchesSearch toLowerCase searchTerm inv) &&
            (decide (statusFilter = "") || inv.Status == some statusFilter)) := by
  unfold applyFilters
  by_cases h1 : trim searchTerm = "" <;> by_cases h2 : statusFilter = "" <;>
    simp [h1, h2, List.filter_filter, Bool.and_comm]

/-- C22: for every invoice list, search term and status filter, applyFilters yields the
sub-list, in original order, of exactly the invoices whose Invoice_Number or CR_Number, put in
lower case, contains the search term put in lower case (when the term is not blank) and whose
Status equals the status filter (when one is set); with a blank term and no status filter it
yields the whole list. -/
theorem C22_applyFilters (toLowerCase : String → String) (invoices : List InvoiceRow)
    (searchTerm statusFilter : String) :
    List.Sublist (applyFilters toLowerCase invoices searchTerm statusFilter) invoices ∧
      (∀ inv : InvoiceRow,
        inv ∈ applyFilters toLowerCase invoices searchTerm statusFilter ↔
          inv ∈ invoices ∧
            ((∃ c ∈ searchTerm.data, isWhiteSpace c = false) →
              ((∃ n : String, inv.Invoice_Number = some n ∧
                  (toLowerCase searchTerm).data <:+: (toLowerCase n).data) ∨
                (∃ c : String, inv.CR_Number = some c ∧
                  (toLowerCase searchTerm).data <:+: (toLowerCase c).data))) ∧
            (statusFilter ≠ "" → inv.Status = some statusFilter)) ∧
      ((∀ c ∈ searchTerm.data, isWhiteSpace c = true) → statusFilter = "" →
        applyFilters toLowerCase invoices searchTerm statusFilter = invoices) := by
  have hblank : trim searchTerm = "" ↔ ¬ ∃ c ∈ searchTerm.data, isWhiteSpace c = false := by
    rw [trim_eq_empty_iff]
    simp
  rw [applyFilters_eq_filter]
  refine ⟨List.filter_sublist _, ?_, ?_⟩
  · intro inv
    rw [List.mem_filter, Bool.and_eq_true, Bool.or_eq_true, Bool.or_eq_true, decide_eq_true_iff,
      decide_eq_true_iff, matchesSearch_iff, hblank]
    have hst : (inv.Status == some statusFilter) = true ↔ inv.Status = some statusFilter := by
      simp
    rw [hst]
    constructor
    · rintro ⟨hm, hs, hf⟩
      refine ⟨hm, ?_, ?_⟩
      · intro hnb
        rcases hs with hs | hs
        · exact absurd hnb hs
        · exact hs
      · intro hne
        rcases hf with hf | hf
        · exact absurd hf hne
        · exact hf
    · rintro ⟨hm, hs, hf⟩
      refine ⟨hm, ?_, ?_⟩
      · by_cases hnb : ∃ c ∈ searchTerm.data, isWhiteSpace c = false
        · exact Or.inr (hs hnb)
        · exact Or.inl hnb
      · by_cases hne : statusFilter = ""
        · exact Or.inl hne
        · exact Or.inr (hf hne)
  · intro hb hs
    have ht : trim searchTerm = "" := (trim_eq_empty_iff searchTerm).2 hb
    simp [ht, hs]

/-- C22 at a concrete list: a blank search term and no status filter keep both invoices; the
term `inv-2` keeps the invoice `INV-2` alone. -/
theorem C22_applyFilters_witness :
    applyFilters (fun t => String.mk (t.data.map Char.toLower))
        [{ Invoice_Number := some "INV-1", CR_Number := some "CR-9", Status := some "Paid" },
          { Invoice_Number := some "INV-2", CR_Number := none, Status := some "Sent" }]
        "  " "" =
      [{ Invoice_Number := some "INV-1", CR_Number := some "CR-9", Status := some "Paid" },
        { Invoice_Number := some "INV-2", CR_Number := none, Status := some "Sent" }] ∧
      applyFilters (fun t => String.mk (t.data.map Char.toLower))
        [{ Invoice_Number := some "INV-1", CR_Number := some "CR-9", Status := some "Paid" },
          { Invoice_Number := some "INV-2", CR_Number := none, Status := some "Sent" }]
        "inv-2" "Sent" =
      [{ Invoice_Number := some "INV-2", CR_Number := none, Status := some "Sent" }] :=
  ⟨(C22_applyFilters (fun t => String.mk (t.data.map Char.toLower))
      [{ Invoice_Number := some "INV-1", CR_Number := some "CR-9", Status := some "Paid" },
        { Invoice_Number := some "INV-2", CR_Number := none, Status := some "Sent" }]
      "  " "").2.2 (by decide) rfl,
    by decide!⟩

end InvoiceManagement

/-! ## Hour statistics of the client dashboard (C23) -/

namespace ClientDashboard

/-- The step of the pass of `calculateHoursStats`, on the billed hours: the running sum of the
hours of the CRs whose status is a billed one. -/
theorem foldl_billedHours (crs : List CR) (acc : HoursStats) :
    (crs.foldl
        (fun acc cr =>
          { totalEstimated := acc.totalEstimated.add (estimated cr),
            totalActual := acc.totalActual.add (actual cr),
            billedHours :=
              if statusIn billedStatuses cr.Status then acc.billedHours.add (crHours cr)
              else acc.billedHours,
            unbilledHours :=
              if statusIn billedStatuses cr.Status then acc.unbilledHours
              else if statusIn unbilledStatuses cr.Status then
                acc.unbilledHours.add (crHours cr)
              else acc.unbilledHours })
        acc).billedHours =
      ((crs.filter (fun cr => statusIn billedStatuses cr.Status)).map crHours).foldl JSNum.add
        acc.billedHours := by
  induction crs generalizing acc with
  | nil => rfl
  | cons cr rest ih =>
    rw [List.foldl_cons, ih]
    by_cases h : statusIn billedStatuses cr.Status = true
    · simp [List.filter_cons, h]
    · simp [List.filter_cons, h]

/-- A status is not both a billed and an unbilled one. -/
theorem statusIn_disjoint (status : JSValue) :
    statusIn billedStatuses status = true → statusIn unbilledStatuses status = false := by
  cases status with
  | str s =>
    simp only [statusIn, billedStatuses, unbilledStatuses, JSValue.strictEqualsStr,
      List.any_cons, List.any_nil, Bool.or_false, Bool.or_eq_true, beq_iff_eq, Bool.or_eq_false_iff,
      beq_eq_false_iff_ne, ne_eq]
    rintro (h | h) <;> subst h <;> decide
  | _ => simp [statusIn, billedStatuses, JSValue.strictEqualsStr]

/-- The step of the pass of `calculateHoursStats`, on the unbilled hours. -/
theorem foldl_unbilledHours (crs : List CR) (acc : HoursStats) :
    (crs.foldl
        (fun acc cr =>
          { totalEstimated := acc.totalEstimated.add (estimated cr),
            totalActual := acc.totalActual.add (actual cr),
            billedHours :=
              if statusIn billedStatuses cr.Status then acc.billedHours.add (crHours cr)
              else acc.billedHours,
            unbilledHours :=
              if statusIn billedStatuses cr.Status then acc.unbilledHours
              else if statusIn unbilledStatuses cr.Status then
                acc.unbilledHours.add (crHours cr)
              else acc.unbilledHours })
        acc).unbilledHours =
      ((crs.filter (fun cr => statusIn unbilledStatuses cr.Status)).map crHours).foldl JSNum.add
        acc.unbilledHours := by
  induction crs generalizing acc with
  | nil => rfl
  | cons cr rest ih =>
    rw [List.foldl_cons, ih]
    by_cases h : statusIn billedStatuses cr.Status = true
    · have hu := statusIn_disjoint cr.Status h
      simp [List.filter_cons, h, hu]
    · by_cases hu : statusIn unbilledStatuses cr.Status = true
      · simp [List.filter_cons, h, hu]
      · simp [List.filter_cons, h, hu]

/-- Two disjoint selections of a list of whole-number hours sum to no more than the whole. -/
theorem filter_hours_natCast (p q : CR → Bool) (hpq : ∀ cr, p cr = true → q cr = false)
    (crs : List CR) :
    ∀ ns : List Nat, crs.map crHours = ns.map (fun (n : Nat) => JSNum.fin (n : ℚ)) →
      ∃ nb nu : List Nat,
        (crs.filter p).map crHours = nb.map (fun (n : Nat) => JSNum.fin (n : ℚ)) ∧
          (crs.filter q).map crHours = nu.map (fun (n : Nat) => JSNum.fin (n : ℚ)) ∧
          nb.sum + nu.sum ≤ ns.sum := by
  induction crs with
  | nil =>
    intro ns _
    exact ⟨[], [], rfl, rfl, Nat.zero_le _⟩
  | cons cr rest ih =>
    intro ns hns
    cases ns with
    | nil => simp at hns
    | cons n ns =>
      simp only [List.map_cons, List.cons.injEq] at hns
      obtain ⟨nb, nu, hb, hu, hle⟩ := ih ns hns.2
      by_cases hp : p cr = true
      · refine ⟨n :: nb, nu, ?_, ?_, ?_⟩
        · simp [List.filter_cons, hp, hns.1, hb]
        · simp [List.filter_cons, hpq cr hp, hu]
        · simp only [List.sum_cons]
          omega
      · by_cases hq : q cr = true
        · refine ⟨nb, n :: nu, ?_, ?_, ?_⟩
          · simp [List.filter_cons, hp, hb]
          · simp [List.filter_cons, hq, hns.1, hu]
          · simp only [List.sum_cons]
            omega
        · refine ⟨nb, nu, ?_, ?_, ?_⟩
          · simp [List.filter_cons, hp, hb]
          · simp [List.filter_cons, hq, hu]
          · simp only [List.sum_cons]
            omega

/-- C23, as stated, fails: for two billed CRs with actual hours 0.1 and 0.2 (the doubles nearest
to them) billedHours is the double 0.30000000000000004, which exceeds the sum of the two
per-CR hours; unbilledHours is 0. -/
theorem C23_counterexample_rounded_sum :
    (calculateHoursStats
        [{ Estimated_Hours := JSValue.undefined,
           Actual_Hours := JSValue.num (JSNum.roundDouble (1 / 10)),
           Status := JSValue.str "Billed" },
          { Estimated_Hours := JSValue.undefined,
            Actual_Hours := JSValue.num (JSNum.roundDouble (2 / 10)),
            Status := JSValue.str "Billed" }]).billedHours =
        JSNum.fin (1351079888211149 / 4503599627370496) ∧
      (calculateHoursStats
        [{ Estimated_Hours := JSValue.undefined,
           Actual_Hours := JSValue.num (JSNum.roundDouble (1 / 10)),
           Status := JSValue.str "Billed" },
          { Estimated_Hours := JSValue.undefined,
            Actual_Hours := JSValue.num (JSNum.roundDouble (2 / 10)),
            Status := JSValue.str "Billed" }]).unbilledHours = JSNum.fin 0 ∧
      crHours
          { Estimated_Hours := JSValue.undefined,
            Actual_Hours := JSValue.num (JSNum.roundDouble (1 / 10)),
            Status := JSValue.str "Billed" } =
        JSNum.fin (3602879701896397 / 36028797018963968) ∧
      crHours
          { Estimated_Hours := JSValue.undefined,
            Actual_Hours := JSValue.num (JSNum.roundDouble (2 / 10)),
            Status := JSValue.str "Billed" } =
        JSNum.fin (3602879701896397 / 18014398509481984) ∧
      (3602879701896397 / 36028797018963968 + 3602879701896397 / 18014398509481984 : ℚ) <
        1351079888211149 / 4503599627370496 + 0 := by
  decide!

/-- C23, amended: calculateHoursStats adds each CR's hours (the actual hours when they are not
zero, otherwise the estimated hours) to billedHours iff its Status is Billed or Closed, to
unbilledHours iff its Status is In Progress, Under UAT, In Production or Ready for Billing, and
to neither otherwise, each as a running sum in double arithmetic; for hours that are whole
numbers with a total below 2^53 the sums are exact, and billedHours + unbilledHours does not
exceed the sum of the per-CR hours over all CRs. -/
theorem C23_hours_stats (allCRs : List CR) :
    (calculateHoursStats allCRs).billedHours =
        sumNumbers
          ((allCRs.filter (fun cr => statusIn billedStatuses cr.Status)).map crHours) ∧
      (calculateHoursStats allCRs).unbilledHours =
        sumNumbers
          ((allCRs.filter (fun cr => statusIn unbilledStatuses cr.Status)).map crHours) ∧
      (∀ cr : CR,
        (statusIn billedStatuses cr.Status = true ↔
            (cr.Status.strictEqualsStr "Billed" = true ∨
              cr.Status.strictEqualsStr "Closed" = true)) ∧
          (statusIn unbilledStatuses cr.Status = true ↔
            (cr.Status.strictEqualsStr "In Progress" = true ∨
              cr.Status.strictEqualsStr "Under UAT" = true ∨
              cr.Status.strictEqualsStr "In Production" = true ∨
              cr.Status.strictEqualsStr "Ready for Billing" = true)) ∧
          (statusIn billedStatuses cr.Status = true →
            statusIn unbilledStatuses cr.Status = false) ∧
          (actual cr ≠ JSNum.fin 0 → crHours cr = actual cr) ∧
          (actual cr = JSNum.fin 0 → crHours cr = estimated cr)) ∧
      (∀ ns : List Nat,
        allCRs.map crHours = ns.map (fun (n : Nat) => JSNum.fin (n : ℚ)) → ns.sum < 2 ^ 53 →
          ∃ b u : Nat,
            (calculateHoursStats allCRs).billedHours = JSNum.fin (b : ℚ) ∧
              (calculateHoursStats allCRs).unbilledHours = JSNum.fin (u : ℚ) ∧
              ((calculateHoursStats allCRs).billedHours.add
                  (calculateHoursStats allCRs).unbilledHours = JSNum.fin ((b + u : Nat) : ℚ)) ∧
              b + u ≤ ns.sum) := by
  have hb : (calculateHoursStats allCRs).billedHours =
      sumNumbers ((allCRs.filter (fun cr => statusIn billedStatuses cr.Status)).map crHours) := by
    unfold calculateHoursStats sumNumbers
    rw [foldl_billedHours]
  have hu : (calculateHoursStats allCRs).unbilledHours =
      sumNumbers
        ((allCRs.filter (fun cr => statusIn unbilledStatuses cr.Status)).map crHours) := by
    unfold calculateHoursStats sumNumbers
    rw [foldl_unbilledHours]
  refine ⟨hb, hu, ?_, ?_⟩
  · intro cr
    refine ⟨?_, ?_, statusIn_disjoint cr.Status, ?_, ?_⟩
    · simp [statusIn, billedStatuses]
    · simp [statusIn, unbilledStatuses, or_assoc]
    · intro h
      have ht : (actual cr).truthy = true := by
        have hor : actual cr = (JSValue.parseFloat cr.Actual_Hours).orZero := rfl
        cases hp : JSValue.parseFloat cr.Actual_Hours with
        | nan => rw [hor, hp] at h; exact absurd (by decide!) h
        | posInf => rw [hor, hp]; decide!
        | negInf => rw [hor, hp]; decide!
        | fin q =>
          by_cases hq : q = 0
          · subst hq
            rw [hor, hp] at h
            exact absurd (by decide!) h
          · rw [hor, hp]
            simp [JSNum.orZero, JSNum.truthy, hq]
      simp [crHours, JSNum.orElse, ht]
    · intro h
      simp [crHours, JSNum.orElse, h, JSNum.truthy]
  · intro ns hns hsum
    obtain ⟨nb, nu, hnb, hnu, hle⟩ :=
      filter_hours_natCast (fun cr => statusIn billedStatuses cr.Status)
        (fun cr => statusIn unbilledStatuses cr.Status)
        (fun cr h => statusIn_disjoint cr.Status h) allCRs ns hns
    refine ⟨nb.sum, nu.sum, ?_, ?_, ?_, hle⟩
    · rw [hb, hnb]
      exact sumNumbers_natCast nb (by omega)
    · rw [hu, hnu]
      exact sumNumbers_natCast nu (by omega)
    · rw [hb, hnb, hu, hnu, sumNumbers_natCast nb (by omega), sumNumbers_natCast nu (by omega)]
      exact JSNum.add_natCast _ _ (by omega)

/-- C23, amended, at concrete CRs: 5 hours billed, 3 hours in progress and 4 hours of a CR in
a further status give billedHours 5 and unbilledHours 3, together not more than the 12 hours
of all CRs. -/
theorem C23_hours_stats_witness :
    ∃ b u : Nat,
      (calculateHoursStats
          [{ Estimated_Hours := JSValue.num (JSNum.fin 8),
             Actual_Hours := JSValue.num (JSNum.fin 5), Status := JSValue.str "Billed" },
            { Estimated_Hours := JSValue.num (JSNum.fin 3),
              Actual_Hours := JSValue.num (JSNum.fin 0), Status := JSValue.str "In Progress" },
            { Estimated_Hours := JSValue.num (JSNum.fin 4),
              Actual_Hours := JSValue.undefined, Status := JSValue.str "Estimated" }]
          ).billedHours = JSNum.fin (b : ℚ) ∧
        (calculateHoursStats
          [{ Estimated_Hours := JSValue.num (JSNum.fin 8),
             Actual_Hours := JSValue.num (JSNum.fin 5), Status := JSValue.str "Billed" },
            { Estimated_Hours := JSValue.num (JSNum.fin 3),
              Actual_Hours := JSValue.num (JSNum.fin 0), Status := JSValue.str "In Progress" },
            { Estimated_Hours := JSValue.num (JSNum.fin 4),
              Actual_Hours := JSValue.undefined, Status := JSValue.str "Estimated" }]
          ).unbilledHours = JSNum.fin (u : ℚ) ∧
        ((calculateHoursStats
          [{ Estimated_Hours := JSValue.num (JSNum.fin 8),
             Actual_Hours := JSValue.num (JSNum.fin 5), Status := JSValue.str "Billed" },
            { Estimated_Hours := JSValue.num (JSNum.fin 3),
              Actual_Hours := JSValue.num (JSNum.fin 0), Status := JSValue.str "In Progress" },
            { Estimated_Hours := JSValue.num (JSNum.fin 4),
              Actual_Hours := JSValue.undefined, Status := JSValue.str "Estimated" }]
          ).billedHours.add
          (calculateHoursStats
          [{ Estimated_Hours := JSValue.num (JSNum.fin 8),
             Actual_Hours := JSValue.num (JSNum.fin 5), Status := JSValue.str "Billed" },
            { Estimated_Hours := JSValue.num (JSNum.fin 3),
              Actual_Hours := JSValue.num (JSNum.fin 0), Status := JSValue.str "In Progress" },
            { Estimated_Hours := JSValue.num (JSNum.fin 4),
              Actual_Hours := JSValue.undefined, Status := JSValue.str "Estimated" }]
          ).unbilledHours = JSNum.fin ((b + u : Nat) : ℚ)) ∧
        b + u ≤ [5, 3, 4].sum :=
  (C23_hours_stats
    [{ Estimated_Hours := JSValue.num (JSNum.fin 8),
       Actual_Hours := JSValue.num (JSNum.fin 5), Status := JSValue.str "Billed" },
      { Estimated_Hours := JSValue.num (JSNum.fin 3),
        Actual_Hours := JSValue.num (JSNum.fin 0), Status := JSValue.str "In Progress" },
      { Estimated_Hours := JSValue.num (JSNum.fin 4),
        Actual_Hours := JSValue.undefined, Status := JSValue.str "Estimated" }]).2.2.2
    [5, 3, 4] (by decide!) (by norm_num)

end ClientDashboard

/-! ## The selection of the Record Payment form (C24, C25) -/

namespace PaymentManagement

/-- C24, evaluated on the code: after developer `DEV001` is chosen and its invoice `INV-1`
ticked, choosing developer `DEV002` replaces the unpaid invoices and keeps the selection; with
`INV-5` of `DEV002` ticked as well and the amount 500, the selected `INV-1` is no unpaid invoice
of the selected developer, and handlePaymentSubmit sends the recordPayment request for `DEV002`
listing `INV-1` and `INV-5`.  Choosing "no developer" in between empties the selection. -/
theorem C24_stale_selection_is_sent :
    switchedDeveloperForm.selectedDeveloper = "DEV002" ∧
      switchedDeveloperForm.selectedInvoices = ["INV-1", "INV-5"] ∧
      switchedDeveloperForm.unpaidInvoices.map (fun inv => inv.Invoice_Number) = ["INV-5"] ∧
      (handlePaymentSubmit switchedDeveloperForm (some "t") successResponse).requests.map
          (fun body =>
            (body.isAction "recordPayment",
              ((body.get "paymentData").getProp "developerId").strictEqualsStr "DEV002",
              ((body.get "paymentData").getProp "invoiceNumbers").stringItems)) =
        [(true, true, ["INV-1", "INV-5"])] ∧
      (selectDeveloper
          (handleInvoiceSelection
            (selectDeveloper (handleRecordPayment (initialState "2024-06-01") "2024-06-01")
              "DEV001" (some "t") successResponse
              [{ Invoice_Number := "INV-1",
                 Balance_Amount := JSValue.num (JSNum.fin 1000) }]).state
            "INV-1")
          "" (some "t") successResponse []).state.selectedInvoices = [] := by
  decide!

end PaymentManagement

namespace PaymentManagement

/-- One toggle of a selection without duplicates: the result has no duplicate, the toggled
number changes sides, and every other number stays where it is. -/
theorem toggleSelection_spec (prev : List String) (invoiceNumber : String) (hprev : prev.Nodup) :
    (toggleSelection prev invoiceNumber).Nodup ∧
      ∀ n : String,
        n ∈ toggleSelection prev invoiceNumber ↔
          (if n = invoiceNumber then n ∉ prev else n ∈ prev) := by
  unfold toggleSelection
  by_cases h : prev.contains invoiceNumber = true
  · rw [if_pos h]
    refine ⟨hprev.filter _, ?_⟩
    intro n
    rw [List.mem_filter]
    by_cases hn : n = invoiceNumber
    · subst hn
      have hin : n ∈ prev := by simpa using h
      simp [hin]
    · simp [hn]
  · rw [if_neg h]
    have hnot : invoiceNumber ∉ prev := by simpa using h
    refine ⟨?_, ?_⟩
    · rw [List.nodup_append]
      refine ⟨hprev, List.nodup_singleton _, ?_⟩
      intro a ha hb
      rw [List.mem_singleton] at hb
      subst hb
      exact hnot ha
    · intro n
      rw [List.mem_append, List.mem_singleton]
      by_cases hn : n = invoiceNumber
      · subst hn
        simp [hnot]
      · simp [hn]

/-- A run of toggles from a selection without duplicates: no duplicate arises, and a number
ends on the other side exactly when it was toggled an odd number of times. -/
theorem foldl_toggleSelection_spec (toggles : List String) :
    ∀ sel : List String, sel.Nodup →
      (toggles.foldl toggleSelection sel).Nodup ∧
        ∀ n : String,
          n ∈ toggles.foldl toggleSelection sel ↔ (n ∈ sel ↔ ¬ Odd (toggles.count n)) := by
  induction toggles with
  | nil =>
    intro sel hsel
    exact ⟨hsel, fun n => by simp⟩
  | cons t ts ih =>
    intro sel hsel
    obtain ⟨hnd, hmem⟩ := toggleSelection_spec sel t hsel
    obtain ⟨hnd2, hmem2⟩ := ih (toggleSelection sel t) hnd
    refine ⟨hnd2, ?_⟩
    intro n
    rw [List.foldl_cons, hmem2 n, hmem n]
    by_cases hn : n = t
    · subst hn
      rw [if_pos rfl, List.count_cons_self, Nat.odd_add_one]
      tauto
    · rw [if_neg hn, List.count_cons_of_ne hn]

/-- The selection after a run of `handleInvoiceSelection` calls. -/
theorem foldl_handleInvoiceSelection (toggles : List String) (s : State) :
    (toggles.foldl handleInvoiceSelection s).selectedInvoices =
      toggles.foldl toggleSelection s.selectedInvoices := by
  induction toggles generalizing s with
  | nil => rfl
  | cons t ts ih => rw [List.foldl_cons, ih, List.foldl_cons]; rfl

/-- C25: starting from an empty selection, after any sequence of handleInvoiceSelection
toggles the selection contains no duplicate, and it contains an invoice number if and only if
that number was toggled an odd number of times. -/
theorem C25_toggle_selection (s : State) (hs : s.selectedInvoices = [])
    (toggles : List String) :
    (toggles.foldl handleInvoiceSelection s).selectedInvoices.Nodup ∧
      ∀ n : String,
        n ∈ (toggles.foldl handleInvoiceSelection s).selectedInvoices ↔
          Odd (toggles.count n) := by
  rw [foldl_handleInvoiceSelection, hs]
  obtain ⟨hnd, hmem⟩ := foldl_toggleSelection_spec toggles [] List.nodup_nil
  refine ⟨hnd, ?_⟩
  intro n
  rw [hmem n]
  simp

/-- C25 at a concrete run: after the toggles `INV-1`, `INV-2`, `INV-1` on the freshly mounted
form the selection is `INV-2` alone. -/
theorem C25_toggle_selection_witness :
    (["INV-1", "INV-2", "INV-1"].foldl handleInvoiceSelection
        (initialState "2024-06-01")).selectedInvoices = ["INV-2"] ∧
      (["INV-1", "INV-2", "INV-1"].foldl handleInvoiceSelection
        (initialState "2024-06-01")).selectedInvoices.Nodup ∧
      ∀ n : String,
        n ∈ (["INV-1", "INV-2", "INV-1"].foldl handleInvoiceSelection
            (initialState "2024-06-01")).selectedInvoices ↔
          Odd (["INV-1", "INV-2", "INV-1"].count n) :=
  ⟨by decide, C25_toggle_selection (initialState "2024-06-01") rfl ["INV-1", "INV-2", "INV-1"]⟩

end PaymentManagement

/-! ## PDF paging: the offsets of the pages (C26) -/

namespace InvoicePDFGenerator

/-- The paging loop on heights whose subtractions are exact: started at `heightLeft = h - j * H`
with `m` further positive residues ahead, it draws the image at the offsets `-(j * H)`,
`-((j + 1) * H)`, ..., one per added page. -/
theorem pagingLoop_exact_positions (h H : ℚ) :
    ∀ (m j fuel : Nat) (positions : List JSNum),
      m ≤ fuel →
      (∀ k : Nat, k < m → 0 < h - ((j + k : Nat) : ℚ) * H) →
      h - ((j + m : Nat) : ℚ) * H ≤ 0 →
      (∀ k : Nat, k < m →
        (JSNum.fin (h - ((j + k : Nat) : ℚ) * H)).sub (JSNum.fin H) =
          JSNum.fin (h - ((j + k + 1 : Nat) : ℚ) * H)) →
      (∀ k : Nat, k < m →
        (JSNum.fin (h - ((j + k : Nat) : ℚ) * H)).sub (JSNum.fin h) =
          JSNum.fin (-(((j + k : Nat) : ℚ) * H))) →
      pagingLoop (JSNum.fin h) (JSNum.fin H) fuel (JSNum.fin (h - ((j : Nat) : ℚ) * H))
          positions =
        some (positions ++
          (List.range m).map (fun k => JSNum.fin (-(((j + k : Nat) : ℚ) * H)))) := by
  intro m
  induction m with
  | zero =>
    intro j fuel positions _ _ hle _ _
    have hle0 : ¬ 0 < h - ((j : Nat) : ℚ) * H := by simpa using hle
    cases fuel <;> simp [pagingLoop, JSNum.gt, JSNum.lt, hle0]
  | succ m ih =>
    intro j fuel positions hfuel hpos hle hexact hoff
    obtain ⟨f, rfl⟩ : ∃ f, fuel = f + 1 := ⟨fuel - 1, by omega⟩
    have h0 : 0 < h - ((j : Nat) : ℚ) * H := by simpa using hpos 0 (Nat.succ_pos m)
    have e0 : (JSNum.fin (h - ((j : Nat) : ℚ) * H)).sub (JSNum.fin H) =
        JSNum.fin (h - ((j + 1 : Nat) : ℚ) * H) := by simpa using hexact 0 (Nat.succ_pos m)
    have o0 : (JSNum.fin (h - ((j : Nat) : ℚ) * H)).sub (JSNum.fin h) =
        JSNum.fin (-(((j : Nat) : ℚ) * H)) := by simpa using hoff 0 (Nat.succ_pos m)
    have hrec :=
      ih (j + 1) f (positions ++ [JSNum.fin (-(((j : Nat) : ℚ) * H))])
        (by omega)
        (fun k hk => by
          have := hpos (k + 1) (by omega)
          rwa [show j + (k + 1) = j + 1 + k by omega] at this)
        (by rwa [show j + (m + 1) = j + 1 + m by omega] at hle)
        (fun k hk => by
          have := hexact (k + 1) (by omega)
          rwa [show j + (k + 1) = j + 1 + k by omega] at this)
        (fun k hk => by
          have := hoff (k + 1) (by omega)
          rwa [show j + (k + 1) = j + 1 + k by omega] at this)
    rw [pagingLoop]
    simp only [JSNum.gt, JSNum.lt, h0, decide_True, if_true]
    rw [e0, o0, hrec, List.range_succ_eq_map, List.map_cons, List.map_map, List.append_assoc]
    congr 2
    simp only [List.singleton_append, Nat.add_zero, List.cons.injEq, true_and]
    apply List.map_congr_left
    intro k _
    simp only [Function.comp_apply]
    rw [show j + 1 + k = j + (k + 1) by omega]

/-- C26, as stated, fails: for the image height 0.7 and the page height 0.1 (the doubles
nearest to them) the second page is drawn at the offset -0.09999999999999998, which is not
`-1 * H`. -/
theorem C26_counterexample_offset_drift :
    (generatePDFPages 100 (JSNum.roundDouble (7 / 10)) (JSNum.roundDouble (1 / 10))).map
        (fun positions => positions.take 2) =
        some [JSNum.fin 0, JSNum.fin (-900719925474099 / 9007199254740992)] ∧
      JSNum.roundDouble (1 / 10) = JSNum.fin (3602879701896397 / 36028797018963968) ∧
      (-900719925474099 / 9007199254740992 : ℚ) ≠
        -(1 * (3602879701896397 / 36028797018963968)) := by
  decide!

/-- C26, amended: for an image height `h > 0` and a page height `H > 0` for which the loop's
subtractions (`heightLeft -= pdfHeight` and `position = heightLeft - imgHeight`) are exact in
double arithmetic, the image is drawn on the `k`-th page (`k = 0, 1, ...`, `ceil(h / H)` pages)
at the vertical offset `-k * H`; so consecutive pages show consecutive page-height slices, which
do not overlap and together cover the image height: `h ≤ ceil(h / H) * H`. -/
theorem C26_page_offsets (h H : ℚ) (hh : 0 < h) (hH : 0 < H)
    (hexact : ∀ k : Nat, k < ⌈h / H⌉₊ →
      (JSNum.fin (h - ((k : Nat) : ℚ) * H)).sub (JSNum.fin H) =
        JSNum.fin (h - ((k + 1 : Nat) : ℚ) * H))
    (hoffset : ∀ k : Nat, 1 ≤ k → k < ⌈h / H⌉₊ →
      (JSNum.fin (h - ((k : Nat) : ℚ) * H)).sub (JSNum.fin h) =
        JSNum.fin (-(((k : Nat) : ℚ) * H)))
    (fuel : Nat) (hfuel : ⌈h / H⌉₊ ≤ fuel) :
    generatePDFPages fuel (JSNum.fin h) (JSNum.fin H) =
        some ((List.range ⌈h / H⌉₊).map (fun k => JSNum.fin (-(((k : Nat) : ℚ) * H)))) ∧
      h ≤ (⌈h / H⌉₊ : ℚ) * H ∧ ((⌈h / H⌉₊ : ℚ) - 1) * H < h := by
  have hn : 0 < ⌈h / H⌉₊ := Nat.ceil_pos.2 (div_pos hh hH)
  have hceil : h / H ≤ (⌈h / H⌉₊ : ℚ) := Nat.le_ceil _
  have hcover : h ≤ (⌈h / H⌉₊ : ℚ) * H := (div_le_iff₀ hH).1 hceil
  have hlast : h - ((1 + (⌈h / H⌉₊ - 1) : Nat) : ℚ) * H ≤ 0 := by
    rw [show 1 + (⌈h / H⌉₊ - 1) = ⌈h / H⌉₊ by omega]
    linarith
  have hbefore : ∀ k : Nat, k < ⌈h / H⌉₊ - 1 → 0 < h - ((1 + k : Nat) : ℚ) * H := by
    intro k hk
    have hlt : ((1 + k : Nat) : ℚ) < h / H := Nat.lt_ceil.1 (by omega)
    have := (lt_div_iff₀ hH).1 hlt
    linarith
  have e0 : (JSNum.fin h).sub (JSNum.fin H) = JSNum.fin (h - ((1 : Nat) : ℚ) * H) := by
    simpa using hexact 0 hn
  have hrun :=
    pagingLoop_exact_positions h H (⌈h / H⌉₊ - 1) 1 fuel [JSNum.fin 0] (by omega) hbefore hlast
      (fun k hk => hexact (1 + k) (by omega))
      (fun k hk => hoffset (1 + k) (by omega) (by omega))
  refine ⟨?_, hcover, ?_⟩
  · unfold generatePDFPages
    rw [e0, hrun]
    congr 1
    obtain ⟨m, hm⟩ : ∃ m, ⌈h / H⌉₊ = m + 1 := ⟨⌈h / H⌉₊ - 1, by omega⟩
    rw [hm, Nat.add_sub_cancel, List.range_succ_eq_map, List.map_cons, List.map_map]
    simp only [List.singleton_append, Nat.cast_zero, zero_mul, neg_zero, List.cons.injEq,
      true_and]
    apply List.map_congr_left
    intro k _
    simp only [Function.comp_apply]
    rw [show 1 + k = k + 1 by omega]
  · by_cases h1 : ⌈h / H⌉₊ = 1
    · rw [h1]
      simpa using hh
    · have hlt : ((⌈h / H⌉₊ - 1 : Nat) : ℚ) < h / H := Nat.lt_ceil.1 (by omega)
      have := (lt_div_iff₀ hH).1 hlt
      rw [Nat.cast_sub (by omega)] at this
      simpa using this

/-- C26, amended, at a concrete paging: an image of height 7 on pages of height 2 is drawn at
the offsets 0, -2, -4 and -6. -/
theorem C26_page_offsets_witness :
    (0 : ℚ) < 7 ∧ (0 : ℚ) < 2 ∧ ⌈(7 : ℚ) / 2⌉₊ = 4 ∧
      generatePDFPages 4 (JSNum.fin 7) (JSNum.fin 2) =
        some ((List.range ⌈(7 : ℚ) / 2⌉₊).map (fun k => JSNum.fin (-(((k : Nat) : ℚ) * 2)))) ∧
      (7 : ℚ) ≤ (⌈(7 : ℚ) / 2⌉₊ : ℚ) * 2 ∧ ((⌈(7 : ℚ) / 2⌉₊ : ℚ) - 1) * 2 < 7 :=
  have hc : ⌈(7 : ℚ) / 2⌉₊ = 4 := by
    rw [Nat.ceil_eq_iff (by norm_num)]
    norm_num
  ⟨by norm_num, by norm_num, hc,
    C26_page_offsets 7 2 (by norm_num) (by norm_num)
      (fun k hk => by
        rw [hc] at hk
        interval_cases k <;> decide!)
      (fun k hk1 hk => by
        rw [hc] at hk
        interval_cases k <;> decide!)
      4 (by rw [hc])⟩

end InvoicePDFGenerator

/-! ## The Change Password form (C27) -/

namespace ChangePassword

/-- Typing into an input keeps the stored strength current. -/
theorem handleChange_current (s : State) (name value : String) (h : StrengthCurrent s) :
    StrengthCurrent (handleChange s name value) := by
  unfold handleChange
  by_cases h1 : name = "newPassword"
  · rw [if_pos h1]
    exact Or.inr rfl
  · rw [if_neg h1]
    by_cases h2 : name = "oldPassword"
    · rw [if_pos h2]
      exact h
    · rw [if_neg h2]
      by_cases h3 : name = "confirmPassword"
      · rw [if_pos h3]
        exact h
      · rw [if_neg h3]
        exact h

/-- A submission keeps the stored strength current. -/
theorem handleSubmit_current (s : State) (token : Option String) (net : FetchOutcome)
    (h : StrengthCurrent s) : StrengthCurrent (handleSubmit s token net).state := by
  unfold handleSubmit
  split
  · exact h
  · split
    · exact h
    · split
      · exact h
      · split
        · exact h
        · split
          rename_i reqs ts result _
          by_cases hs : (result.getProp "success").truthy = true
          · simp only [hs, if_true]
            exact Or.inl rfl
          · simp only [hs]
            exact h

/-- In every state the form reaches the stored strength is current. -/
theorem run_current (events : List Event) : StrengthCurrent (run events) := by
  unfold run
  have hgen : ∀ (evs : List Event) (s : State), StrengthCurrent s →
      StrengthCurrent (evs.foldl step s) := by
    intro evs
    induction evs with
    | nil => intro s hs; exact hs
    | cons e es ih =>
      intro s hs
      rw [List.foldl_cons]
      apply ih
      cases e with
      | change name value => exact handleChange_current s name value hs
      | submit token net => exact handleSubmit_current s token net hs
  exact hgen events initialState (Or.inl rfl)

/-- The requests of `handleSubmit`: none when one of its four checks fails, otherwise the one
`changePassword` body. -/
theorem changePasswordSubmit_requests (s : State) (token : Option String) (net : FetchOutcome) :
    (handleSubmit s token net).requests =
      if (s.formData.oldPassword = "" ∨ s.formData.newPassword = "" ∨
            s.formData.confirmPassword = "") ∨
          s.formData.newPassword ≠ s.formData.confirmPassword ∨
          (match s.passwordStrength with
            | some strength => strength.valid
            | none => false) = false ∨
          s.formData.oldPassword = s.formData.newPassword then []
      else
        [requestData token "changePassword"
          [("oldPassword", JSValue.str s.formData.oldPassword),
            ("newPassword", JSValue.str s.formData.newPassword)]] := by
  unfold handleSubmit
  by_cases h1 : s.formData.oldPassword = "" ∨ s.formData.newPassword = "" ∨
      s.formData.confirmPassword = ""
  · rw [if_pos h1, if_pos (Or.inl h1)]
  rw [if_neg h1]
  by_cases h2 : s.formData.newPassword ≠ s.formData.confirmPassword
  · rw [if_pos h2, if_pos (Or.inr (Or.inl h2))]
  rw [if_neg h2]
  by_cases h3 : (match s.passwordStrength with
      | some strength => strength.valid
      | none => false) = false
  · rw [if_pos (by simp [h3]), if_pos (Or.inr (Or.inr (Or.inl h3)))]
  rw [if_neg (by simpa using h3)]
  by_cases h4 : s.formData.oldPassword = s.formData.newPassword
  · rw [if_pos h4, if_pos (Or.inr (Or.inr (Or.inr h4)))]
  rw [if_neg h4, if_neg (by
    rintro (h | h | h | h)
    · exact h1 h
    · exact h2 h
    · exact h3 h
    · exact h4 h)]
  have hreq := callAPI_requests token "changePassword"
    [("oldPassword", JSValue.str s.formData.oldPassword),
      ("newPassword", JSValue.str s.formData.newPassword)] net
  unfold changePassword authAPI_changePassword
  split
  rename_i reqs ts result heq
  split at heq
  · rename_i heq2
    rw [heq2] at hreq
    simp only [Prod.mk.injEq] at heq
    simp only at hreq
    rw [← heq.1, hreq]
  · rename_i heq2
    rw [heq2] at hreq
    simp only [Prod.mk.injEq] at heq
    simp only at hreq
    rw [← heq.1, hreq]

/-- C27: in every state the Change Password form reaches (by typing into its inputs and by
submitting), the stored passwordStrength is null or validatePassword of the current
new-password field, and handleSubmit sends a changePassword request if and only if all three
fields are non-empty, the new password equals the confirmation, the new password differs from
the old one, and validatePassword of the current new-password field is valid. -/
theorem C27_change_password_sent (events : List Event) (token : Option String)
    (net : FetchOutcome) :
    ((run events).passwordStrength = none ∨
        (run events).passwordStrength =
          some (validatePassword (run events).formData.newPassword)) ∧
      ((handleSubmit (run events) token net).sends "changePassword" = true →
        (run events).formData.oldPassword ≠ "" ∧ (run events).formData.newPassword ≠ "" ∧
          (run events).formData.confirmPassword ≠ "" ∧
          (run events).formData.newPassword = (run events).formData.confirmPassword ∧
          (run events).formData.newPassword ≠ (run events).formData.oldPassword ∧
          (validatePassword (run events).formData.newPassword).valid = true) ∧
      ((run events).formData.oldPassword ≠ "" → (run events).formData.newPassword ≠ "" →
        (run events).formData.newPassword = (run events).formData.confirmPassword →
        (run events).formData.newPassword ≠ (run events).formData.oldPassword →
        (run events).passwordStrength =
          some (validatePassword (run events).formData.newPassword) →
        (validatePassword (run events).formData.newPassword).valid = true →
        (handleSubmit (run events) token net).requests =
          [requestData token "changePassword"
            [("oldPassword", JSValue.str (run events).formData.oldPassword),
              ("newPassword", JSValue.str (run events).formData.newPassword)]]) := by
  have hcur := run_current events
  refine ⟨hcur, ?_, ?_⟩
  · intro hsent
    unfold HandlerResult.sends at hsent
    rw [changePasswordSubmit_requests] at hsent
    split at hsent
    · simp at hsent
    · rename_i hg
      push_neg at hg
      obtain ⟨⟨ho, hn, hc⟩, heq, hvalid, hdiff⟩ := hg
      refine ⟨ho, hn, hc, heq, fun h => hdiff h.symm, ?_⟩
      rcases hcur with hnone | hsome
      · rw [hnone] at hvalid
        simp at hvalid
      · rw [hsome] at hvalid
        simpa using hvalid
  · intro ho hn heq hdiff hstr hvalid
    rw [changePasswordSubmit_requests, if_neg]
    rintro (⟨h | h | h⟩ | h | h | h)
    · exact ho h
    · exact hn h
    · rw [← heq] at h
      exact hn h
    · exact h heq
    · rw [hstr] at h
      simp only at h
      rw [hvalid] at h
      exact Bool.noConfusion h
    · exact hdiff h.symm

/-- C27 at a concrete session: after the three fields are typed (old `Old12345`, new and
confirmation `Passw0rd`) the submission sends the request, and the new password is valid. -/
theorem C27_change_password_sent_witness :
    (handleSubmit
        (run [Event.change "oldPassword" "Old12345", Event.change "newPassword" "Passw0rd",
          Event.change "confirmPassword" "Passw0rd"])
        (some "t") successResponse).sends "changePassword" = true ∧
      (validatePassword
        (run [Event.change "oldPassword" "Old12345", Event.change "newPassword" "Passw0rd",
          Event.change "confirmPassword" "Passw0rd"]).formData.newPassword).valid = true :=
  ⟨by decide!,
    ((C27_change_password_sent
      [Event.change "oldPassword" "Old12345", Event.change "newPassword" "Passw0rd",
        Event.change "confirmPassword" "Passw0rd"]
      (some "t") successResponse).2.1 (by decide!)).2.2.2.2.2⟩

end ChangePassword

/-! ## The filters of `getInvoices` requests and the developer dashboard's links (C28, C29) -/

/-- C28, evaluated on the code: the `getInvoices` request of fetchUnpaidInvoices('DEV001') has
a `filters` object whose own `developerId` and `unpaidOnly` are undefined; the criteria are the
fields of an object nested one level deeper, `filters.filters`.  The request of handleCRChange
nests its `developerId` the same way. -/
theorem C28_filters_nested :
    (PaymentManagement.fetchUnpaidInvoices (PaymentManagement.formWithAmount "" false) "DEV001"
        (some "t") successResponse []).requests.map
        (fun body =>
          (body.isAction "getInvoices",
            ((body.get "filters").getProp "developerId").isNullish,
            ((body.get "filters").getProp "unpaidOnly").isNullish,
            (((body.get "filters").getProp "filters").getProp "developerId").strictEqualsStr
              "DEV001",
            (((body.get "filters").getProp "filters").getProp "unpaidOnly").truthy)) =
        [(true, true, true, true, true)] ∧
      (InvoiceManagement.handleCRChange (InvoiceManagement.pageWithCR "Ready for Billing" "0")
        "CR-1" (some "t") successResponse).requests.map
        (fun body =>
          (body.isAction "getInvoices",
            ((body.get "filters").getProp "developerId").isNullish,
            (((body.get "filters").getProp "filters").getProp "developerId").strictEqualsStr
              "DEV001")) =
        [(true, true, true)] := by
  decide!

/-- C29, evaluated on the code: the developer dashboard navigates to `/developer/crs` (four of
its seven links), which is no registered route: the Developer routes are
`/developer/dashboard`, `/developer/my-crs` and `/developer/earnings`, so the location falls
through to the catch-all route and is redirected to `/login`. -/
theorem C29_dashboard_link_unregistered :
    "/developer/crs" ∈ DeveloperDashboard.navigateTargets ∧
      "/developer/crs" ∉ App.developerRoutes ∧
      App.resolve "/developer/crs" = App.RouteElement.navigate "/login" ∧
      App.developerRoutes = ["/developer/dashboard", "/developer/my-crs", "/developer/earnings"] ∧
      DeveloperDashboard.navigateTargets.filter (fun path => !App.developerRoutes.contains path) =
        ["/developer/crs", "/developer/crs", "/developer/crs", "/developer/crs"] ∧
      App.resolve "/developer/my-crs" =
        App.RouteElement.protectedPage "MyCRs" [App.Role.developer] := by
  decide

end CRTracking
